import Mathlib

/-!
# flecs-systems-admin: the measurement engine of `src/admin.c`

A shallow embedding of the statistics collector of the flecs admin module.

Numeric model.  The C code computes with `double` and stores `current` in a `float`.
Here a `double` is a rational number and its arithmetic is exact, so statements about
sums, quotients and means are statements of exact arithmetic; infinities and NaN are
outside the model.  The one `float` of the program, the field `current`, holds its double
sample narrowed to single precision: `double_to_float` rounds to the nearest
single-precision value.  Unsigned counters are natural numbers.

Memory model.  A C pointer to a ring buffer is modelled by the value of the
buffer; a pointer into a ring buffer (what `ecs_ringbuf_push` and
`ecs_ringbuf_last` return) is modelled by the number of the slot it points to.
-/

namespace Admin

/-! ## Ring buffer of the host library -/

/-- The constant `MEASUREMENT_COUNT` of `admin.c`. -/
def MEASUREMENT_COUNT : Nat := 60

/-- Modelled from the spec: the ring buffer `ecs_ringbuf_t` of the host library, which is
not part of the repository.  A fixed capacity `cap`, a backing storage of `cap` slots and
the write counter `W` (the total number of pushes ever made, not wrapped). -/
structure ecs_ringbuf_t where
  cap : Nat
  storage : List ℚ
  W : Nat
deriving DecidableEq

/-- Modelled from the spec: `ecs_ringbuf_new`, a buffer of the given capacity with no
element pushed yet. -/
def ecs_ringbuf_new (elem_count : Nat) : ecs_ringbuf_t :=
  { cap := elem_count, storage := List.replicate elem_count 0, W := 0 }

/-- Modelled from the spec: `ecs_ringbuf_count`, the current logical count `min(W, C)`. -/
def ecs_ringbuf_count (b : ecs_ringbuf_t) : Nat := min b.W b.cap

/-- Modelled from the spec: `ecs_ringbuf_index`, the position in the cycle `W mod C`. -/
def ecs_ringbuf_index (b : ecs_ringbuf_t) : Nat := b.W % b.cap

/-- Modelled from the spec: `ecs_ringbuf_push` together with the store through the pointer
it returns.  The n-th push (0-indexed) writes the physical slot `n mod C`, overwriting the
oldest element once the buffer is full.  Every caller in `admin.c` stores a value through
the returned pointer before the buffer is used again, so push and store are one step. -/
def ecs_ringbuf_push (b : ecs_ringbuf_t) (v : ℚ) : ecs_ringbuf_t :=
  { b with storage := b.storage.set (b.W % b.cap) v, W := b.W + 1 }

/-- Modelled from the spec: `ecs_ringbuf_last`, the slot of the most recently pushed
element; undefined (`none`) when nothing has been pushed. -/
def ecs_ringbuf_last (b : ecs_ringbuf_t) : Option Nat :=
  if ecs_ringbuf_count b = 0 then none else some ((b.W - 1) % b.cap)

/-- Modelled from the spec: `ecs_ringbuf_get`, the i-th logical element (0 = oldest present),
which lives in slot `(W - count + i) mod C`; an index outside `[0, count)` is an error. -/
def ecs_ringbuf_get (b : ecs_ringbuf_t) (i : Nat) : Option ℚ :=
  if i < ecs_ringbuf_count b then
    b.storage[(b.W - ecs_ringbuf_count b + i) % b.cap]?
  else none

/-- Read through a pointer to a slot of the buffer (`*value`). -/
def ecs_ringbuf_t.deref (b : ecs_ringbuf_t) (slot : Nat) : ℚ := b.storage.getD slot 0

/-- Write through a pointer to a slot of the buffer (`*value = v`). -/
def ecs_ringbuf_t.store (b : ecs_ringbuf_t) (slot : Nat) (v : ℚ) : ecs_ringbuf_t :=
  { b with storage := b.storage.set slot v }

/-- The logical elements of a buffer, oldest first: what the loop of `AddRingBufToJson`
reads with `ecs_ringbuf_get` for `i = 0 .. count-1`. -/
def ecs_ringbuf_t.elems (b : ecs_ringbuf_t) : List ℚ :=
  (List.range (ecs_ringbuf_count b)).filterMap (ecs_ringbuf_get b)

/-! ## Narrowing a double to a float -/

/-- Round a non-negative rational to the nearest natural number, ties to even. -/
def roundHalfEven (a : ℚ) : Nat :=
  let fl := a.floor.toNat
  if a - fl < 1 / 2 then fl
  else if a - fl > 1 / 2 then fl + 1
  else if fl % 2 = 0 then fl else fl + 1

/-- The binary exponent of a single-precision value of magnitude `a`: the greatest `e` in
`-125 .. k - 126` with `2 ^ e ≤ a`, and `-126` (the exponent of the subnormal values) when
there is none. -/
def float_exponent (a : ℚ) : Nat → ℤ
  | 0 => -126
  | k + 1 => if (2 : ℚ) ^ ((k : ℤ) - 125) ≤ a then (k : ℤ) - 125 else float_exponent a k

/-- The C conversion of a finite `double` to `float` (IEEE 754 binary32, round to nearest,
ties to even): the value is rounded to a multiple of `2 ^ (e - 23)`, `e` its binary
exponent, at least `-126` and at most 127.  Values beyond the largest float, which C
converts to an infinity, are outside the model. -/
def double_to_float (x : ℚ) : ℚ :=
  let quantum : ℚ := 2 ^ (float_exponent |x| 253 - 23)
  let m := roundHalfEven (|x| / quantum)
  if x < 0 then -((m : ℚ) * quantum) else (m : ℚ) * quantum

/-! ## Measurement -/

/-- The struct `Measurement`.  The field `current` is a `float`: it holds
single-precision values; the buffers hold doubles. -/
structure Measurement where
  current : ℚ
  data_1m : ecs_ringbuf_t
  data_1h : ecs_ringbuf_t
  min_1h : ecs_ringbuf_t
  max_1h : ecs_ringbuf_t
deriving DecidableEq

/-- The function `InitMeasurement`: four empty buffers of capacity `MEASUREMENT_COUNT`;
`current` is zero-initialised by the designated initialiser. -/
def InitMeasurement : Measurement :=
  { current := 0
    data_1m := ecs_ringbuf_new MEASUREMENT_COUNT
    data_1h := ecs_ringbuf_new MEASUREMENT_COUNT
    min_1h := ecs_ringbuf_new MEASUREMENT_COUNT
    max_1h := ecs_ringbuf_new MEASUREMENT_COUNT }

/-- The function `PushMeasurement`: append one entry to each hourly buffer, the mean
seeded with 0, the maximum and the minimum seeded with the sample. -/
def PushMeasurement (measurement : Measurement) (current : ℚ) : Measurement :=
  { measurement with
    data_1h := ecs_ringbuf_push measurement.data_1h 0
    max_1h := ecs_ringbuf_push measurement.max_1h current
    min_1h := ecs_ringbuf_push measurement.min_1h current }

/-- The function `AddMeasurement`.  The assignment `measurement->current = current`
narrows the double sample to the `float` field.  The result is `none` when
`ecs_ringbuf_last` is called on an hourly buffer that holds no element (undefined
behaviour in C). -/
def AddMeasurement (measurement : Measurement) (current : ℚ) : Option Measurement :=
  let index := ecs_ringbuf_index measurement.data_1m
  let m1 : Measurement :=
    { measurement with
      data_1m := ecs_ringbuf_push measurement.data_1m current
      current := double_to_float current }
  let m2 : Measurement :=
    if index % MEASUREMENT_COUNT = 0 then PushMeasurement m1 current else m1
  match ecs_ringbuf_last m2.data_1h, ecs_ringbuf_last m2.max_1h, ecs_ringbuf_last m2.min_1h with
  | some value, some max, some min =>
    some { m2 with
      data_1h := m2.data_1h.store value
        ((m2.data_1h.deref value * (index : ℚ) + current) / ((index : ℚ) + 1))
      max_1h := if current > m2.max_1h.deref max then m2.max_1h.store max current else m2.max_1h
      min_1h := if current < m2.min_1h.deref min then m2.min_1h.store min current else m2.min_1h }
  | _, _, _ => none

/-- Feed a sequence of samples to `AddMeasurement`, oldest first. -/
def feed (m : Measurement) (samples : List ℚ) : Option Measurement :=
  samples.foldlM AddMeasurement m

/-- The samples of bucket `j`: those numbered `60*j .. 60*j+59` (as far as they exist). -/
def bucket (samples : List ℚ) (j : Nat) : List ℚ :=
  (samples.drop (MEASUREMENT_COUNT * j)).take MEASUREMENT_COUNT

/-! ## Statistics supplied by the host library -/

/-- The fields of the host type `EcsSystemStats` that `admin.c` reads (the declaration is
in a header of the host library).  The handle is a 64-bit entity id, the counters are
`uint32_t`, the times are floating-point seconds. -/
structure EcsSystemStats where
  handle : Nat
  id : String
  signature : String
  tables_matched : Nat
  entities_matched : Nat
  period : ℚ
  time_spent : ℚ
  enabled : Bool
  active : Bool
  is_hidden : Bool
deriving DecidableEq

/-- The fields of the host type `EcsComponentStats` that `admin.c` reads. -/
structure EcsComponentStats where
  handle : Nat
  id : String
  memory_used : Nat
  entities : Nat
  tables : Nat
deriving DecidableEq

/-- The fields of the host type `EcsFeatureStats` that `admin.c` reads. -/
structure EcsFeatureStats where
  id : String
  entities : String
  system_count : Nat
  systems_enabled : Nat
  is_hidden : Bool
deriving DecidableEq

/-- One `allocd`/`used` pair of the memory statistics. -/
structure ecs_memory_stat_t where
  allocd : Nat
  used : Nat
deriving DecidableEq

/-- The memory statistics by category, as read by `JsonFromStats`. -/
structure ecs_memory_stats_t where
  total : ecs_memory_stat_t
  components : ecs_memory_stat_t
  entities : ecs_memory_stat_t
  systems : ecs_memory_stat_t
  families : ecs_memory_stat_t
  tables : ecs_memory_stat_t
  stage : ecs_memory_stat_t
  world : ecs_memory_stat_t
deriving DecidableEq

/-- The fields of the host type `ecs_world_stats_t` that `admin.c` reads: what
`ecs_get_stats` reports for one tick. -/
structure ecs_world_stats_t where
  system_count : Nat
  component_count : Nat
  table_count : Nat
  entity_count : Nat
  thread_count : Nat
  tick_count : Nat
  system_time : ℚ
  frame_time : ℚ
  memory : ecs_memory_stats_t
  features : List EcsFeatureStats
  on_load_systems : List EcsSystemStats
  post_load_systems : List EcsSystemStats
  pre_update_systems : List EcsSystemStats
  on_update_systems : List EcsSystemStats
  on_validate_systems : List EcsSystemStats
  post_update_systems : List EcsSystemStats
  pre_store_systems : List EcsSystemStats
  on_store_systems : List EcsSystemStats
  manual_systems : List EcsSystemStats
  on_add_systems : List EcsSystemStats
  on_set_systems : List EcsSystemStats
  on_remove_systems : List EcsSystemStats
  components : List EcsComponentStats
  frame_profiling : Bool
  system_profiling : Bool
deriving DecidableEq

/-! ## Keyed stores -/

/-- Modelled from the spec: the host map `ecs_map_t`, which is not part of the repository:
the mapping from a 64-bit key to the ring buffer of that key, as an association list.  The
C map stores a pointer to the buffer; here the entry holds the buffer itself. -/
abbrev ecs_map_t := List (Nat × ecs_ringbuf_t)

/-- Modelled from the spec: the host function `ecs_map_has`, the lookup of a key: the
buffer stored under `key`, if there is one. -/
def ecs_map_has : ecs_map_t → Nat → Option ecs_ringbuf_t
  | [], _ => none
  | (k, v) :: rest, key => if k = key then some v else ecs_map_has rest key

/-- Modelled from the spec: the host function `ecs_map_set`: store `value` under `key`,
replacing the entry of the key when it has one, adding an entry otherwise. -/
def ecs_map_set : ecs_map_t → Nat → ecs_ringbuf_t → ecs_map_t
  | [], key, value => [(key, value)]
  | (k, v) :: rest, key, value =>
    if k = key then (key, value) :: rest else (k, v) :: ecs_map_set rest key value

/-- The struct `EcsAdminMeasurement`.  A null map pointer and a null `stats_json` are
`none`; the mutex is not part of the sequential model. -/
structure EcsAdminMeasurement where
  fps : Measurement
  frame : Measurement
  system : Measurement
  system_measurements : Option ecs_map_t
  component_measurements : Option ecs_map_t
  tick : Nat
  stats_json : Option String
deriving DecidableEq

/-- The component value set by `EcsAdminStart`: three initialised measurements, every other
field zero. -/
def EcsAdminMeasurement_init : EcsAdminMeasurement :=
  { fps := InitMeasurement
    frame := InitMeasurement
    system := InitMeasurement
    system_measurements := none
    component_measurements := none
    tick := 0
    stats_json := none }

/-- One iteration of the loop of `AddSystemMeasurement` and of `AddComponentMeasurements`:
look the key up, create a buffer of capacity `MEASUREMENT_COUNT` when it has none, and push
the value.  The entry of the map is the buffer pushed into. -/
def record (map : ecs_map_t) (handle : Nat) (value : ℚ) : ecs_map_t :=
  match ecs_map_has map handle with
  | none => ecs_map_set map handle (ecs_ringbuf_push (ecs_ringbuf_new MEASUREMENT_COUNT) value)
  | some buf => ecs_map_set map handle (ecs_ringbuf_push buf value)

/-- The function `AddSystemMeasurement`.  The value recorded is the exact quotient; when
`stats->system_time` is 0 the C division gives NaN or an infinity, which the rationals do
not have, so the value of the model is that of the source only for a non-zero
`system_time` (the divisors of a tick are listed by `AddSystemMeasurement_divisors`). -/
def AddSystemMeasurement (data : EcsAdminMeasurement) (stats : ecs_world_stats_t)
    (systems : List EcsSystemStats) (_fps : ℚ) : EcsAdminMeasurement :=
  let map : ecs_map_t :=
    match data.system_measurements with
    | none => []
    | some map => map
  { data with
    system_measurements :=
      some (systems.foldl
        (fun map system =>
          record map system.handle ((system.time_spent / stats.system_time) * 100))
        map) }

/-- The function `AddComponentMeasurements`. -/
def AddComponentMeasurements (data : EcsAdminMeasurement) (stats : ecs_world_stats_t) :
    EcsAdminMeasurement :=
  let map : ecs_map_t :=
    match data.component_measurements with
    | none => []
    | some map => map
  { data with
    component_measurements :=
      some (stats.components.foldl
        (fun map component => record map component.handle (component.memory_used : ℚ))
        map) }

/-! ## Formatting -/

/-- The conversion `%u` of `printf` for an unsigned counter. -/
def fmt_u (n : Nat) : String := toString n

/-- The conversion `%d` of `printf` applied to `(uint32_t)handle`: the low 32 bits of the
handle, read as a signed 32-bit integer. -/
def fmt_d (handle : Nat) : String :=
  if handle % 2 ^ 32 < 2 ^ 31 then toString (handle % 2 ^ 32)
  else "-" ++ toString (2 ^ 32 - handle % 2 ^ 32)

/-- The text of a C boolean as the format strings print it. -/
def fmt_bool (b : Bool) : String := if b then "true" else "false"

/-- The conversion `%f` of `printf` for a finite value: sign, integer part, a point and
six decimals, the value rounded to the sixth decimal. -/
def fmt_f (q : ℚ) : String :=
  let m := roundHalfEven (|q| * 1000000)
  let frac := toString (m % 1000000)
  (if q < 0 then "-" else "") ++ toString (m / 1000000) ++ "."
    ++ String.mk (List.replicate (6 - frac.length) (Char.ofNat 48)) ++ frac

/-! ## Serialisation -/

/-- The function `AddRingBufToJson`. -/
def AddRingBufToJson (buf : String) (member : String) (values : ecs_ringbuf_t) : String :=
  let count := ecs_ringbuf_count values
  let buf := buf ++ ",\"" ++ member ++ "\":["
  let buf := (List.range count).foldl
    (fun buf i =>
      let buf := if i ≠ 0 then buf ++ "," else buf
      match ecs_ringbuf_get values i with
      | some value => buf ++ fmt_f value
      | none => buf)
    buf
  buf ++ "]"

/-- The function `AddMeasurementToJson`. -/
def AddMeasurementToJson (buf : String) (member : String) (measurement : Measurement) :
    String :=
  let buf := buf ++ ",\"" ++ member ++ "\":\x7b"
  let buf := buf ++ "\"current\":" ++ fmt_f measurement.current
  let buf := AddRingBufToJson buf "data_1m" measurement.data_1m
  let buf := AddRingBufToJson buf "data_1h" measurement.data_1h
  let buf := AddRingBufToJson buf "min_1h" measurement.min_1h
  let buf := AddRingBufToJson buf "max_1h" measurement.max_1h
  buf ++ "\x7d"

/-- The map lookup of the serialisers; a null map pointer holds no key. -/
def map_lookup (map : Option ecs_map_t) (key : Nat) : Option ecs_ringbuf_t :=
  match map with
  | none => none
  | some map => ecs_map_has map key

/-- The record that `AddComponentsToJson` appends for one component. -/
def ComponentToJson (buf : String) (stats : EcsComponentStats) (data : EcsAdminMeasurement) :
    String :=
  let buf := buf ++ "\x7b\"handle\":" ++ fmt_d stats.handle ++ ",\"id\":\"" ++ stats.id
    ++ "\",\"entities\":" ++ fmt_u stats.entities ++ ",\"tables\":" ++ fmt_u stats.tables
  let buf :=
    match map_lookup data.component_measurements stats.handle with
    | some values => AddRingBufToJson buf "mem_used_1m" values
    | none => buf
  buf ++ "\x7d"

/-- The loop `for (i = 0; i < count; i ++)` of the serialisers: a comma before every record
but the first, then the record. -/
def json_loop {α : Type} (item : String → α → String) : Nat → List α → String → String
  | _, [], buf => buf
  | i, x :: rest, buf =>
    json_loop item (i + 1) rest (item (if i ≠ 0 then buf ++ "," else buf) x)

/-- The function `AddComponentsToJson`. -/
def AddComponentsToJson (buf : String) (world_stats : ecs_world_stats_t)
    (data : EcsAdminMeasurement) : String :=
  let count := world_stats.components.length
  if count ≠ 0 then
    let buf := buf ++ "\"components\":["
    let buf := json_loop (fun buf stats => ComponentToJson buf stats data) 0
      world_stats.components buf
    buf ++ "]"
  else buf

/-- The record that `AddSystemsToJson` appends for one system. -/
def SystemToJson (buf : String) (stats : EcsSystemStats) (frame_time fps : ℚ)
    (data : EcsAdminMeasurement) : String :=
  let buf := buf ++ "\x7b\"handle\":" ++ fmt_d stats.handle ++ ",\"id\":\"" ++ stats.id
    ++ "\",\"enabled\":" ++ fmt_bool stats.enabled ++ ",\"active\":" ++ fmt_bool stats.active
    ++ ",\"tables_matched\":" ++ fmt_u stats.tables_matched
    ++ ",\"entities_matched\":" ++ fmt_u stats.entities_matched
    ++ ",\"signature\":\"" ++ stats.signature
    ++ "\",\"is_hidden\":" ++ fmt_bool stats.is_hidden
    ++ ",\"period\":" ++ fmt_f stats.period
    ++ ",\"time_spent\":" ++ fmt_f ((stats.time_spent / (frame_time * fps)) * 100 * 100)
  let buf :=
    match map_lookup data.system_measurements stats.handle with
    | some values => AddRingBufToJson buf "time_spent_1m" values
    | none => buf
  buf ++ "\x7d"

/-- The function `AddSystemsToJson`. -/
def AddSystemsToJson (buf : String) (systems : List EcsSystemStats) (json_member : String)
    (data : EcsAdminMeasurement) : String :=
  let fps : ℚ := data.fps.current
  let frame_time : ℚ := data.frame.current * 1 / fps
  let buf := buf ++ "\"" ++ json_member ++ "\":["
  let buf := json_loop (fun buf stats => SystemToJson buf stats frame_time fps data) 0
    systems buf
  buf ++ "]"

/-- The record that `AddFeaturesToJson` appends for one feature. -/
def FeatureToJson (buf : String) (stats : EcsFeatureStats) : String :=
  buf ++ "\x7b\"id\":\"" ++ stats.id ++ "\",\"entities\":\"" ++ stats.entities
    ++ "\",\"system_count\":" ++ fmt_u stats.system_count
    ++ ",\"systems_enabled\":" ++ fmt_u stats.systems_enabled
    ++ ",\"is_hidden\":" ++ fmt_bool stats.is_hidden ++ "\x7d"

/-- The function `AddFeaturesToJson`. -/
def AddFeaturesToJson (buf : String) (features : List EcsFeatureStats) : String :=
  let count := features.length
  if count ≠ 0 then
    let buf := buf ++ ",\"features\":["
    let buf := json_loop FeatureToJson 0 features buf
    buf ++ "]"
  else buf

/-- The text `"allocd":a,"used":u` wrapped in braces, one category of the memory member. -/
def MemoryStatToJson (m : ecs_memory_stat_t) : String :=
  "\x7b\"allocd\":" ++ fmt_u m.allocd ++ ",\"used\":" ++ fmt_u m.used ++ "\x7d"

/-- The function `JsonFromStats`.  The `world` argument of the C function is unused. -/
def JsonFromStats (stats : ecs_world_stats_t) (measurements : EcsAdminMeasurement) : String :=
  let body := ""
  let body := body ++ "\x7b\"system_count\":" ++ fmt_u stats.system_count
    ++ ",\"component_count\":" ++ fmt_u stats.component_count
    ++ ",\"table_count\":" ++ fmt_u stats.table_count
    ++ ",\"entity_count\":" ++ fmt_u stats.entity_count
    ++ ",\"thread_count\":" ++ fmt_u stats.thread_count
    ++ ",\"frame_profiling\":" ++ fmt_bool stats.frame_profiling
    ++ ",\"system_profiling\":" ++ fmt_bool stats.system_profiling
  let body := body ++ ",\"memory\":\x7b"
    ++ "\"total\":" ++ MemoryStatToJson stats.memory.total ++ ","
    ++ "\"components\":" ++ MemoryStatToJson stats.memory.components ++ ","
    ++ "\"entities\":" ++ MemoryStatToJson stats.memory.entities ++ ","
    ++ "\"systems\":" ++ MemoryStatToJson stats.memory.systems ++ ","
    ++ "\"families\":" ++ MemoryStatToJson stats.memory.families ++ ","
    ++ "\"tables\":" ++ MemoryStatToJson stats.memory.tables ++ ","
    ++ "\"stage\":" ++ MemoryStatToJson stats.memory.stage ++ ","
    ++ "\"world\":" ++ MemoryStatToJson stats.memory.world ++ "\x7d,"
  let body := AddComponentsToJson body stats measurements
  let body := body ++ ",\"systems\":\x7b"
  let body := AddSystemsToJson body stats.on_load_systems "on_load" measurements
  let body := body ++ ", "
  let body := AddSystemsToJson body stats.post_load_systems "post_load" measurements
  let body := body ++ ", "
  let body := AddSystemsToJson body stats.pre_update_systems "pre_update" measurements
  let body := body ++ ", "
  let body := AddSystemsToJson body stats.on_update_systems "on_update" measurements
  let body := body ++ ", "
  let body := AddSystemsToJson body stats.on_validate_systems "on_validate" measurements
  let body := body ++ ", "
  let body := AddSystemsToJson body stats.post_update_systems "post_update" measurements
  let body := body ++ ", "
  let body := AddSystemsToJson body stats.pre_store_systems "pre_store" measurements
  let body := body ++ ", "
  let body := AddSystemsToJson body stats.on_store_systems "on_store" measurements
  let body := body ++ ", "
  let body := AddSystemsToJson body stats.manual_systems "manual" measurements
  let body := body ++ ", "
  let body := AddSystemsToJson body stats.on_add_systems "on_add" measurements
  let body := body ++ ", "
  let body := AddSystemsToJson body stats.on_set_systems "on_set" measurements
  let body := body ++ ", "
  let body := AddSystemsToJson body stats.on_remove_systems "on_remove" measurements
  let body := body ++ "\x7d"
  let body := AddFeaturesToJson body stats.features
  let body := AddMeasurementToJson body "fps" measurements.fps
  let body := AddMeasurementToJson body "frame" measurements.frame
  let body := AddMeasurementToJson body "system" measurements.system
  body ++ "\x7d"

/-! ## The collector -/

/-- The body of the loop of `EcsAdminCollectData` for one row `data[i]`.  The result is
`none` when one of the `AddMeasurement` calls is undefined. -/
def CollectRow (stats : ecs_world_stats_t) (delta_time : ℚ) (data : EcsAdminMeasurement) :
    Option EcsAdminMeasurement :=
  let fps : ℚ := if delta_time ≠ 0 then (stats.tick_count : ℚ) / delta_time else 0
  let frame : ℚ := (stats.frame_time / (stats.tick_count : ℚ)) * fps * 100
  let system : ℚ := (stats.system_time / (stats.tick_count : ℚ)) * fps * 100
  match AddMeasurement data.fps fps with
  | none => none
  | some m_fps =>
  match AddMeasurement data.frame frame with
  | none => none
  | some m_frame =>
  match AddMeasurement data.system system with
  | none => none
  | some m_system =>
    let data := { data with fps := m_fps, frame := m_frame, system := m_system }
    let data := AddSystemMeasurement data stats stats.on_load_systems fps
    let data := AddSystemMeasurement data stats stats.post_load_systems fps
    let data := AddSystemMeasurement data stats stats.pre_update_systems fps
    let data := AddSystemMeasurement data stats stats.on_update_systems fps
    let data := AddSystemMeasurement data stats stats.on_validate_systems fps
    let data := AddSystemMeasurement data stats stats.post_update_systems fps
    let data := AddSystemMeasurement data stats stats.pre_store_systems fps
    let data := AddSystemMeasurement data stats stats.on_store_systems fps
    let data := AddSystemMeasurement data stats stats.manual_systems fps
    let data := AddComponentMeasurements data stats
    let json := JsonFromStats stats data
    some { data with stats_json := some json }

/-- The loop `for (i = 0; i < rows->count; i ++)` of `EcsAdminCollectData`. -/
def CollectRows (stats : ecs_world_stats_t) (delta_time : ℚ) :
    List EcsAdminMeasurement → Option (List EcsAdminMeasurement)
  | [] => some []
  | data :: rest =>
    match CollectRow stats delta_time data with
    | none => none
    | some data2 =>
      match CollectRows stats delta_time rest with
      | none => none
      | some rest2 => some (data2 :: rest2)

/-- The system `EcsAdminCollectData`: `stats` is what `ecs_get_stats` reports,
`delta_time` is `rows->delta_time` and `data` is the column of `rows->count` components. -/
def EcsAdminCollectData (stats : ecs_world_stats_t) (delta_time : ℚ)
    (data : List EcsAdminMeasurement) : Option (List EcsAdminMeasurement) :=
  if stats.tick_count = 0 ∨ delta_time = 0 then some data
  else CollectRows stats delta_time data

/-! ## The divisions of a tick -/

/-- The divisors of the two divisions of `AddMeasurement`: the modulus `MEASUREMENT_COUNT`
and `index + 1`. -/
def AddMeasurement_divisors (measurement : Measurement) : List ℚ :=
  [(MEASUREMENT_COUNT : ℚ), (ecs_ringbuf_index measurement.data_1m : ℚ) + 1]

/-- The divisors of the divisions of `AddSystemMeasurement`: `stats->system_time`, once for
every system of the list. -/
def AddSystemMeasurement_divisors (stats : ecs_world_stats_t)
    (systems : List EcsSystemStats) : List ℚ :=
  systems.map (fun _ => stats.system_time)

/-- The divisors of the divisions of `AddSystemsToJson`: `fps` once, and `frame_time * fps`
once for every system of the list. -/
def AddSystemsToJson_divisors (systems : List EcsSystemStats) (data : EcsAdminMeasurement) :
    List ℚ :=
  let fps : ℚ := data.fps.current
  let frame_time : ℚ := data.frame.current * 1 / fps
  fps :: systems.map (fun _ => frame_time * fps)

/-- The divisors of the divisions of `JsonFromStats`, in the order of its twelve calls of
`AddSystemsToJson`. -/
def JsonFromStats_divisors (stats : ecs_world_stats_t) (measurements : EcsAdminMeasurement) :
    List ℚ :=
  AddSystemsToJson_divisors stats.on_load_systems measurements
    ++ AddSystemsToJson_divisors stats.post_load_systems measurements
    ++ AddSystemsToJson_divisors stats.pre_update_systems measurements
    ++ AddSystemsToJson_divisors stats.on_update_systems measurements
    ++ AddSystemsToJson_divisors stats.on_validate_systems measurements
    ++ AddSystemsToJson_divisors stats.post_update_systems measurements
    ++ AddSystemsToJson_divisors stats.pre_store_systems measurements
    ++ AddSystemsToJson_divisors stats.on_store_systems measurements
    ++ AddSystemsToJson_divisors stats.manual_systems measurements
    ++ AddSystemsToJson_divisors stats.on_add_systems measurements
    ++ AddSystemsToJson_divisors stats.on_set_systems measurements
    ++ AddSystemsToJson_divisors stats.on_remove_systems measurements

/-- The divisors of all divisions that one iteration of the loop of `EcsAdminCollectData`
performs, in program order: the three of the derived metrics, those of the three
`AddMeasurement` calls, those of the nine `AddSystemMeasurement` calls and those of
`JsonFromStats` on the updated component. -/
def CollectRow_divisors (stats : ecs_world_stats_t) (delta_time : ℚ)
    (data : EcsAdminMeasurement) : List ℚ :=
  (if delta_time ≠ 0 then [delta_time] else [])
    ++ [(stats.tick_count : ℚ), (stats.tick_count : ℚ)]
    ++ AddMeasurement_divisors data.fps
    ++ AddMeasurement_divisors data.frame
    ++ AddMeasurement_divisors data.system
    ++ AddSystemMeasurement_divisors stats stats.on_load_systems
    ++ AddSystemMeasurement_divisors stats stats.post_load_systems
    ++ AddSystemMeasurement_divisors stats stats.pre_update_systems
    ++ AddSystemMeasurement_divisors stats stats.on_update_systems
    ++ AddSystemMeasurement_divisors stats stats.on_validate_systems
    ++ AddSystemMeasurement_divisors stats stats.post_update_systems
    ++ AddSystemMeasurement_divisors stats stats.pre_store_systems
    ++ AddSystemMeasurement_divisors stats stats.on_store_systems
    ++ AddSystemMeasurement_divisors stats stats.manual_systems
    ++ (match CollectRow stats delta_time data with
        | some data2 => JsonFromStats_divisors stats data2
        | none => [])

/-! ## The world endpoint -/

/-- The request methods that `RequestWorld` tells apart. -/
inductive EcsHttpMethod where
  | EcsHttpGet
  | EcsHttpPost
  | EcsHttpOther
deriving DecidableEq

/-- The fields of `EcsHttpRequest` that `RequestWorld` reads. -/
structure EcsHttpRequest where
  method : EcsHttpMethod
  params : String
deriving DecidableEq

/-- The fields of `EcsHttpReply` that the endpoints write.  A null body is `none`. -/
structure EcsHttpReply where
  status : Nat
  body : Option String
  is_file : Bool
deriving DecidableEq

/-- The profiling switches of the world, set by `ecs_measure_frame_time` and
`ecs_measure_system_time`. -/
structure ecs_world_t where
  measure_frame_time : Bool
  measure_system_time : Bool
deriving DecidableEq

/-- What a call of `RequestWorld` leaves behind: its return value, the world, the
component it read and the reply. -/
structure RequestResult where
  ok : Bool
  world : ecs_world_t
  stats : EcsAdminMeasurement
  reply : EcsHttpReply
deriving DecidableEq

/-- The endpoint `RequestWorld`.  `strdup` gives a copy of the published document. -/
def RequestWorld (world : ecs_world_t) (stats : EcsAdminMeasurement)
    (request : EcsHttpRequest) (reply : EcsHttpReply) : RequestResult :=
  match request.method with
  | EcsHttpMethod.EcsHttpGet =>
    let stats_json : Option String :=
      match stats.stats_json with
      | some json => some json
      | none => none
    match stats_json with
    | none => { ok := true, world := world, stats := stats, reply := { reply with status := 204 } }
    | some json =>
      { ok := true, world := world, stats := stats, reply := { reply with body := some json } }
  | EcsHttpMethod.EcsHttpPost =>
    let world :=
      if request.params = "frame_profiling=true" then { world with measure_frame_time := true }
      else if request.params = "frame_profiling=false" then
        { world with measure_frame_time := false }
      else if request.params = "system_profiling=true" then
        { world with measure_system_time := true }
      else if request.params = "system_profiling=false" then
        { world with measure_system_time := false }
      else world
    { ok := true, world := world, stats := stats, reply := reply }
  | EcsHttpMethod.EcsHttpOther =>
    { ok := false, world := world, stats := stats, reply := reply }

/-! ## Predicates and inputs used in the statements -/

/-- The shape of an hourly buffer of a measurement whose minute buffer has been pushed `n`
times: capacity 60, 60 slots, and one push per bucket begun. -/
def HourShape (n : Nat) (b : ecs_ringbuf_t) : Prop :=
  b.cap = 60 ∧ b.storage.length = 60 ∧ b.W = (n + 59) / 60

/-- The shape of every measurement that `InitMeasurement` and `AddMeasurement` produce:
four buffers of capacity 60, the hourly ones in step with the minute buffer. -/
def Measurement.Valid (m : Measurement) : Prop :=
  m.data_1m.cap = 60 ∧ m.data_1m.storage.length = 60 ∧
  HourShape m.data_1m.W m.data_1h ∧ HourShape m.data_1m.W m.min_1h ∧
  HourShape m.data_1m.W m.max_1h

/-- The value `v` is the arithmetic mean of the samples `l`. -/
def IsMeanOf (l : List ℚ) (v : ℚ) : Prop := v = l.sum / (l.length : ℚ)

/-- The value `v` is the maximum of the samples `l`. -/
def IsMaxOf (l : List ℚ) (v : ℚ) : Prop := v ∈ l ∧ ∀ y ∈ l, y ≤ v

/-- The value `v` is the minimum of the samples `l`. -/
def IsMinOf (l : List ℚ) (v : ℚ) : Prop := v ∈ l ∧ ∀ y ∈ l, v ≤ y

/-- An hourly buffer after the samples `xs`: one entry per bucket begun so far, the entry of
bucket `j` standing in slot `j` and related to the samples of the bucket by `P`. -/
def HourInv (P : List ℚ → ℚ → Prop) (xs : List ℚ) (b : ecs_ringbuf_t) : Prop :=
  b.cap = 60 ∧ b.storage.length = 60 ∧ b.W = (xs.length + 59) / 60 ∧
  ∀ j, 60 * j < xs.length → ∃ v, b.storage[j]? = some v ∧ P (bucket xs j) v

/-- A measurement after the samples `xs` (at most 3600 of them): the minute buffer has
counted them all and every hourly buffer holds the aggregate of every bucket. -/
def MeasInv (xs : List ℚ) (m : Measurement) : Prop :=
  m.data_1m.cap = 60 ∧ m.data_1m.W = xs.length ∧
  HourInv IsMeanOf xs m.data_1h ∧ HourInv IsMaxOf xs m.max_1h ∧ HourInv IsMinOf xs m.min_1h

/-- The newest logical element of a buffer, the one `ecs_ringbuf_get` returns for the index
`count - 1`. -/
def ecs_ringbuf_t.newest (b : ecs_ringbuf_t) : Option ℚ :=
  ecs_ringbuf_get b (ecs_ringbuf_count b - 1)

/-- The shape of every component that `EcsAdminStart` and `EcsAdminCollectData` produce. -/
def EcsAdminMeasurement.Valid (data : EcsAdminMeasurement) : Prop :=
  data.fps.Valid ∧ data.frame.Valid ∧ data.system.Valid

/-- The systems of the nine phases that `EcsAdminCollectData` passes to
`AddSystemMeasurement`, in the order of the calls. -/
def measured_systems (stats : ecs_world_stats_t) : List EcsSystemStats :=
  stats.on_load_systems ++ stats.post_load_systems ++ stats.pre_update_systems
    ++ stats.on_update_systems ++ stats.on_validate_systems ++ stats.post_update_systems
    ++ stats.pre_store_systems ++ stats.on_store_systems ++ stats.manual_systems

/-- The systems of the twelve phases that `JsonFromStats` serialises, in the order of the
document. -/
def listed_systems (stats : ecs_world_stats_t) : List EcsSystemStats :=
  measured_systems stats ++ stats.on_add_systems ++ stats.on_set_systems
    ++ stats.on_remove_systems

/-- A world statistics record with no system, no component and no feature, all counters
zero: the base of the concrete inputs below. -/
def stats_empty : ecs_world_stats_t :=
  { system_count := 0, component_count := 0, table_count := 0, entity_count := 0
    thread_count := 0, tick_count := 0, system_time := 0, frame_time := 0
    memory := ⟨⟨0, 0⟩, ⟨0, 0⟩, ⟨0, 0⟩, ⟨0, 0⟩, ⟨0, 0⟩, ⟨0, 0⟩, ⟨0, 0⟩, ⟨0, 0⟩⟩
    features := [], on_load_systems := [], post_load_systems := [], pre_update_systems := []
    on_update_systems := [], on_validate_systems := [], post_update_systems := []
    pre_store_systems := [], on_store_systems := [], manual_systems := []
    on_add_systems := [], on_set_systems := [], on_remove_systems := []
    components := [], frame_profiling := false, system_profiling := false }

/-- The provider of the end-to-end example: 10 ticks, half a second of frame time. -/
def stats_example : ecs_world_stats_t :=
  { stats_empty with tick_count := 10, frame_time := 1 / 2 }

/-- A provider whose tick count, 2^24 + 1, is not a single-precision value. -/
def stats_many_ticks : ecs_world_stats_t :=
  { stats_empty with tick_count := 16777217 }

/-- A system of the `on_update` phase, for the concrete inputs below. -/
def system_move : EcsSystemStats :=
  { handle := 7, id := "Move", signature := "Position, Velocity", tables_matched := 1
    entities_matched := 5, period := 0, time_spent := 1 / 8, enabled := true, active := true
    is_hidden := false }

/-- A system of the `on_add` phase, for the concrete inputs below. -/
def system_init : EcsSystemStats :=
  { handle := 9, id := "Init", signature := "Position", tables_matched := 1
    entities_matched := 5, period := 0, time_spent := 0, enabled := true, active := true
    is_hidden := false }

/-- A provider that reports one `on_update` system and one `on_add` system: 10 ticks, half
a second of frame time, a quarter of a second of system time. -/
def stats_tasks : ecs_world_stats_t :=
  { stats_empty with
    tick_count := 10, frame_time := 1 / 2, system_time := 1 / 4
    on_update_systems := [system_move], on_add_systems := [system_init] }

/-- A fresh reply of the HTTP server, for the concrete inputs below. -/
def reply_fresh : EcsHttpReply := { status := 200, body := none, is_file := false }

/-! ## The text each serialiser appends -/

/-- The text `AddRingBufToJson` appends. -/
def RingBufText (member : String) (values : ecs_ringbuf_t) : String :=
  AddRingBufToJson "" member values

/-- The text `AddMeasurementToJson` appends. -/
def MeasurementText (member : String) (measurement : Measurement) : String :=
  AddMeasurementToJson "" member measurement

/-- The record of one component. -/
def ComponentText (stats : EcsComponentStats) (data : EcsAdminMeasurement) : String :=
  ComponentToJson "" stats data

/-- The text `AddComponentsToJson` appends. -/
def ComponentsText (world_stats : ecs_world_stats_t) (data : EcsAdminMeasurement) : String :=
  AddComponentsToJson "" world_stats data

/-- The record of one system. -/
def SystemText (stats : EcsSystemStats) (frame_time fps : ℚ) (data : EcsAdminMeasurement) :
    String :=
  SystemToJson "" stats frame_time fps data

/-- The text `AddSystemsToJson` appends. -/
def SystemsText (systems : List EcsSystemStats) (json_member : String)
    (data : EcsAdminMeasurement) : String :=
  AddSystemsToJson "" systems json_member data

/-- The record of one feature. -/
def FeatureText (stats : EcsFeatureStats) : String := FeatureToJson "" stats

/-- The text `AddFeaturesToJson` appends. -/
def FeaturesText (features : List EcsFeatureStats) : String := AddFeaturesToJson "" features

/-- The text of the records of a list, a comma between neighbours: what the loop of a
serialiser appends when it starts with the index `i`. -/
def LoopText {α : Type} (item : α → String) : Nat → List α → String
  | _, [] => ""
  | i, x :: rest => (if i ≠ 0 then "," else "") ++ item x ++ LoopText item (i + 1) rest

/-- The document contains the text `part`. -/
def Contains (doc part : String) : Prop := ∃ pre post, doc = pre ++ part ++ post

/-- The text of the global counters, the first format string of `JsonFromStats`. -/
def DocCounters (stats : ecs_world_stats_t) : String :=
  "\x7b\"system_count\":" ++ fmt_u stats.system_count
    ++ ",\"component_count\":" ++ fmt_u stats.component_count
    ++ ",\"table_count\":" ++ fmt_u stats.table_count
    ++ ",\"entity_count\":" ++ fmt_u stats.entity_count
    ++ ",\"thread_count\":" ++ fmt_u stats.thread_count
    ++ ",\"frame_profiling\":" ++ fmt_bool stats.frame_profiling
    ++ ",\"system_profiling\":" ++ fmt_bool stats.system_profiling

/-- The text of the memory member without the comma that the second format string of
`JsonFromStats` puts in front of it and without the comma it puts behind it. -/
def DocMemory (stats : ecs_world_stats_t) : String :=
  "\"memory\":\x7b"
    ++ "\"total\":" ++ MemoryStatToJson stats.memory.total ++ ","
    ++ "\"components\":" ++ MemoryStatToJson stats.memory.components ++ ","
    ++ "\"entities\":" ++ MemoryStatToJson stats.memory.entities ++ ","
    ++ "\"systems\":" ++ MemoryStatToJson stats.memory.systems ++ ","
    ++ "\"families\":" ++ MemoryStatToJson stats.memory.families ++ ","
    ++ "\"tables\":" ++ MemoryStatToJson stats.memory.tables ++ ","
    ++ "\"stage\":" ++ MemoryStatToJson stats.memory.stage ++ ","
    ++ "\"world\":" ++ MemoryStatToJson stats.memory.world ++ "\x7d"

/-- The text of the systems member without the comma in front of it: the twelve phases. -/
def DocSystems (stats : ecs_world_stats_t) (data : EcsAdminMeasurement) : String :=
  "\"systems\":\x7b"
    ++ SystemsText stats.on_load_systems "on_load" data ++ ", "
    ++ SystemsText stats.post_load_systems "post_load" data ++ ", "
    ++ SystemsText stats.pre_update_systems "pre_update" data ++ ", "
    ++ SystemsText stats.on_update_systems "on_update" data ++ ", "
    ++ SystemsText stats.on_validate_systems "on_validate" data ++ ", "
    ++ SystemsText stats.post_update_systems "post_update" data ++ ", "
    ++ SystemsText stats.pre_store_systems "pre_store" data ++ ", "
    ++ SystemsText stats.on_store_systems "on_store" data ++ ", "
    ++ SystemsText stats.manual_systems "manual" data ++ ", "
    ++ SystemsText stats.on_add_systems "on_add" data ++ ", "
    ++ SystemsText stats.on_set_systems "on_set" data ++ ", "
    ++ SystemsText stats.on_remove_systems "on_remove" data ++ "\x7d"

/-- The fixed fields of the record of one system, from the opening brace to the value of
`time_spent`: the format string of `AddSystemsToJson`. -/
def SystemFields (stats : EcsSystemStats) (frame_time fps : ℚ) : String :=
  "\x7b\"handle\":" ++ fmt_d stats.handle ++ ",\"id\":\"" ++ stats.id
    ++ "\",\"enabled\":" ++ fmt_bool stats.enabled ++ ",\"active\":" ++ fmt_bool stats.active
    ++ ",\"tables_matched\":" ++ fmt_u stats.tables_matched
    ++ ",\"entities_matched\":" ++ fmt_u stats.entities_matched
    ++ ",\"signature\":\"" ++ stats.signature
    ++ "\",\"is_hidden\":" ++ fmt_bool stats.is_hidden
    ++ ",\"period\":" ++ fmt_f stats.period
    ++ ",\"time_spent\":" ++ fmt_f ((stats.time_spent / (frame_time * fps)) * 100 * 100)

/-- A system that has spent no time, for the concrete inputs below. -/
def system_idle : EcsSystemStats := { system_move with time_spent := 0 }

/-- A provider with system profiling switched off: 10 ticks, half a second of frame time,
no system time measured, one `on_update` system. -/
def stats_unprofiled : ecs_world_stats_t :=
  { stats_empty with
    tick_count := 10, frame_time := 1 / 2, system_time := 0
    on_update_systems := [system_idle] }

/-- The provider of the end-to-end example with one component reported. -/
def stats_one_component : ecs_world_stats_t :=
  { stats_example with
    component_count := 1
    components := [{ handle := 3, id := "Position", memory_used := 16, entities := 2,
                     tables := 1 }] }

/-- The provider of the end-to-end example with one component whose id holds a double
quote. -/
def stats_quote : ecs_world_stats_t :=
  { stats_example with
    component_count := 1
    components := [{ handle := 3, id := "a\"", memory_used := 16, entities := 2,
                     tables := 1 }] }

/-- A provider with frame profiling switched off: 10 ticks, no frame time measured, a
quarter of a second of system time, one `on_update` system. -/
def stats_frameless : ecs_world_stats_t :=
  { stats_empty with
    tick_count := 10, frame_time := 0, system_time := 1 / 4
    on_update_systems := [system_move] }

/-- In every slot of the hourly buffers the minimum is at most the mean and the mean at
most the maximum. -/
def Measurement.Ordered (m : Measurement) : Prop :=
  ∀ s, s < 60 →
    m.min_1h.deref s ≤ m.data_1h.deref s ∧ m.data_1h.deref s ≤ m.max_1h.deref s

/-! ## Reading the top-level members of a document -/

/-- The state of the reader of a document: the nesting depth of braces and brackets,
whether the reader is inside a string literal, whether the last character was a backslash
inside a string literal, the text of the member being read and the members completed. -/
structure Scan where
  depth : Nat
  inString : Bool
  escaped : Bool
  current : List Char
  members : List (List Char)
deriving DecidableEq

/-- Read one character.  Outside string literals a brace or bracket changes the depth; the
opening brace of the document (depth 0 to 1) starts the first member, a comma at depth 1
ends a member and starts the next one, and the closing brace of the document (depth 1 to
0) ends the last member.  Every other character belongs to the member being read. -/
def scanChar (s : Scan) (c : Char) : Scan :=
  if s.inString then
    if s.escaped then { s with escaped := false, current := s.current ++ [c] }
    else if c = '\\' then { s with escaped := true, current := s.current ++ [c] }
    else if c = '"' then { s with inString := false, current := s.current ++ [c] }
    else { s with current := s.current ++ [c] }
  else if c = '"' then { s with inString := true, current := s.current ++ [c] }
  else if c = '\x7b' ∨ c = '[' then
    if s.depth = 0 then { s with depth := 1 }
    else { s with depth := s.depth + 1, current := s.current ++ [c] }
  else if c = '\x7d' ∨ c = ']' then
    if s.depth ≤ 1 then
      { s with depth := 0, members := s.members ++ [s.current], current := [] }
    else { s with depth := s.depth - 1, current := s.current ++ [c] }
  else if c = ',' ∧ s.depth = 1 then
    { s with members := s.members ++ [s.current], current := [] }
  else { s with current := s.current ++ [c] }

/-- Read a text from a state. -/
def scan (s : Scan) (text : List Char) : Scan := text.foldl scanChar s

/-- The texts of the top-level members of a document, in order: the document is split at
the commas of depth 1 that stand outside string literals. -/
def topMembers (doc : String) : List String :=
  (scan ⟨0, false, false, [], []⟩ doc.data).members.map String.mk

/-- The key of a member `"key":value`; `none` for a text that does not start with a string
literal followed by a colon, in particular for an empty member. -/
def memberKey (member : String) : Option String :=
  match member.data with
  | '"' :: rest =>
    match rest.dropWhile (fun c => c ≠ '"') with
    | '"' :: ':' :: _ => some (String.mk (rest.takeWhile (fun c => c ≠ '"')))
    | _ => none
  | _ => none

/-- The keys of the top-level members of a document, in order. -/
def topKeys (doc : String) : List (Option String) := (topMembers doc).map memberKey

/-- The members joined by single commas. -/
def joinMembers : List String → String
  | [] => ""
  | [m] => m
  | m :: rest => m ++ "," ++ joinMembers rest

/-- The nesting depth and string state of the reader, without the texts it has collected. -/
structure Mode where
  depth : Nat
  inString : Bool
  escaped : Bool
deriving DecidableEq

/-- A character that is neither a quote, a backslash, a brace, a bracket nor a comma. -/
def PlainChar (c : Char) : Prop :=
  c ≠ '"' ∧ c ≠ '\\' ∧ c ≠ '\x7b' ∧ c ≠ '\x7d' ∧ c ≠ '[' ∧ c ≠ ']' ∧ c ≠ ','

instance (c : Char) : Decidable (PlainChar c) := by
  unfold PlainChar
  infer_instance

/-- A text that the reader, at any depth of at least 2 and outside string literals, adds
to the member being read without ending the member, and leaves at the same depth outside
string literals: text that is balanced and can stand inside a member. -/
def Inert (text : String) : Prop :=
  ∀ d cur mem, scan ⟨d + 2, false, false, cur, mem⟩ text.data
    = ⟨d + 2, false, false, cur ++ text.data, mem⟩

/-- A text that the reader, at depth 1 outside string literals, adds to the member being
read without ending it, and leaves at depth 1 outside string literals: the text of one
well-formed top-level member. -/
def Flat (text : String) : Prop :=
  ∀ cur mem, scan ⟨1, false, false, cur, mem⟩ text.data
    = ⟨1, false, false, cur ++ text.data, mem⟩

/-- A segment of the text a serialiser appends: fixed text of a format string, a formatted
number or boolean, a string inserted by `%s`, or text appended by another serialiser. -/
inductive Seg where
  | lit (s : String)
  | plain (s : String)
  | clean (s : String)
  | inert (s : String)

/-- The text of a segment. -/
def Seg.text : Seg → String
  | Seg.lit s => s
  | Seg.plain s => s
  | Seg.clean s => s
  | Seg.inert s => s

/-- What a segment has to satisfy: a formatted number has plain characters only, an inserted
string has neither a quote nor a backslash, and nested text is inert. -/
def Seg.ok : Seg → Prop
  | Seg.lit _ => True
  | Seg.plain s => ∀ c ∈ s.data, PlainChar c
  | Seg.clean s => ∀ c ∈ s.data, c ≠ '"' ∧ c ≠ '\\'
  | Seg.inert s => Inert s

/-- The text of a sequence of segments. -/
def render : List Seg → String
  | [] => ""
  | seg :: rest => seg.text ++ render rest

/-- One character of fixed text: the mode after it, or `none` when the character would end
a member (a comma or a closing bracket at depth 1) or would be read at depth 0. -/
def checkChar (m : Mode) (c : Char) : Option Mode :=
  if m.inString then
    if m.escaped then some { m with escaped := false }
    else if c = '\\' then some { m with escaped := true }
    else if c = '"' then some { m with inString := false }
    else some m
  else if c = '"' then some { m with inString := true }
  else if c = '\x7b' ∨ c = '[' then
    if m.depth = 0 then none else some { m with depth := m.depth + 1 }
  else if c = '\x7d' ∨ c = ']' then
    if m.depth ≤ 1 then none else some { m with depth := m.depth - 1 }
  else if c = ',' then
    if m.depth ≤ 1 then none else some m
  else some m

/-- The mode after a fixed text. -/
def checkText : Mode → List Char → Option Mode
  | m, [] => some m
  | m, c :: rest =>
    match checkChar m c with
    | none => none
    | some m2 => checkText m2 rest

/-- The mode after a segment: a formatted number must stand outside string literals, an
inserted string inside one, nested text outside string literals at depth 2 or more. -/
def checkSeg (m : Mode) : Seg → Option Mode
  | Seg.lit s => checkText m s.data
  | Seg.plain _ => if m.inString = false then some m else none
  | Seg.clean _ => if m.inString = true ∧ m.escaped = false then some m else none
  | Seg.inert _ =>
    if m.inString = false ∧ m.escaped = false ∧ 2 ≤ m.depth then some m else none

/-- The mode after a sequence of segments. -/
def check : Mode → List Seg → Option Mode
  | m, [] => some m
  | m, seg :: rest =>
    match checkSeg m seg with
    | none => none
    | some m2 => check m2 rest

/-- A string without a double quote and without a backslash: what `%s` can copy into a
string literal of the document without ending or escaping it. -/
def CleanString (s : String) : Prop := ∀ c ∈ s.data, c ≠ '"' ∧ c ≠ '\\'

instance (s : String) : Decidable (CleanString s) := by
  unfold CleanString
  infer_instance

/-- The statistics whose inserted strings (ids, signatures, entity lists) are clean. -/
def CleanStats (stats : ecs_world_stats_t) : Prop :=
  (∀ c ∈ stats.components, CleanString c.id) ∧
  (∀ s ∈ listed_systems stats, CleanString s.id ∧ CleanString s.signature) ∧
  (∀ f ∈ stats.features, CleanString f.id ∧ CleanString f.entities)

/-- The numbers that the loop of `AddRingBufToJson` appends. -/
def NumsText (values : ecs_ringbuf_t) : String :=
  (List.range (ecs_ringbuf_count values)).foldl
    (fun buf i =>
      match ecs_ringbuf_get values i with
      | some value => (if i ≠ 0 then buf ++ "," else buf) ++ fmt_f value
      | none => if i ≠ 0 then buf ++ "," else buf)
    ""

/-- The member that `AddMeasurementToJson` appends, without the comma in front of it. -/
def MeasurementMember (member : String) (measurement : Measurement) : String :=
  "\"" ++ member ++ "\":\x7b" ++ "\"current\":" ++ fmt_f measurement.current
    ++ RingBufText "data_1m" measurement.data_1m
    ++ RingBufText "data_1h" measurement.data_1h
    ++ RingBufText "min_1h" measurement.min_1h
    ++ RingBufText "max_1h" measurement.max_1h ++ "\x7d"

/-- The member that `AddFeaturesToJson` appends for a non-empty list, without the comma in
front of it. -/
def FeaturesMember (features : List EcsFeatureStats) : String :=
  "\"features\":[" ++ LoopText FeatureText 0 features ++ "]"

/-- The texts between the commas of depth 1 of the document of `JsonFromStats`, in order:
the seven counters, the memory member, what the components serialiser appends (nothing
when there is no component), the systems member, the features member when there is a
feature, and the three measurements. -/
def DocMembers (stats : ecs_world_stats_t) (data : EcsAdminMeasurement) : List String :=
  [ "\"system_count\":" ++ fmt_u stats.system_count,
    "\"component_count\":" ++ fmt_u stats.component_count,
    "\"table_count\":" ++ fmt_u stats.table_count,
    "\"entity_count\":" ++ fmt_u stats.entity_count,
    "\"thread_count\":" ++ fmt_u stats.thread_count,
    "\"frame_profiling\":" ++ fmt_bool stats.frame_profiling,
    "\"system_profiling\":" ++ fmt_bool stats.system_profiling,
    DocMemory stats,
    ComponentsText stats data,
    DocSystems stats data ]
  ++ (if stats.features.length ≠ 0 then [FeaturesMember stats.features] else [])
  ++ [ MeasurementMember "fps" data.fps,
       MeasurementMember "frame" data.frame,
       MeasurementMember "system" data.system ]

/-! ## Buckets -/

theorem bucket_append_full (xs : List ℚ) (x : ℚ) (j : Nat)
    (h : 60 * j + 60 ≤ xs.length) : bucket (xs ++ [x]) j = bucket xs j := by
  unfold bucket MEASUREMENT_COUNT
  rw [List.drop_append_of_le_length (by omega)]
  rw [List.take_append_of_le_length (by simp; omega)]

theorem bucket_open (xs : List ℚ) (j : Nat) (h2 : xs.length < 60 * j + 60) :
    bucket xs j = xs.drop (60 * j) := by
  unfold bucket MEASUREMENT_COUNT
  exact List.take_of_length_le (by simp; omega)

theorem bucket_append_open (xs : List ℚ) (x : ℚ) (j : Nat)
    (h1 : 60 * j ≤ xs.length) (h2 : xs.length < 60 * j + 60) :
    bucket (xs ++ [x]) j = bucket xs j ++ [x] := by
  rw [bucket_open xs j h2]
  unfold bucket MEASUREMENT_COUNT
  rw [List.drop_append_of_le_length (by omega)]
  exact List.take_of_length_le (by simp; omega)

theorem bucket_length_open (xs : List ℚ) (j : Nat)
    (h1 : 60 * j ≤ xs.length) (h2 : xs.length < 60 * j + 60) :
    (bucket xs j).length = xs.length % 60 := by
  rw [bucket_open xs j h2]
  simp
  omega

theorem store_deref_self (b : ecs_ringbuf_t) (slot : Nat) :
    b.store slot (b.deref slot) = b := by
  cases b with
  | mk cap storage W =>
    simp only [ecs_ringbuf_t.store, ecs_ringbuf_t.deref, ecs_ringbuf_t.mk.injEq, true_and, and_true]
    apply List.ext_getElem?
    intro i
    by_cases hi : slot = i
    · subst hi
      by_cases hl : slot < storage.length
      · simp [List.getElem?_set, hl, List.getD_eq_getElem?_getD]
      · simp [List.getElem?_set, hl]
        omega
    · simp [List.getElem?_set, hi]


theorem hour_step (P : List ℚ → ℚ → Prop) (xs : List ℚ) (x : ℚ) (b : ecs_ringbuf_t)
    (hinv : HourInv P xs b) (hlen : xs.length < 3600) (seed : ℚ) (f : ℚ → ℚ)
    (hP0 : xs.length % 60 = 0 → P [x] (f seed))
    (hP1 : ∀ l v, l ≠ [] → l.length = xs.length % 60 → P l v → P (l ++ [x]) (f v)) :
    ∃ slot, ecs_ringbuf_last (if xs.length % 60 = 0 then ecs_ringbuf_push b seed else b)
        = some slot ∧
      HourInv P (xs ++ [x])
        ((if xs.length % 60 = 0 then ecs_ringbuf_push b seed else b).store slot
          (f ((if xs.length % 60 = 0 then ecs_ringbuf_push b seed else b).deref slot))) := by
  obtain ⟨hcap, hsl, hW, hent⟩ := hinv
  by_cases h0 : xs.length % 60 = 0
  · simp only [h0, if_true]
    refine ⟨xs.length / 60, ?_, ?_⟩
    · simp only [ecs_ringbuf_last, ecs_ringbuf_count, ecs_ringbuf_push, hcap, hW]
      have : ¬ (min ((xs.length + 59) / 60 + 1) 60 = 0) := by omega
      simp only [this, if_false, Option.some.injEq]
      omega
    · have hslot : (xs.length + 59) / 60 % 60 = xs.length / 60 := by omega
      have hlt : xs.length / 60 < 60 := by omega
      refine ⟨hcap, ?_, ?_, ?_⟩
      · simp [ecs_ringbuf_t.store, ecs_ringbuf_push, hsl]
      · simp only [ecs_ringbuf_t.store, ecs_ringbuf_push, hW, List.length_append,
          List.length_singleton]
        omega
      · intro j hj
        simp only [List.length_append, List.length_singleton] at hj
        by_cases hjl : j = xs.length / 60
        · subst hjl
          refine ⟨f seed, ?_, ?_⟩
          · simp [ecs_ringbuf_t.store, ecs_ringbuf_t.deref, ecs_ringbuf_push, hcap, hW, hslot,
              hsl, hlt, List.getElem?_set]
          · have hb : bucket (xs ++ [x]) (xs.length / 60) = [x] := by
              rw [bucket_append_open xs x _ (by omega) (by omega),
                bucket_open xs _ (by omega)]
              rw [List.drop_of_length_le (by omega)]
              rfl
            rw [hb]
            exact hP0 h0
        · have hj2 : 60 * j + 60 ≤ xs.length := by omega
          obtain ⟨v, hv, hPv⟩ := hent j (by omega)
          refine ⟨v, ?_, ?_⟩
          · simp only [ecs_ringbuf_t.store, ecs_ringbuf_push, hcap, hW, hslot]
            rw [List.getElem?_set_ne (by omega), List.getElem?_set_ne (by omega)]
            exact hv
          · rw [bucket_append_full xs x j hj2]
            exact hPv
  · simp only [h0, if_false]
    refine ⟨xs.length / 60, ?_, ?_⟩
    · simp only [ecs_ringbuf_last, ecs_ringbuf_count, hcap, hW]
      have : ¬ (min ((xs.length + 59) / 60) 60 = 0) := by omega
      simp only [this, if_false, Option.some.injEq]
      omega
    · have hlt : xs.length / 60 < 60 := by omega
      obtain ⟨v0, hv0, hPv0⟩ := hent (xs.length / 60) (by omega)
      refine ⟨hcap, ?_, ?_, ?_⟩
      · simp [ecs_ringbuf_t.store, hsl]
      · simp only [ecs_ringbuf_t.store, hW, List.length_append, List.length_singleton]
        omega
      · intro j hj
        simp only [List.length_append, List.length_singleton] at hj
        by_cases hjl : j = xs.length / 60
        · subst hjl
          refine ⟨f v0, ?_, ?_⟩
          · simp [ecs_ringbuf_t.store, ecs_ringbuf_t.deref, hsl, hlt, List.getElem?_set,
              List.getD_eq_getElem?_getD, hv0]
          · rw [bucket_append_open xs x _ (by omega) (by omega)]
            apply hP1 _ _ _ _ hPv0
            · intro hnil
              have := bucket_length_open xs (xs.length / 60) (by omega) (by omega)
              rw [hnil] at this
              simp at this
              omega
            · exact bucket_length_open xs (xs.length / 60) (by omega) (by omega)
        · have hj2 : 60 * j + 60 ≤ xs.length := by omega
          obtain ⟨v, hv, hPv⟩ := hent j (by omega)
          refine ⟨v, ?_, ?_⟩
          · simp only [ecs_ringbuf_t.store]
            rw [List.getElem?_set_ne (by omega)]
            exact hv
          · rw [bucket_append_full xs x j hj2]
            exact hPv


theorem AddMeasurement_eq (m : Measurement) (x : ℚ) :
    AddMeasurement m x =
      match
        ecs_ringbuf_last (if m.data_1m.W % m.data_1m.cap % 60 = 0
          then ecs_ringbuf_push m.data_1h 0 else m.data_1h),
        ecs_ringbuf_last (if m.data_1m.W % m.data_1m.cap % 60 = 0
          then ecs_ringbuf_push m.max_1h x else m.max_1h),
        ecs_ringbuf_last (if m.data_1m.W % m.data_1m.cap % 60 = 0
          then ecs_ringbuf_push m.min_1h x else m.min_1h) with
      | some value, some max, some min =>
        some
          { current := double_to_float x
            data_1m := ecs_ringbuf_push m.data_1m x
            data_1h :=
              (if m.data_1m.W % m.data_1m.cap % 60 = 0
                then ecs_ringbuf_push m.data_1h 0 else m.data_1h).store value
                (((if m.data_1m.W % m.data_1m.cap % 60 = 0
                    then ecs_ringbuf_push m.data_1h 0 else m.data_1h).deref value
                  * ((m.data_1m.W % m.data_1m.cap : Nat) : ℚ) + x)
                  / (((m.data_1m.W % m.data_1m.cap : Nat) : ℚ) + 1))
            max_1h :=
              (if m.data_1m.W % m.data_1m.cap % 60 = 0
                then ecs_ringbuf_push m.max_1h x else m.max_1h).store max
                ((fun v => if x > v then x else v)
                  ((if m.data_1m.W % m.data_1m.cap % 60 = 0
                    then ecs_ringbuf_push m.max_1h x else m.max_1h).deref max))
            min_1h :=
              (if m.data_1m.W % m.data_1m.cap % 60 = 0
                then ecs_ringbuf_push m.min_1h x else m.min_1h).store min
                ((fun v => if x < v then x else v)
                  ((if m.data_1m.W % m.data_1m.cap % 60 = 0
                    then ecs_ringbuf_push m.min_1h x else m.min_1h).deref min)) }
      | _, _, _ => none := by
  unfold AddMeasurement
  simp only [ecs_ringbuf_index, MEASUREMENT_COUNT]
  by_cases hc : m.data_1m.W % m.data_1m.cap % 60 = 0
  · simp only [hc, if_true, PushMeasurement]
    split
    · congr 2
      · split_ifs with h
        · rfl
        · exact (store_deref_self _ _).symm
      · split_ifs with h
        · rfl
        · exact (store_deref_self _ _).symm
    · rfl
  · simp only [hc, if_false]
    split
    · congr 2
      · split_ifs with h
        · rfl
        · exact (store_deref_self _ _).symm
      · split_ifs with h
        · rfl
        · exact (store_deref_self _ _).symm
    · rfl


theorem mean_snoc (l : List ℚ) (x v : ℚ) (n : Nat) (hne : l ≠ []) (hl : l.length = n)
    (hv : IsMeanOf l v) : IsMeanOf (l ++ [x]) ((v * (n : ℚ) + x) / ((n : ℚ) + 1)) := by
  unfold IsMeanOf at *
  have hpos : (0 : ℚ) < (n : ℚ) := by
    have : 0 < l.length := List.length_pos_of_ne_nil hne
    rw [hl] at this
    exact_mod_cast this
  subst hv
  rw [hl]
  simp only [List.sum_append, List.sum_singleton, List.length_append, List.length_singleton, hl]
  rw [div_mul_cancel₀ _ (ne_of_gt hpos)]
  push_cast
  rfl

theorem max_snoc (l : List ℚ) (x v : ℚ) (hv : IsMaxOf l v) :
    IsMaxOf (l ++ [x]) (if x > v then x else v) := by
  obtain ⟨hmem, hub⟩ := hv
  by_cases h : x > v
  · simp only [h, if_true]
    refine ⟨by simp, ?_⟩
    intro y hy
    rcases List.mem_append.mp hy with hy | hy
    · exact le_trans (hub y hy) (le_of_lt h)
    · simp at hy
      exact le_of_eq hy
  · simp only [h, if_false]
    refine ⟨List.mem_append_left _ hmem, ?_⟩
    intro y hy
    rcases List.mem_append.mp hy with hy | hy
    · exact hub y hy
    · simp at hy
      rw [hy]
      exact not_lt.mp h

theorem min_snoc (l : List ℚ) (x v : ℚ) (hv : IsMinOf l v) :
    IsMinOf (l ++ [x]) (if x < v then x else v) := by
  obtain ⟨hmem, hlb⟩ := hv
  by_cases h : x < v
  · simp only [h, if_true]
    refine ⟨by simp, ?_⟩
    intro y hy
    rcases List.mem_append.mp hy with hy | hy
    · exact le_trans (le_of_lt h) (hlb y hy)
    · simp at hy
      exact le_of_eq hy.symm
  · simp only [h, if_false]
    refine ⟨List.mem_append_left _ hmem, ?_⟩
    intro y hy
    rcases List.mem_append.mp hy with hy | hy
    · exact hlb y hy
    · simp at hy
      rw [hy]
      exact not_lt.mp h

theorem MeasInv_init : MeasInv [] InitMeasurement := by
  refine ⟨rfl, rfl, ?_, ?_, ?_⟩ <;>
  · refine ⟨rfl, by simp [InitMeasurement, ecs_ringbuf_new, MEASUREMENT_COUNT], rfl, ?_⟩
    intro j hj
    simp at hj

theorem MeasInv_step (xs : List ℚ) (x : ℚ) (m : Measurement) (hinv : MeasInv xs m)
    (hlen : xs.length < 3600) :
    ∃ m2, AddMeasurement m x = some m2 ∧ MeasInv (xs ++ [x]) m2 := by
  obtain ⟨hcap, hW, hmean, hmax, hmin⟩ := hinv
  have hidx : m.data_1m.W % m.data_1m.cap = xs.length % 60 := by rw [hcap, hW]
  have hidx2 : xs.length % 60 % 60 = xs.length % 60 := by omega
  obtain ⟨s1, hs1, hi1⟩ := hour_step IsMeanOf xs x m.data_1h hmean hlen 0
    (fun v => (v * ((xs.length % 60 : Nat) : ℚ) + x) / (((xs.length % 60 : Nat) : ℚ) + 1))
    (by intro h0; simp [h0, IsMeanOf])
    (by intro l v hne hl hv; exact mean_snoc l x v _ hne hl hv)
  obtain ⟨s2, hs2, hi2⟩ := hour_step IsMaxOf xs x m.max_1h hmax hlen x
    (fun v => if x > v then x else v)
    (by intro _; simp [IsMaxOf])
    (by intro l v _ _ hv; exact max_snoc l x v hv)
  obtain ⟨s3, hs3, hi3⟩ := hour_step IsMinOf xs x m.min_1h hmin hlen x
    (fun v => if x < v then x else v)
    (by intro _; simp [IsMinOf])
    (by intro l v _ _ hv; exact min_snoc l x v hv)
  rw [AddMeasurement_eq, hidx, hidx2]
  simp only [hs1, hs2, hs3]
  refine ⟨_, rfl, ?_, ?_, hi1, hi2, hi3⟩
  · simp [ecs_ringbuf_push, hcap]
  · simp [ecs_ringbuf_push, hW]

theorem feed_snoc (m : Measurement) (xs : List ℚ) (x : ℚ) :
    feed m (xs ++ [x]) = (feed m xs).bind (fun m2 => AddMeasurement m2 x) := by
  unfold feed
  rw [List.foldlM_append]
  simp only [List.foldlM_cons, List.foldlM_nil]
  cases List.foldlM AddMeasurement m xs with
  | none => rfl
  | some m2 =>
    simp only [Option.bind_eq_bind, Option.some_bind]
    cases AddMeasurement m2 x <;> rfl

theorem feed_inv (xs : List ℚ) (hlen : xs.length ≤ 3600) :
    ∃ m, feed InitMeasurement xs = some m ∧ MeasInv xs m := by
  induction xs using List.reverseRecOn with
  | nil => exact ⟨InitMeasurement, rfl, MeasInv_init⟩
  | append_singleton xs x ih =>
    simp only [List.length_append, List.length_singleton] at hlen
    obtain ⟨m, hm, hinv⟩ := ih (by omega)
    obtain ⟨m2, hm2, hinv2⟩ := MeasInv_step xs x m hinv (by omega)
    exact ⟨m2, by rw [feed_snoc, hm]; exact hm2, hinv2⟩

theorem HourInv_get (P : List ℚ → ℚ → Prop) (xs : List ℚ) (b : ecs_ringbuf_t)
    (hinv : HourInv P xs b) (hlen : xs.length ≤ 3600) (j : Nat) (hj : 60 * j < xs.length) :
    ∃ v, ecs_ringbuf_get b j = some v ∧ P (bucket xs j) v := by
  obtain ⟨hcap, hsl, hW, hent⟩ := hinv
  obtain ⟨v, hv, hP⟩ := hent j hj
  refine ⟨v, ?_, hP⟩
  unfold ecs_ringbuf_get ecs_ringbuf_count
  rw [hcap, hW]
  have h1 : j < min ((xs.length + 59) / 60) 60 := by omega
  have h2 : ((xs.length + 59) / 60 - min ((xs.length + 59) / 60) 60 + j) % 60 = j := by omega
  simp only [h1, if_true, h2]
  exact hv

/-- C1: starting from a freshly initialised Measurement and feeding any sequence of n
samples, 1 ≤ n ≤ 3600, to AddMeasurement, the feed succeeds and for every bucket j (the
samples numbered 60*j .. min(60*j+59, n-1)) the j-th logical entry of data_1h is the
arithmetic mean of exactly the samples of that bucket, and the j-th logical entries of
max_1h and min_1h are the maximum and the minimum of that bucket (exact arithmetic). -/
theorem C1_hourly_entries_are_bucket_aggregates (samples : List ℚ)
    (_h1 : 1 ≤ samples.length) (h2 : samples.length ≤ 3600) :
    ∃ m, feed InitMeasurement samples = some m ∧
      ∀ j, 60 * j < samples.length →
        ecs_ringbuf_get m.data_1h j
          = some ((bucket samples j).sum / ((bucket samples j).length : ℚ)) ∧
        (∃ mx, ecs_ringbuf_get m.max_1h j = some mx ∧
          mx ∈ bucket samples j ∧ ∀ y ∈ bucket samples j, y ≤ mx) ∧
        (∃ mn, ecs_ringbuf_get m.min_1h j = some mn ∧
          mn ∈ bucket samples j ∧ ∀ y ∈ bucket samples j, mn ≤ y) := by
  obtain ⟨m, hm, _, _, hmean, hmax, hmin⟩ := feed_inv samples h2
  refine ⟨m, hm, ?_⟩
  intro j hj
  obtain ⟨v, hv, hP⟩ := HourInv_get IsMeanOf samples m.data_1h hmean h2 j hj
  refine ⟨?_, HourInv_get IsMaxOf samples m.max_1h hmax h2 j hj,
    HourInv_get IsMinOf samples m.min_1h hmin h2 j hj⟩
  rw [hv, hP]


/-- Witness of C1: after the three samples 1, 2, 6 the first hourly entries are the mean 3,
the maximum 6 and the minimum 1. -/
theorem C1_hourly_entries_are_bucket_aggregates_witness :
    (1 ≤ ([1, 2, 6] : List ℚ).length ∧ ([1, 2, 6] : List ℚ).length ≤ 3600) ∧
    ∃ m, feed InitMeasurement [1, 2, 6] = some m ∧
      ecs_ringbuf_get m.data_1h 0 = some 3 ∧
      ecs_ringbuf_get m.max_1h 0 = some 6 ∧
      ecs_ringbuf_get m.min_1h 0 = some 1 := by
  refine ⟨⟨by decide, by decide⟩, ?_⟩
  obtain ⟨m, hm, h⟩ :=
    C1_hourly_entries_are_bucket_aggregates [1, 2, 6] (by decide) (by decide)
  obtain ⟨h1, ⟨mx, hmx, hmem, hub⟩, ⟨mn, hmn, hmem2, hlb⟩⟩ := h 0 (by decide)
  have hb : bucket [1, 2, 6] 0 = [1, 2, 6] := rfl
  rw [hb] at h1 hmem hub hmem2 hlb
  refine ⟨m, hm, ?_, ?_, ?_⟩
  · rw [h1]
    norm_num
  · have h6 := hub 6 (by simp)
    have hc : mx = 1 ∨ mx = 2 ∨ mx = 6 := by simpa using hmem
    rcases hc with rfl | rfl | rfl
    · norm_num at h6
    · norm_num at h6
    · exact hmx
  · have h6 := hlb 1 (by simp)
    have hc : mn = 1 ∨ mn = 2 ∨ mn = 6 := by simpa using hmem2
    rcases hc with rfl | rfl | rfl
    · exact hmn
    · norm_num at h6
    · norm_num at h6

/-! ## The shape of a measurement -/

theorem Valid_init : InitMeasurement.Valid := by
  simp [Measurement.Valid, HourShape, InitMeasurement, ecs_ringbuf_new, MEASUREMENT_COUNT]

theorem hour_shape_step (n : Nat) (b : ecs_ringbuf_t) (seed : ℚ) (h : HourShape n b) :
    ∃ slot, ecs_ringbuf_last (if n % 60 = 0 then ecs_ringbuf_push b seed else b) = some slot ∧
      ∀ v, HourShape (n + 1)
          ((if n % 60 = 0 then ecs_ringbuf_push b seed else b).store slot v) ∧
        ((if n % 60 = 0 then ecs_ringbuf_push b seed else b).store slot v).W
          = if n % 60 = 0 then b.W + 1 else b.W := by
  obtain ⟨hcap, hsl, hW⟩ := h
  by_cases h0 : n % 60 = 0
  · simp only [h0, if_true]
    refine ⟨((ecs_ringbuf_push b seed).W - 1) % (ecs_ringbuf_push b seed).cap, ?_, ?_⟩
    · simp only [ecs_ringbuf_last, ecs_ringbuf_count, ecs_ringbuf_push, hcap, hW]
      have : ¬ (min ((n + 59) / 60 + 1) 60 = 0) := by omega
      simp only [this, if_false]
    · intro v
      refine ⟨⟨hcap, ?_, ?_⟩, rfl⟩
      · simp [ecs_ringbuf_t.store, ecs_ringbuf_push, hsl]
      · simp only [ecs_ringbuf_t.store, ecs_ringbuf_push, hW]
        omega
  · simp only [h0, if_false]
    refine ⟨(b.W - 1) % b.cap, ?_, ?_⟩
    · simp only [ecs_ringbuf_last, ecs_ringbuf_count, hcap, hW]
      have : ¬ (min ((n + 59) / 60) 60 = 0) := by omega
      simp only [this, if_false]
    · intro v
      refine ⟨⟨hcap, ?_, ?_⟩, rfl⟩
      · simp [ecs_ringbuf_t.store, hsl]
      · simp only [ecs_ringbuf_t.store, hW]
        omega

theorem AddMeasurement_valid (m : Measurement) (x : ℚ) (h : m.Valid) :
    ∃ m2, AddMeasurement m x = some m2 ∧ m2.Valid ∧ m2.current = double_to_float x ∧
      m2.data_1m = ecs_ringbuf_push m.data_1m x ∧
      m2.data_1h.W = (if m.data_1m.W % 60 = 0 then m.data_1h.W + 1 else m.data_1h.W) ∧
      m2.min_1h.W = (if m.data_1m.W % 60 = 0 then m.min_1h.W + 1 else m.min_1h.W) ∧
      m2.max_1h.W = (if m.data_1m.W % 60 = 0 then m.max_1h.W + 1 else m.max_1h.W) := by
  obtain ⟨hcap, hsl, h1, h2, h3⟩ := h
  have hidx : m.data_1m.W % m.data_1m.cap % 60 = m.data_1m.W % 60 := by rw [hcap]; omega
  obtain ⟨s1, hs1, hv1⟩ := hour_shape_step m.data_1m.W m.data_1h 0 h1
  obtain ⟨s2, hs2, hv2⟩ := hour_shape_step m.data_1m.W m.min_1h x h2
  obtain ⟨s3, hs3, hv3⟩ := hour_shape_step m.data_1m.W m.max_1h x h3
  rw [AddMeasurement_eq, hidx]
  simp only [hs1, hs2, hs3]
  refine ⟨_, rfl, ⟨?_, ?_, ?_, ?_, ?_⟩, rfl, rfl, (hv1 _).2, (hv2 _).2, (hv3 _).2⟩
  · simp [ecs_ringbuf_push, hcap]
  · simp [ecs_ringbuf_push, hsl]
  · exact (hv1 _).1
  · exact (hv2 _).1
  · exact (hv3 _).1

theorem feed_valid (samples : List ℚ) :
    ∃ m, feed InitMeasurement samples = some m ∧ m.Valid ∧ m.data_1m.W = samples.length := by
  induction samples using List.reverseRecOn with
  | nil => exact ⟨InitMeasurement, rfl, Valid_init, rfl⟩
  | append_singleton xs x ih =>
    obtain ⟨m, hm, hv, hW⟩ := ih
    obtain ⟨m2, hm2, hv2, _, hd, _⟩ := AddMeasurement_valid m x hv
    refine ⟨m2, by rw [feed_snoc, hm]; exact hm2, hv2, ?_⟩
    rw [hd]
    simp [ecs_ringbuf_push, hW]

/-- C2: after any number n ≥ 0 of AddMeasurement calls on a freshly initialised
Measurement, data_1h, min_1h and max_1h have the same logical count min(ceil(n/60), 60),
and the next call, number n+1, succeeds and pushes one new entry onto each of the three
buffers when n is a multiple of 60 (calls number 60*k+1, the first one included) and
pushes onto none of them otherwise. -/
theorem C2_hourly_counts_in_step (samples : List ℚ) :
    ∃ m, feed InitMeasurement samples = some m ∧
      ecs_ringbuf_count m.data_1h = min ((samples.length + 59) / 60) 60 ∧
      ecs_ringbuf_count m.min_1h = min ((samples.length + 59) / 60) 60 ∧
      ecs_ringbuf_count m.max_1h = min ((samples.length + 59) / 60) 60 ∧
      ∀ x, ∃ m2, AddMeasurement m x = some m2 ∧
        ((samples.length % 60 = 0 →
            m2.data_1h.W = m.data_1h.W + 1 ∧ m2.min_1h.W = m.min_1h.W + 1 ∧
            m2.max_1h.W = m.max_1h.W + 1) ∧
         (samples.length % 60 ≠ 0 →
            m2.data_1h.W = m.data_1h.W ∧ m2.min_1h.W = m.min_1h.W ∧
            m2.max_1h.W = m.max_1h.W)) := by
  obtain ⟨m, hm, hv, hW⟩ := feed_valid samples
  have hv2 := hv
  obtain ⟨_, _, ⟨c1, _, w1⟩, ⟨c2, _, w2⟩, ⟨c3, _, w3⟩⟩ := hv2
  refine ⟨m, hm, ?_, ?_, ?_, ?_⟩
  · simp only [ecs_ringbuf_count, c1, w1, hW]
  · simp only [ecs_ringbuf_count, c2, w2, hW]
  · simp only [ecs_ringbuf_count, c3, w3, hW]
  · intro x
    obtain ⟨m2, hm2, _, _, _, e1, e2, e3⟩ := AddMeasurement_valid m x hv
    rw [hW] at e1 e2 e3
    refine ⟨m2, hm2, ?_, ?_⟩
    · intro h0
      simp only [h0, if_true] at e1 e2 e3
      exact ⟨e1, e2, e3⟩
    · intro h0
      simp only [h0, if_false] at e1 e2 e3
      exact ⟨e1, e2, e3⟩

/-! ## One tick of the collector -/

theorem newest_push (b : ecs_ringbuf_t) (x : ℚ) (hcap : b.cap = 60)
    (hsl : b.storage.length = 60) : (ecs_ringbuf_push b x).newest = some x := by
  unfold ecs_ringbuf_t.newest ecs_ringbuf_get ecs_ringbuf_count ecs_ringbuf_push
  simp only [hcap]
  have h1 : min (b.W + 1) 60 - 1 < min (b.W + 1) 60 := by omega
  have h2 : (b.W + 1 - min (b.W + 1) 60 + (min (b.W + 1) 60 - 1)) % 60 = b.W % 60 := by omega
  simp only [h1, if_true, h2]
  rw [List.getElem?_set]
  have h3 : b.W % 60 < b.storage.length := by omega
  simp [h3]

theorem CollectRow_eq (stats : ecs_world_stats_t) (delta_time : ℚ) (data : EcsAdminMeasurement)
    (m1 m2 m3 : Measurement)
    (h1 : AddMeasurement data.fps
      (if delta_time ≠ 0 then (stats.tick_count : ℚ) / delta_time else 0) = some m1)
    (h2 : AddMeasurement data.frame
      ((stats.frame_time / (stats.tick_count : ℚ))
        * (if delta_time ≠ 0 then (stats.tick_count : ℚ) / delta_time else 0) * 100) = some m2)
    (h3 : AddMeasurement data.system
      ((stats.system_time / (stats.tick_count : ℚ))
        * (if delta_time ≠ 0 then (stats.tick_count : ℚ) / delta_time else 0) * 100) = some m3) :
    ∃ d, CollectRow stats delta_time data = some d ∧ d.fps = m1 ∧ d.frame = m2 ∧
      d.system = m3 ∧
      d.system_measurements = some ((measured_systems stats).foldl
        (fun map system =>
          record map system.handle ((system.time_spent / stats.system_time) * 100))
        (match data.system_measurements with
          | none => []
          | some map => map)) ∧
      d.component_measurements = some (stats.components.foldl
        (fun map component => record map component.handle (component.memory_used : ℚ))
        (match data.component_measurements with
          | none => []
          | some map => map)) ∧
      d.tick = data.tick ∧
      d.stats_json = some (JsonFromStats stats { d with stats_json := data.stats_json }) := by
  unfold CollectRow
  simp only [h1, h2, h3]
  refine ⟨_, rfl, ?_, ?_, ?_, ?_, ?_, ?_, ?_⟩
  · simp [AddSystemMeasurement, AddComponentMeasurements]
  · simp [AddSystemMeasurement, AddComponentMeasurements]
  · simp [AddSystemMeasurement, AddComponentMeasurements]
  · simp [AddSystemMeasurement, AddComponentMeasurements, measured_systems, List.foldl_append]
  · simp [AddSystemMeasurement, AddComponentMeasurements]
  · simp [AddSystemMeasurement, AddComponentMeasurements]
  · simp [AddSystemMeasurement, AddComponentMeasurements]


theorem CollectRow_valid (stats : ecs_world_stats_t) (delta_time : ℚ)
    (data : EcsAdminMeasurement) (hv : data.Valid) :
    ∃ d, CollectRow stats delta_time data = some d ∧ d.Valid ∧
      AddMeasurement data.fps
        (if delta_time ≠ 0 then (stats.tick_count : ℚ) / delta_time else 0) = some d.fps ∧
      AddMeasurement data.frame
        ((stats.frame_time / (stats.tick_count : ℚ))
          * (if delta_time ≠ 0 then (stats.tick_count : ℚ) / delta_time else 0) * 100)
        = some d.frame ∧
      AddMeasurement data.system
        ((stats.system_time / (stats.tick_count : ℚ))
          * (if delta_time ≠ 0 then (stats.tick_count : ℚ) / delta_time else 0) * 100)
        = some d.system ∧
      d.system_measurements = some ((measured_systems stats).foldl
        (fun map system =>
          record map system.handle ((system.time_spent / stats.system_time) * 100))
        (match data.system_measurements with
          | none => []
          | some map => map)) ∧
      d.component_measurements = some (stats.components.foldl
        (fun map component => record map component.handle (component.memory_used : ℚ))
        (match data.component_measurements with
          | none => []
          | some map => map)) ∧
      d.stats_json = some (JsonFromStats stats { d with stats_json := data.stats_json }) := by
  obtain ⟨h1, h2, h3⟩ := hv
  obtain ⟨m1, e1, v1, _⟩ := AddMeasurement_valid data.fps
    (if delta_time ≠ 0 then (stats.tick_count : ℚ) / delta_time else 0) h1
  obtain ⟨m2, e2, v2, _⟩ := AddMeasurement_valid data.frame
    ((stats.frame_time / (stats.tick_count : ℚ))
      * (if delta_time ≠ 0 then (stats.tick_count : ℚ) / delta_time else 0) * 100) h2
  obtain ⟨m3, e3, v3, _⟩ := AddMeasurement_valid data.system
    ((stats.system_time / (stats.tick_count : ℚ))
      * (if delta_time ≠ 0 then (stats.tick_count : ℚ) / delta_time else 0) * 100) h3
  obtain ⟨d, hd, f1, f2, f3, f4, f5, _, f7⟩ := CollectRow_eq stats delta_time data m1 m2 m3 e1 e2 e3
  refine ⟨d, hd, ?_, ?_, ?_, ?_, f4, f5, f7⟩
  · exact ⟨f1 ▸ v1, f2 ▸ v2, f3 ▸ v3⟩
  · rw [f1]; exact e1
  · rw [f2]; exact e2
  · rw [f3]; exact e3

theorem CollectRows_forall (stats : ecs_world_stats_t) (delta_time : ℚ)
    (R : EcsAdminMeasurement → EcsAdminMeasurement → Prop) (data : List EcsAdminMeasurement)
    (h : ∀ d ∈ data, ∃ d2, CollectRow stats delta_time d = some d2 ∧ R d d2) :
    ∃ data2, CollectRows stats delta_time data = some data2 ∧ List.Forall₂ R data data2 := by
  induction data with
  | nil => exact ⟨[], rfl, List.Forall₂.nil⟩
  | cons d rest ih =>
    obtain ⟨d2, hd2, hR⟩ := h d (List.mem_cons_self _ _)
    obtain ⟨rest2, hrest, hall⟩ := ih (fun x hx => h x (List.mem_cons_of_mem _ hx))
    refine ⟨d2 :: rest2, ?_, List.Forall₂.cons hR hall⟩
    simp only [CollectRows, hd2, hrest]

/-! ## The float field `current` -/

theorem double_to_float_zero : double_to_float 0 = 0 := by decide!

theorem double_to_float_ten : double_to_float 10 = 10 := by decide!

theorem double_to_float_fifty : double_to_float 50 = 50 := by decide!

theorem double_to_float_many : double_to_float 16777217 = 16777216 := by decide!

theorem AddMeasurement_sample (m m2 : Measurement) (x : ℚ) (hv : m.Valid)
    (h : AddMeasurement m x = some m2) :
    m2.current = double_to_float x ∧ m2.data_1m.newest = some x := by
  obtain ⟨m3, e, _, hc, hd, _⟩ := AddMeasurement_valid m x hv
  rw [h] at e
  cases e
  refine ⟨hc, ?_⟩
  rw [hd]
  exact newest_push m.data_1m x hv.1 hv.2.1

/-- C3: if the provider reports a zero tick count or the elapsed time is zero,
EcsAdminCollectData returns with every component unchanged: the three Measurements with
their ring buffers, both keyed stores and the published stats_json are what they were
before the call (whatever they were, in particular what an earlier tick published). -/
theorem C3_zero_tick_is_noop (stats : ecs_world_stats_t) (delta_time : ℚ)
    (data : List EcsAdminMeasurement) (h : stats.tick_count = 0 ∨ delta_time = 0) :
    EcsAdminCollectData stats delta_time data = some data := by
  unfold EcsAdminCollectData
  rw [if_pos h]

/-- Witness of C3: a tick with a zero tick count on the freshly started component. -/
theorem C3_zero_tick_is_noop_witness :
    (stats_empty.tick_count = 0 ∨ (1 : ℚ) = 0) ∧
    EcsAdminCollectData stats_empty 1 [EcsAdminMeasurement_init]
      = some [EcsAdminMeasurement_init] :=
  ⟨Or.inl rfl, C3_zero_tick_is_noop stats_empty 1 [EcsAdminMeasurement_init] (Or.inl rfl)⟩

/-- C7, as amended: for every tick with tick count ≠ 0 and elapsed time ≠ 0 on valid
components, EcsAdminCollectData succeeds and in every row the sample ticks/elapsed has been
recorded into fps, (frameTime/ticks)*rate*100 into frame and (taskTime/ticks)*rate*100 into
system: each of the three measurements has that sample as the newest element of its
data_1m series, and its current, a float, equal to the sample narrowed to single
precision. -/
theorem C7_tick_records_samples_current_narrowed (stats : ecs_world_stats_t)
    (delta_time : ℚ) (data : List EcsAdminMeasurement) (h1 : stats.tick_count ≠ 0)
    (h2 : delta_time ≠ 0) (hv : ∀ d ∈ data, d.Valid) :
    ∃ data2, EcsAdminCollectData stats delta_time data = some data2 ∧
      List.Forall₂
        (fun _ d2 =>
          d2.fps.current = double_to_float ((stats.tick_count : ℚ) / delta_time) ∧
          d2.fps.data_1m.newest = some ((stats.tick_count : ℚ) / delta_time) ∧
          d2.frame.current
            = double_to_float ((stats.frame_time / (stats.tick_count : ℚ))
              * ((stats.tick_count : ℚ) / delta_time) * 100) ∧
          d2.frame.data_1m.newest
            = some ((stats.frame_time / (stats.tick_count : ℚ))
              * ((stats.tick_count : ℚ) / delta_time) * 100) ∧
          d2.system.current
            = double_to_float ((stats.system_time / (stats.tick_count : ℚ))
              * ((stats.tick_count : ℚ) / delta_time) * 100) ∧
          d2.system.data_1m.newest
            = some ((stats.system_time / (stats.tick_count : ℚ))
              * ((stats.tick_count : ℚ) / delta_time) * 100))
        data data2 := by
  unfold EcsAdminCollectData
  rw [if_neg (by simp [h1, h2])]
  apply CollectRows_forall
  intro d hd
  obtain ⟨d2, e, _, a1, a2, a3, _⟩ := CollectRow_valid stats delta_time d (hv d hd)
  simp only [ne_eq, h2, not_false_eq_true, if_true] at a1 a2 a3
  obtain ⟨b1, b2⟩ := AddMeasurement_sample _ _ _ (hv d hd).1 a1
  obtain ⟨b3, b4⟩ := AddMeasurement_sample _ _ _ (hv d hd).2.1 a2
  obtain ⟨b5, b6⟩ := AddMeasurement_sample _ _ _ (hv d hd).2.2 a3
  exact ⟨d2, e, b1, b2, b3, b4, b5, b6⟩

theorem Valid_admin_init : EcsAdminMeasurement_init.Valid :=
  ⟨Valid_init, Valid_init, Valid_init⟩

/-- Witness of C7 as amended: the end-to-end example tick on the freshly started
component. -/
theorem C7_tick_records_samples_current_narrowed_witness :
    (stats_example.tick_count ≠ 0 ∧ (1 : ℚ) ≠ 0 ∧
      ∀ d ∈ [EcsAdminMeasurement_init], d.Valid) ∧
    ∃ data2, EcsAdminCollectData stats_example 1 [EcsAdminMeasurement_init] = some data2 ∧
      List.Forall₂
        (fun _ d2 =>
          d2.fps.current = double_to_float ((stats_example.tick_count : ℚ) / 1) ∧
          d2.fps.data_1m.newest = some ((stats_example.tick_count : ℚ) / 1) ∧
          d2.frame.current
            = double_to_float ((stats_example.frame_time / (stats_example.tick_count : ℚ))
              * ((stats_example.tick_count : ℚ) / 1) * 100) ∧
          d2.frame.data_1m.newest
            = some ((stats_example.frame_time / (stats_example.tick_count : ℚ))
              * ((stats_example.tick_count : ℚ) / 1) * 100) ∧
          d2.system.current
            = double_to_float ((stats_example.system_time / (stats_example.tick_count : ℚ))
              * ((stats_example.tick_count : ℚ) / 1) * 100) ∧
          d2.system.data_1m.newest
            = some ((stats_example.system_time / (stats_example.tick_count : ℚ))
              * ((stats_example.tick_count : ℚ) / 1) * 100))
        [EcsAdminMeasurement_init] data2 :=
  ⟨⟨by decide, by norm_num, by
      intro d hd
      rw [List.mem_singleton.mp hd]
      exact Valid_admin_init⟩,
    C7_tick_records_samples_current_narrowed stats_example 1 [EcsAdminMeasurement_init]
      (by decide) (by norm_num) (by
        intro d hd
        rw [List.mem_singleton.mp hd]
        exact Valid_admin_init)⟩

theorem CollectData_single (stats : ecs_world_stats_t) (delta_time : ℚ)
    (data : EcsAdminMeasurement) (h1 : stats.tick_count ≠ 0) (h2 : delta_time ≠ 0)
    (hv : data.Valid) :
    ∃ d, EcsAdminCollectData stats delta_time [data] = some [d] ∧
      CollectRow stats delta_time data = some d ∧
      d.fps.current = double_to_float ((stats.tick_count : ℚ) / delta_time) ∧
      d.frame.current
        = double_to_float ((stats.frame_time / (stats.tick_count : ℚ))
          * ((stats.tick_count : ℚ) / delta_time) * 100) ∧
      d.system.current
        = double_to_float ((stats.system_time / (stats.tick_count : ℚ))
          * ((stats.tick_count : ℚ) / delta_time) * 100) := by
  obtain ⟨d, e, _, a1, a2, a3, _⟩ := CollectRow_valid stats delta_time data hv
  simp only [ne_eq, h2, not_false_eq_true, if_true] at a1 a2 a3
  refine ⟨d, ?_, e, (AddMeasurement_sample _ _ _ hv.1 a1).1,
    (AddMeasurement_sample _ _ _ hv.2.1 a2).1, (AddMeasurement_sample _ _ _ hv.2.2 a3).1⟩
  unfold EcsAdminCollectData
  rw [if_neg (by simp [h1, h2])]
  simp only [CollectRows, e]

/-- Counterexample to C7 as stated: on a passing tick of the freshly started component
with 16777217 ticks in 1 s the sample recorded into fps is 16777217, the newest element of
its data_1m series, while its current is 16777216: the float field does not hold the
sample. -/
theorem C7_counterexample_current_is_not_the_sample :
    ∃ d, EcsAdminCollectData stats_many_ticks 1 [EcsAdminMeasurement_init] = some [d] ∧
      d.fps.data_1m.newest = some 16777217 ∧
      d.fps.current = 16777216 ∧
      d.fps.current ≠ (stats_many_ticks.tick_count : ℚ) / 1 := by
  obtain ⟨d, e, hrow, a1, _⟩ := CollectData_single stats_many_ticks 1
    EcsAdminMeasurement_init (by decide) (by norm_num) Valid_admin_init
  obtain ⟨d3, e3, _, b1, _⟩ :=
    CollectRow_valid stats_many_ticks 1 EcsAdminMeasurement_init Valid_admin_init
  rw [hrow] at e3
  cases e3
  simp only [ne_eq, one_ne_zero, not_false_eq_true, if_true] at b1
  have hs : ((stats_many_ticks.tick_count : ℚ) / 1) = 16777217 := by
    norm_num [stats_many_ticks]
  rw [hs] at a1 b1 ⊢
  rw [double_to_float_many] at a1
  refine ⟨d, e, (AddMeasurement_sample _ _ _ Valid_admin_init.1 b1).2, a1, ?_⟩
  rw [a1]
  norm_num

/-! ## Keyed stores -/

theorem has_set_same (map : ecs_map_t) (k : Nat) (v : ecs_ringbuf_t) :
    ecs_map_has (ecs_map_set map k v) k = some v := by
  induction map with
  | nil => simp [ecs_map_set, ecs_map_has]
  | cons e rest ih =>
    obtain ⟨k2, v2⟩ := e
    by_cases h : k2 = k
    · simp [ecs_map_set, ecs_map_has, h]
    · simp [ecs_map_set, ecs_map_has, h, ih]

theorem has_set_other (map : ecs_map_t) (k : Nat) (v : ecs_ringbuf_t) (k1 : Nat)
    (hk : k1 ≠ k) : ecs_map_has (ecs_map_set map k v) k1 = ecs_map_has map k1 := by
  induction map with
  | nil => simp [ecs_map_set, ecs_map_has, Ne.symm hk]
  | cons e rest ih =>
    obtain ⟨k2, v2⟩ := e
    by_cases h : k2 = k
    · subst h
      simp [ecs_map_set, ecs_map_has, Ne.symm hk]
    · by_cases h3 : k2 = k1
      · subst h3
        simp [ecs_map_set, ecs_map_has, hk]
      · simp [ecs_map_set, ecs_map_has, h, h3, ih]

theorem has_record_same (map : ecs_map_t) (k : Nat) (x : ℚ) :
    ecs_map_has (record map k x) k
      = some (ecs_ringbuf_push
          ((ecs_map_has map k).getD (ecs_ringbuf_new MEASUREMENT_COUNT)) x) := by
  unfold record
  cases h : ecs_map_has map k with
  | none => simp [has_set_same]
  | some b => simp [has_set_same]

theorem has_record_other (map : ecs_map_t) (k : Nat) (x : ℚ) (k1 : Nat) (hk : k1 ≠ k) :
    ecs_map_has (record map k x) k1 = ecs_map_has map k1 := by
  unfold record
  cases h : ecs_map_has map k with
  | none => simp [has_set_other _ _ _ _ hk]
  | some b => simp [has_set_other _ _ _ _ hk]

/-- The entry of key `k` after a recording loop: the old entry of the key, with the
values of the records of that key pushed in order (into a new buffer of capacity
`MEASUREMENT_COUNT` when the key had none); untouched when no record has that key. -/
theorem fold_record_has {α : Type} (kf : α → Nat) (vf : α → ℚ) (l : List α)
    (map : ecs_map_t) (k : Nat) :
    ecs_map_has (l.foldl (fun map a => record map (kf a) (vf a)) map) k =
      ((l.filter (fun a => kf a = k)).map vf).foldl
        (fun o v => some (ecs_ringbuf_push (o.getD (ecs_ringbuf_new MEASUREMENT_COUNT)) v))
        (ecs_map_has map k) := by
  induction l generalizing map with
  | nil => simp
  | cons a rest ih =>
    simp only [List.foldl_cons]
    rw [ih]
    by_cases ha : kf a = k
    · subst ha
      simp only [List.filter_cons, decide_True, if_true, has_record_same, List.map_cons,
        List.foldl_cons]
    · have hne : k ≠ kf a := fun h => ha h.symm
      simp only [List.filter_cons, ha, decide_False, has_record_other _ _ _ _ hne]
      simp

theorem elems_push_new (x : ℚ) :
    (ecs_ringbuf_push (ecs_ringbuf_new MEASUREMENT_COUNT) x).elems = [x] := by
  simp [ecs_ringbuf_t.elems, ecs_ringbuf_push, ecs_ringbuf_new, ecs_ringbuf_count,
    ecs_ringbuf_get, MEASUREMENT_COUNT, List.range_succ]

theorem map_lookup_eq (m : Option ecs_map_t) (k : Nat) :
    map_lookup m k = ecs_map_has (match m with
      | none => []
      | some map => map) k := by
  cases m <;> rfl

theorem fold_step_isSome (vs : List ℚ) (o : Option ecs_ringbuf_t) (h : o.isSome) :
    (vs.foldl
      (fun o v => some (ecs_ringbuf_push (o.getD (ecs_ringbuf_new MEASUREMENT_COUNT)) v))
      o).isSome := by
  induction vs generalizing o with
  | nil => exact h
  | cons v rest ih => exact ih _ rfl

theorem fold_record_facts {α : Type} (kf : α → Nat) (vf : α → ℚ) (l : List α)
    (map : ecs_map_t) :
    (∀ a, l.filter (fun b => kf b = kf a) = [a] →
      (ecs_map_has map (kf a) = none →
        ∃ b, ecs_map_has (l.foldl (fun map a => record map (kf a) (vf a)) map) (kf a) = some b ∧
          b.elems = [vf a]) ∧
      (∀ b, ecs_map_has map (kf a) = some b →
        ecs_map_has (l.foldl (fun map a => record map (kf a) (vf a)) map) (kf a)
          = some (ecs_ringbuf_push b (vf a)))) ∧
    (∀ k, (∀ a ∈ l, kf a ≠ k) →
      ecs_map_has (l.foldl (fun map a => record map (kf a) (vf a)) map) k = ecs_map_has map k) ∧
    (∀ k, (ecs_map_has map k).isSome →
      (ecs_map_has (l.foldl (fun map a => record map (kf a) (vf a)) map) k).isSome) := by
  refine ⟨?_, ?_, ?_⟩
  · intro a ha
    refine ⟨?_, ?_⟩
    · intro hnone
      refine ⟨ecs_ringbuf_push (ecs_ringbuf_new MEASUREMENT_COUNT) (vf a), ?_, elems_push_new _⟩
      rw [fold_record_has, ha, hnone]
      rfl
    · intro b hb
      rw [fold_record_has, ha, hb]
      rfl
  · intro k hk
    rw [fold_record_has]
    have : l.filter (fun a => kf a = k) = [] := by
      rw [List.filter_eq_nil_iff]
      intro a ha
      simpa using hk a ha
    rw [this]
    rfl
  · intro k hk
    rw [fold_record_has]
    exact fold_step_isSome _ _ hk

/-- C8: recording into a keyed store.  For AddSystemMeasurement (tasks, the value being
100*time_spent/system_time) and for AddComponentMeasurements (resources, the value being
memory_used): a key recorded once in the call and absent from the map gets a series
whose only element is the recorded value; a key recorded once and already present keeps
its series, with the value pushed onto it; the entry of every key that is not in the list
being recorded is unchanged; and no key present before the call is missing after it.  A
push makes the value the newest element of the series. -/
theorem C8_keyed_store_recording (data : EcsAdminMeasurement) (stats : ecs_world_stats_t) :
    (∀ (systems : List EcsSystemStats) (fps : ℚ),
      (∀ s, systems.filter (fun a => a.handle = s.handle) = [s] →
        (map_lookup data.system_measurements s.handle = none →
          ∃ b, map_lookup (AddSystemMeasurement data stats systems fps).system_measurements
              s.handle = some b ∧
            b.elems = [(s.time_spent / stats.system_time) * 100]) ∧
        (∀ b, map_lookup data.system_measurements s.handle = some b →
          map_lookup (AddSystemMeasurement data stats systems fps).system_measurements
              s.handle
            = some (ecs_ringbuf_push b ((s.time_spent / stats.system_time) * 100)))) ∧
      (∀ k, (∀ s ∈ systems, s.handle ≠ k) →
        map_lookup (AddSystemMeasurement data stats systems fps).system_measurements k
          = map_lookup data.system_measurements k) ∧
      (∀ k, (map_lookup data.system_measurements k).isSome →
        (map_lookup (AddSystemMeasurement data stats systems fps).system_measurements
          k).isSome)) ∧
    ((∀ c, stats.components.filter (fun a => a.handle = c.handle) = [c] →
        (map_lookup data.component_measurements c.handle = none →
          ∃ b, map_lookup (AddComponentMeasurements data stats).component_measurements
              c.handle = some b ∧
            b.elems = [(c.memory_used : ℚ)]) ∧
        (∀ b, map_lookup data.component_measurements c.handle = some b →
          map_lookup (AddComponentMeasurements data stats).component_measurements c.handle
            = some (ecs_ringbuf_push b (c.memory_used : ℚ)))) ∧
      (∀ k, (∀ c ∈ stats.components, c.handle ≠ k) →
        map_lookup (AddComponentMeasurements data stats).component_measurements k
          = map_lookup data.component_measurements k) ∧
      (∀ k, (map_lookup data.component_measurements k).isSome →
        (map_lookup (AddComponentMeasurements data stats).component_measurements
          k).isSome)) ∧
    (∀ (b : ecs_ringbuf_t) (v : ℚ), b.cap = 60 → b.storage.length = 60 →
      (ecs_ringbuf_push b v).newest = some v) := by
  refine ⟨?_, ?_, fun b v h1 h2 => newest_push b v h1 h2⟩
  · intro systems fps
    have h := fold_record_facts (fun s : EcsSystemStats => s.handle)
      (fun s => (s.time_spent / stats.system_time) * 100) systems
      (match data.system_measurements with
        | none => []
        | some map => map)
    simp only [map_lookup_eq]
    exact h
  · have h := fold_record_facts (fun c : EcsComponentStats => c.handle)
      (fun c => (c.memory_used : ℚ)) stats.components
      (match data.component_measurements with
        | none => []
        | some map => map)
    simp only [map_lookup_eq]
    exact h

/-- Witness of C8: recording the `on_update` system of `stats_tasks` on the freshly started
component creates the series of key 7 with the single element 50. -/
theorem C8_keyed_store_recording_witness :
    ∃ b, map_lookup (AddSystemMeasurement EcsAdminMeasurement_init stats_tasks
        [system_move] 10).system_measurements 7 = some b ∧ b.elems = [50] := by
  obtain ⟨b, hb, he⟩ :=
    (((C8_keyed_store_recording EcsAdminMeasurement_init stats_tasks).1 [system_move] 10).1
      system_move rfl).1 rfl
  refine ⟨b, hb, ?_⟩
  rw [he]
  norm_num [system_move, stats_tasks]

/-! ## The end-to-end example and the world endpoint -/

/-- C4, as amended: a tick on a fresh collector whose provider returns ticks=10,
elapsed=1.0 s and frameTime=0.5 s records a derived rate of 10 and a frame-cost of 50
(= (0.5/10)*10*100, the formula of step 2): after the tick fps.current = 10 and
frame.current = 50. -/
theorem C4_example_tick_rate_10_cost_50 (stats : ecs_world_stats_t)
    (h1 : stats.tick_count = 10) (h2 : stats.frame_time = 1 / 2) :
    ∃ d, EcsAdminCollectData stats 1 [EcsAdminMeasurement_init] = some [d] ∧
      d.fps.current = 10 ∧ d.frame.current = 50 := by
  obtain ⟨d, e, _, a1, a2, _⟩ := CollectData_single stats 1 EcsAdminMeasurement_init
    (by rw [h1]; decide) (by norm_num) Valid_admin_init
  have e1 : ((10 : ℕ) : ℚ) / 1 = 10 := by norm_num
  have e2 : ((1 : ℚ) / 2 / ((10 : ℕ) : ℚ)) * (((10 : ℕ) : ℚ) / 1) * 100 = 50 := by norm_num
  refine ⟨d, e, ?_, ?_⟩
  · rw [a1, h1, e1]; exact double_to_float_ten
  · rw [a2, h1, h2, e2]; exact double_to_float_fifty

/-- Witness of C4 as amended: the provider `stats_example`. -/
theorem C4_example_tick_rate_10_cost_50_witness :
    (stats_example.tick_count = 10 ∧ stats_example.frame_time = 1 / 2) ∧
    ∃ d, EcsAdminCollectData stats_example 1 [EcsAdminMeasurement_init] = some [d] ∧
      d.fps.current = 10 ∧ d.frame.current = 50 :=
  ⟨⟨rfl, rfl⟩, C4_example_tick_rate_10_cost_50 stats_example rfl rfl⟩

/-- Counterexample to C4 as stated: on the example tick (ticks=10, elapsed=1.0 s,
frameTime=0.5 s, fresh collector) the frame-cost recorded is not 500. -/
theorem C4_counterexample_cost_is_not_500 :
    ¬ ∃ d, EcsAdminCollectData stats_example 1 [EcsAdminMeasurement_init] = some [d] ∧
      d.fps.current = 10 ∧ d.frame.current = 500 := by
  rintro ⟨d, hd, _, h500⟩
  obtain ⟨d2, e, _, _, a2, _⟩ := CollectData_single stats_example 1 EcsAdminMeasurement_init
    (by decide) (by norm_num) Valid_admin_init
  rw [hd] at e
  simp only [Option.some.injEq, List.cons.injEq, and_true] at e
  subst e
  have e2 : (stats_example.frame_time / (stats_example.tick_count : ℚ))
      * ((stats_example.tick_count : ℚ) / 1) * 100 = 50 := by
    norm_num [stats_example]
  rw [a2, e2, double_to_float_fifty] at h500
  norm_num at h500

theorem CollectRow_publishes (st : ecs_world_stats_t) (dt : ℚ) (d d2 : EcsAdminMeasurement)
    (h : CollectRow st dt d = some d2) : ∃ doc, d2.stats_json = some doc := by
  cases e1 : AddMeasurement d.fps
      (if dt ≠ 0 then (st.tick_count : ℚ) / dt else 0) with
  | none =>
    unfold CollectRow at h
    simp only [e1] at h
    cases h
  | some m1 =>
    cases e2 : AddMeasurement d.frame
        ((st.frame_time / (st.tick_count : ℚ))
          * (if dt ≠ 0 then (st.tick_count : ℚ) / dt else 0) * 100) with
    | none =>
      unfold CollectRow at h
      simp only [e1, e2] at h
      cases h
    | some m2 =>
      cases e3 : AddMeasurement d.system
          ((st.system_time / (st.tick_count : ℚ))
            * (if dt ≠ 0 then (st.tick_count : ℚ) / dt else 0) * 100) with
      | none =>
        unfold CollectRow at h
        simp only [e1, e2, e3] at h
        cases h
      | some m3 =>
        obtain ⟨d3, hd3, _, _, _, _, _, _, f7⟩ := CollectRow_eq st dt d m1 m2 m3 e1 e2 e3
        rw [h] at hd3
        cases hd3
        exact ⟨_, f7⟩

theorem RequestWorld_get (world : ecs_world_t) (stats : EcsAdminMeasurement)
    (request : EcsHttpRequest) (reply : EcsHttpReply)
    (hget : request.method = EcsHttpMethod.EcsHttpGet) :
    RequestWorld world stats request reply =
      match stats.stats_json with
      | none =>
        { ok := true, world := world, stats := stats, reply := { reply with status := 204 } }
      | some json =>
        { ok := true, world := world, stats := stats,
          reply := { reply with body := some json } } := by
  unfold RequestWorld
  rw [hget]
  cases stats.stats_json <;> rfl

/-- C10: a GET handled by RequestWorld returns true and leaves the component (the
published document included) and the world unchanged; when no document has been published
(stats_json is null) the reply gets status 204 and its body is not set; otherwise the
status is not touched and the body is a copy equal to the published document.  On a reply
whose status is not already 204, the answer is 204 exactly when stats_json is null.  The
freshly started component has no document, and every row a tick has processed has one. -/
theorem C10_get_returns_published_document (world : ecs_world_t) (stats : EcsAdminMeasurement)
    (request : EcsHttpRequest) (reply : EcsHttpReply)
    (hget : request.method = EcsHttpMethod.EcsHttpGet) :
    (RequestWorld world stats request reply).ok = true ∧
    (RequestWorld world stats request reply).stats = stats ∧
    (RequestWorld world stats request reply).world = world ∧
    (stats.stats_json = none →
      (RequestWorld world stats request reply).reply = { reply with status := 204 }) ∧
    (∀ doc, stats.stats_json = some doc →
      (RequestWorld world stats request reply).reply = { reply with body := some doc }) ∧
    (reply.status ≠ 204 →
      ((RequestWorld world stats request reply).reply.status = 204 ↔ stats.stats_json = none)) ∧
    EcsAdminMeasurement_init.stats_json = none ∧
    (∀ st dt d d2, CollectRow st dt d = some d2 → ∃ doc, d2.stats_json = some doc) := by
  rw [RequestWorld_get world stats request reply hget]
  refine ⟨?_, ?_, ?_, ?_, ?_, ?_, rfl, CollectRow_publishes⟩
  · cases stats.stats_json <;> rfl
  · cases stats.stats_json <;> rfl
  · cases stats.stats_json <;> rfl
  · intro h
    rw [h]
  · intro doc h
    rw [h]
  · intro hs
    cases stats.stats_json with
    | none => simp
    | some json => simp [hs]

/-- Witness of C10: a GET on the freshly started component with a fresh reply is answered
with status 204 and no body. -/
theorem C10_get_returns_published_document_witness :
    (RequestWorld ⟨false, false⟩ EcsAdminMeasurement_init
      ⟨EcsHttpMethod.EcsHttpGet, ""⟩ reply_fresh).reply
      = { status := 204, body := none, is_file := false } :=
  (C10_get_returns_published_document ⟨false, false⟩ EcsAdminMeasurement_init
    ⟨EcsHttpMethod.EcsHttpGet, ""⟩ reply_fresh rfl).2.2.2.1 rfl

/-! ## The serialisers only append -/

theorem ringbuf_fold_append (values : ecs_ringbuf_t) (l : List Nat) (buf x : String) :
    l.foldl
      (fun buf i =>
        match ecs_ringbuf_get values i with
        | some value => (if i ≠ 0 then buf ++ "," else buf) ++ fmt_f value
        | none => if i ≠ 0 then buf ++ "," else buf)
      (buf ++ x)
    = buf ++ l.foldl
      (fun buf i =>
        match ecs_ringbuf_get values i with
        | some value => (if i ≠ 0 then buf ++ "," else buf) ++ fmt_f value
        | none => if i ≠ 0 then buf ++ "," else buf)
      x := by
  induction l generalizing x with
  | nil => rfl
  | cons i rest ih =>
    simp only [List.foldl_cons]
    have h : (match ecs_ringbuf_get values i with
        | some value => (if i ≠ 0 then buf ++ x ++ "," else buf ++ x) ++ fmt_f value
        | none => if i ≠ 0 then buf ++ x ++ "," else buf ++ x)
      = buf ++ (match ecs_ringbuf_get values i with
        | some value => (if i ≠ 0 then x ++ "," else x) ++ fmt_f value
        | none => if i ≠ 0 then x ++ "," else x) := by
      cases ecs_ringbuf_get values i <;> by_cases hi : i = 0 <;>
        simp [hi, String.append_assoc]
    rw [h, ih]

theorem AddRingBufToJson_append (buf member : String) (values : ecs_ringbuf_t) :
    AddRingBufToJson buf member values = buf ++ RingBufText member values := by
  unfold RingBufText AddRingBufToJson
  simp only [String.empty_append, String.append_assoc]
  rw [ringbuf_fold_append]
  simp only [String.append_assoc]

theorem AddMeasurementToJson_append (buf member : String) (m : Measurement) :
    AddMeasurementToJson buf member m = buf ++ MeasurementText member m := by
  unfold MeasurementText AddMeasurementToJson
  simp only [AddRingBufToJson_append, String.empty_append, String.append_assoc]

theorem ComponentToJson_append (buf : String) (stats : EcsComponentStats)
    (data : EcsAdminMeasurement) :
    ComponentToJson buf stats data = buf ++ ComponentText stats data := by
  unfold ComponentText ComponentToJson
  cases map_lookup data.component_measurements stats.handle <;>
    simp only [AddRingBufToJson_append, String.empty_append, String.append_assoc]

theorem SystemToJson_append (buf : String) (stats : EcsSystemStats) (frame_time fps : ℚ)
    (data : EcsAdminMeasurement) :
    SystemToJson buf stats frame_time fps data
      = buf ++ SystemText stats frame_time fps data := by
  unfold SystemText SystemToJson
  cases map_lookup data.system_measurements stats.handle <;>
    simp only [AddRingBufToJson_append, String.empty_append, String.append_assoc]

theorem FeatureToJson_append (buf : String) (stats : EcsFeatureStats) :
    FeatureToJson buf stats = buf ++ FeatureText stats := by
  unfold FeatureText FeatureToJson
  simp only [String.empty_append, String.append_assoc]

theorem json_loop_append {α : Type} (item : String → α → String)
    (hitem : ∀ buf x, item buf x = buf ++ item "" x) (i : Nat) (l : List α) (buf : String) :
    json_loop item i l buf = buf ++ LoopText (item "") i l := by
  induction l generalizing i buf with
  | nil => simp [json_loop, LoopText]
  | cons x rest ih =>
    simp only [json_loop, LoopText]
    rw [ih, hitem]
    by_cases hi : i = 0 <;> simp [hi, String.append_assoc]

theorem AddComponentsToJson_append (buf : String) (stats : ecs_world_stats_t)
    (data : EcsAdminMeasurement) :
    AddComponentsToJson buf stats data = buf ++ ComponentsText stats data := by
  unfold ComponentsText AddComponentsToJson
  by_cases h : stats.components.length = 0
  · simp [h]
  · simp only [ne_eq, h, not_false_eq_true, if_true]
    rw [json_loop_append _ (fun b x => ComponentToJson_append b x data),
      json_loop_append _ (fun b x => ComponentToJson_append b x data)]
    simp only [String.empty_append, String.append_assoc]

theorem AddSystemsToJson_append (buf : String) (systems : List EcsSystemStats)
    (json_member : String) (data : EcsAdminMeasurement) :
    AddSystemsToJson buf systems json_member data
      = buf ++ SystemsText systems json_member data := by
  unfold SystemsText AddSystemsToJson
  simp only
  rw [json_loop_append _ (fun b x => SystemToJson_append b x _ _ data),
    json_loop_append _ (fun b x => SystemToJson_append b x _ _ data)]
  simp only [String.empty_append, String.append_assoc]

theorem AddFeaturesToJson_append (buf : String) (features : List EcsFeatureStats) :
    AddFeaturesToJson buf features = buf ++ FeaturesText features := by
  unfold FeaturesText AddFeaturesToJson
  by_cases h : features.length = 0
  · simp [h]
  · simp only [ne_eq, h, not_false_eq_true, if_true]
    rw [json_loop_append _ FeatureToJson_append, json_loop_append _ FeatureToJson_append]
    simp only [String.empty_append, String.append_assoc]

/-- The document of `JsonFromStats` as the sequence of the texts appended: the counters, a
comma, the memory member, a comma, what the components serialiser appends, a comma, the
systems member, what the features serialiser appends, the three measurements and the
closing brace. -/
theorem JsonFromStats_eq (stats : ecs_world_stats_t) (d : EcsAdminMeasurement) :
    JsonFromStats stats d =
      DocCounters stats ++ ("," ++ (DocMemory stats ++ ("," ++ (ComponentsText stats d ++
        ("," ++ (DocSystems stats d ++ (FeaturesText stats.features ++
          (MeasurementText "fps" d.fps ++ (MeasurementText "frame" d.frame ++
            (MeasurementText "system" d.system ++ "\x7d")))))))))) := by
  unfold JsonFromStats DocCounters DocMemory DocSystems
  simp only [AddComponentsToJson_append, AddSystemsToJson_append, AddFeaturesToJson_append,
    AddMeasurementToJson_append, String.empty_append, String.append_assoc]
  rfl

theorem Contains_refl (p : String) : Contains p p := ⟨"", "", by simp⟩

theorem Contains_left (a b p : String) (h : Contains a p) : Contains (a ++ b) p := by
  obtain ⟨pre, post, e⟩ := h
  exact ⟨pre, post ++ b, by rw [e]; simp only [String.append_assoc]⟩

theorem Contains_right (a b p : String) (h : Contains b p) : Contains (a ++ b) p := by
  obtain ⟨pre, post, e⟩ := h
  exact ⟨a ++ pre, post, by rw [e]; simp only [String.append_assoc]⟩

theorem Contains_trans (a b c : String) (h1 : Contains a b) (h2 : Contains b c) :
    Contains a c := by
  obtain ⟨pre, post, e⟩ := h1
  rw [e]
  exact Contains_left _ _ _ (Contains_right _ _ _ h2)

theorem LoopText_contains {α : Type} (item : α → String) (l : List α) (x : α) (hx : x ∈ l)
    (i : Nat) : Contains (LoopText item i l) (item x) := by
  induction l generalizing i with
  | nil => cases hx
  | cons y rest ih =>
    simp only [LoopText]
    rcases List.mem_cons.mp hx with h | h
    · subst h
      exact Contains_left _ _ _ (Contains_right _ _ _ (Contains_refl _))
    · exact Contains_right _ _ _ (ih h (i + 1))

theorem SystemsText_eq (systems : List EcsSystemStats) (json_member : String)
    (data : EcsAdminMeasurement) :
    SystemsText systems json_member data =
      "\"" ++ (json_member ++ ("\":[" ++
        (LoopText (fun s => SystemText s (data.frame.current * 1 / data.fps.current)
          data.fps.current data) 0 systems ++ "]"))) := by
  unfold SystemsText AddSystemsToJson
  simp only
  rw [json_loop_append _ (fun b x => SystemToJson_append b x _ _ data)]
  simp only [String.empty_append, String.append_assoc]
  rfl

theorem SystemsText_contains (systems : List EcsSystemStats) (json_member : String)
    (data : EcsAdminMeasurement) (s : EcsSystemStats) (hs : s ∈ systems) :
    Contains (SystemsText systems json_member data)
      (SystemText s (data.frame.current * 1 / data.fps.current) data.fps.current data) := by
  rw [SystemsText_eq]
  exact Contains_right _ _ _ (Contains_right _ _ _ (Contains_right _ _ _
    (Contains_left _ _ _
      (LoopText_contains (fun s => SystemText s (data.frame.current * 1 / data.fps.current)
        data.fps.current data) systems s hs 0))))

theorem DocSystems_contains (stats : ecs_world_stats_t) (d : EcsAdminMeasurement)
    (s : EcsSystemStats) (hs : s ∈ listed_systems stats) :
    Contains (DocSystems stats d)
      (SystemText s (d.frame.current * 1 / d.fps.current) d.fps.current d) := by
  unfold listed_systems measured_systems at hs
  simp only [List.mem_append] at hs
  unfold DocSystems
  simp only [String.append_assoc]
  rcases hs with (((((((((((h | h) | h) | h) | h) | h) | h) | h) | h) | h) | h) | h)
  · exact Contains_right _ _ _ (Contains_left _ _ _
      (SystemsText_contains stats.on_load_systems "on_load" d s h))
  · exact Contains_right _ _ _ (Contains_right _ _ _ (Contains_right _ _ _ (Contains_left _ _ _
      (SystemsText_contains stats.post_load_systems "post_load" d s h))))
  · exact Contains_right _ _ _ (Contains_right _ _ _ (Contains_right _ _ _ (Contains_right _ _ _ (Contains_right _ _ _ (Contains_left _ _ _
      (SystemsText_contains stats.pre_update_systems "pre_update" d s h))))))
  · exact Contains_right _ _ _ (Contains_right _ _ _ (Contains_right _ _ _ (Contains_right _ _ _ (Contains_right _ _ _ (Contains_right _ _ _ (Contains_right _ _ _ (Contains_left _ _ _
      (SystemsText_contains stats.on_update_systems "on_update" d s h))))))))
  · exact Contains_right _ _ _ (Contains_right _ _ _ (Contains_right _ _ _ (Contains_right _ _ _ (Contains_right _ _ _ (Contains_right _ _ _ (Contains_right _ _ _ (Contains_right _ _ _ (Contains_right _ _ _ (Contains_left _ _ _
      (SystemsText_contains stats.on_validate_systems "on_validate" d s h))))))))))
  · exact Contains_right _ _ _ (Contains_right _ _ _ (Contains_right _ _ _ (Contains_right _ _ _ (Contains_right _ _ _ (Contains_right _ _ _ (Contains_right _ _ _ (Contains_right _ _ _ (Contains_right _ _ _ (Contains_right _ _ _ (Contains_right _ _ _ (Contains_left _ _ _
      (SystemsText_contains stats.post_update_systems "post_update" d s h))))))))))))
  · exact Contains_right _ _ _ (Contains_right _ _ _ (Contains_right _ _ _ (Contains_right _ _ _ (Contains_right _ _ _ (Contains_right _ _ _ (Contains_right _ _ _ (Contains_right _ _ _ (Contains_right _ _ _ (Contains_right _ _ _ (Contains_right _ _ _ (Contains_right _ _ _ (Contains_right _ _ _ (Contains_left _ _ _
      (SystemsText_contains stats.pre_store_systems "pre_store" d s h))))))))))))))
  · exact Contains_right _ _ _ (Contains_right _ _ _ (Contains_right _ _ _ (Contains_right _ _ _ (Contains_right _ _ _ (Contains_right _ _ _ (Contains_right _ _ _ (Contains_right _ _ _ (Contains_right _ _ _ (Contains_right _ _ _ (Contains_right _ _ _ (Contains_right _ _ _ (Contains_right _ _ _ (Contains_right _ _ _ (Contains_right _ _ _ (Contains_left _ _ _
      (SystemsText_contains stats.on_store_systems "on_store" d s h))))))))))))))))
  · exact Contains_right _ _ _ (Contains_right _ _ _ (Contains_right _ _ _ (Contains_right _ _ _ (Contains_right _ _ _ (Contains_right _ _ _ (Contains_right _ _ _ (Contains_right _ _ _ (Contains_right _ _ _ (Contains_right _ _ _ (Contains_right _ _ _ (Contains_right _ _ _ (Contains_right _ _ _ (Contains_right _ _ _ (Contains_right _ _ _ (Contains_right _ _ _ (Contains_right _ _ _ (Contains_left _ _ _
      (SystemsText_contains stats.manual_systems "manual" d s h))))))))))))))))))
  · exact Contains_right _ _ _ (Contains_right _ _ _ (Contains_right _ _ _ (Contains_right _ _ _ (Contains_right _ _ _ (Contains_right _ _ _ (Contains_right _ _ _ (Contains_right _ _ _ (Contains_right _ _ _ (Contains_right _ _ _ (Contains_right _ _ _ (Contains_right _ _ _ (Contains_right _ _ _ (Contains_right _ _ _ (Contains_right _ _ _ (Contains_right _ _ _ (Contains_right _ _ _ (Contains_right _ _ _ (Contains_right _ _ _ (Contains_left _ _ _
      (SystemsText_contains stats.on_add_systems "on_add" d s h))))))))))))))))))))
  · exact Contains_right _ _ _ (Contains_right _ _ _ (Contains_right _ _ _ (Contains_right _ _ _ (Contains_right _ _ _ (Contains_right _ _ _ (Contains_right _ _ _ (Contains_right _ _ _ (Contains_right _ _ _ (Contains_right _ _ _ (Contains_right _ _ _ (Contains_right _ _ _ (Contains_right _ _ _ (Contains_right _ _ _ (Contains_right _ _ _ (Contains_right _ _ _ (Contains_right _ _ _ (Contains_right _ _ _ (Contains_right _ _ _ (Contains_right _ _ _ (Contains_right _ _ _ (Contains_left _ _ _
      (SystemsText_contains stats.on_set_systems "on_set" d s h))))))))))))))))))))))
  · exact Contains_right _ _ _ (Contains_right _ _ _ (Contains_right _ _ _ (Contains_right _ _ _ (Contains_right _ _ _ (Contains_right _ _ _ (Contains_right _ _ _ (Contains_right _ _ _ (Contains_right _ _ _ (Contains_right _ _ _ (Contains_right _ _ _ (Contains_right _ _ _ (Contains_right _ _ _ (Contains_right _ _ _ (Contains_right _ _ _ (Contains_right _ _ _ (Contains_right _ _ _ (Contains_right _ _ _ (Contains_right _ _ _ (Contains_right _ _ _ (Contains_right _ _ _ (Contains_right _ _ _ (Contains_right _ _ _ (Contains_left _ _ _
      (SystemsText_contains stats.on_remove_systems "on_remove" d s h))))))))))))))))))))))))

theorem JsonFromStats_contains (stats : ecs_world_stats_t) (d : EcsAdminMeasurement)
    (s : EcsSystemStats) (hs : s ∈ listed_systems stats) :
    Contains (JsonFromStats stats d)
      (SystemText s (d.frame.current * 1 / d.fps.current) d.fps.current d) := by
  rw [JsonFromStats_eq]
  exact Contains_right _ _ _ (Contains_right _ _ _ (Contains_right _ _ _
    (Contains_right _ _ _ (Contains_right _ _ _ (Contains_right _ _ _
      (Contains_left _ _ _ (DocSystems_contains stats d s hs)))))))

/-! ## The keyed series of the tasks -/

theorem SystemText_eq (s : EcsSystemStats) (frame_time fps : ℚ) (data : EcsAdminMeasurement) :
    SystemText s frame_time fps data =
      SystemFields s frame_time fps ++
        ((match map_lookup data.system_measurements s.handle with
          | some values => RingBufText "time_spent_1m" values
          | none => "") ++ "\x7d") := by
  unfold SystemText SystemToJson SystemFields
  cases map_lookup data.system_measurements s.handle <;>
    simp only [AddRingBufToJson_append, String.empty_append, String.append_assoc]

theorem RingBufText_single (member : String) (v : ℚ) :
    RingBufText member (ecs_ringbuf_push (ecs_ringbuf_new MEASUREMENT_COUNT) v)
      = ",\"" ++ (member ++ ("\":[" ++ (fmt_f v ++ "]"))) := by
  simp [RingBufText, AddRingBufToJson, ecs_ringbuf_push, ecs_ringbuf_new, ecs_ringbuf_count,
    ecs_ringbuf_get, MEASUREMENT_COUNT, List.range_succ, String.append_assoc]

theorem mem_of_filter_eq_singleton {α : Type} (p : α → Bool) (l : List α) (a : α)
    (h : l.filter p = [a]) : a ∈ l := by
  have : a ∈ l.filter p := by rw [h]; exact List.mem_singleton_self a
  exact (List.mem_filter.mp this).1

theorem filter_eq_nil_of_ne {α : Type} (kf : α → Nat) (l : List α) (k : Nat)
    (h : ∀ a ∈ l, kf a ≠ k) : l.filter (fun a => kf a = k) = [] := by
  rw [List.filter_eq_nil_iff]
  intro a ha
  simpa using h a ha

/-- C5, as amended: for every tick that passes the zero-ticks/zero-elapsed guard with a
non-zero aggregate task time, and for every task record s that the provider reports in one
of the nine phases on_load, post_load, pre_update, on_update, on_validate, post_update,
pre_store, on_store, manual (its id reported once among them), the tick pushes exactly one
value 100*timeSpent/totalTaskTime onto the keyed series of that task (a new series when the
id was never seen before), the quotient having a non-zero divisor.  A task id that no
record of those nine phases carries, as that of a task listed only under on_add, on_set or
on_remove, gets no value pushed: its series is after the tick what it was before, none
when the id was never seen, and then its record carries no time_spent_1m.  Where no
divisor of the serialisation is zero, the published document contains the record of the
task s, and that record carries the series as time_spent_1m, which for a task id never
seen before is the one-element series of that percentage. -/
theorem C5_measured_task_gets_one_value (stats : ecs_world_stats_t) (delta_time : ℚ)
    (data : EcsAdminMeasurement) (s : EcsSystemStats)
    (h1 : stats.tick_count ≠ 0) (h2 : delta_time ≠ 0) (h3 : stats.system_time ≠ 0)
    (hv : data.Valid)
    (hs : (measured_systems stats).filter (fun a => a.handle = s.handle) = [s]) :
    ∃ d2, EcsAdminCollectData stats delta_time [data] = some [d2] ∧
      map_lookup d2.system_measurements s.handle
        = some (ecs_ringbuf_push
            ((map_lookup data.system_measurements s.handle).getD
              (ecs_ringbuf_new MEASUREMENT_COUNT))
            ((s.time_spent / stats.system_time) * 100)) ∧
      (0 : ℚ) ∉ AddSystemMeasurement_divisors stats (measured_systems stats) ∧
      (∀ k, (∀ a ∈ measured_systems stats, a.handle ≠ k) →
        map_lookup d2.system_measurements k = map_lookup data.system_measurements k) ∧
      (∀ t ∈ stats.on_add_systems ++ stats.on_set_systems ++ stats.on_remove_systems,
        (∀ a ∈ measured_systems stats, a.handle ≠ t.handle) →
        t ∈ listed_systems stats ∧
        map_lookup d2.system_measurements t.handle
          = map_lookup data.system_measurements t.handle ∧
        (map_lookup data.system_measurements t.handle = none →
          ∀ frame_time fps, frame_time * fps ≠ 0 →
            SystemText t frame_time fps d2 = SystemFields t frame_time fps ++ "\x7d")) ∧
      (d2.fps.current ≠ 0 → d2.frame.current ≠ 0 →
        ∃ doc, d2.stats_json = some doc ∧
          Contains doc
            (SystemText s (d2.frame.current * 1 / d2.fps.current) d2.fps.current d2)) ∧
      (∀ frame_time fps, frame_time * fps ≠ 0 →
        SystemText s frame_time fps d2 =
          SystemFields s frame_time fps ++
            (RingBufText "time_spent_1m"
              (ecs_ringbuf_push
                ((map_lookup data.system_measurements s.handle).getD
                  (ecs_ringbuf_new MEASUREMENT_COUNT))
                ((s.time_spent / stats.system_time) * 100)) ++ "\x7d")) ∧
      (map_lookup data.system_measurements s.handle = none →
        (∃ b, map_lookup d2.system_measurements s.handle = some b ∧
          b.elems = [(s.time_spent / stats.system_time) * 100]) ∧
        ∀ frame_time fps, frame_time * fps ≠ 0 →
          SystemText s frame_time fps d2 =
            SystemFields s frame_time fps ++
              (",\"time_spent_1m\":[" ++
                (fmt_f ((s.time_spent / stats.system_time) * 100) ++ "]\x7d"))) := by
  obtain ⟨d2, e, hrow, _⟩ := CollectData_single stats delta_time data h1 h2 hv
  obtain ⟨d3, e3, _, _, _, _, hmap, _, hjson⟩ := CollectRow_valid stats delta_time data hv
  rw [hrow] at e3
  cases e3
  have hlook : map_lookup d2.system_measurements s.handle
      = some (ecs_ringbuf_push
          ((map_lookup data.system_measurements s.handle).getD
            (ecs_ringbuf_new MEASUREMENT_COUNT))
          ((s.time_spent / stats.system_time) * 100)) := by
    rw [hmap, map_lookup_eq data.system_measurements]
    simp only [map_lookup]
    rw [fold_record_has (fun a : EcsSystemStats => a.handle)
      (fun a => (a.time_spent / stats.system_time) * 100), hs]
    rfl
  have hother : ∀ k, (∀ a ∈ measured_systems stats, a.handle ≠ k) →
      map_lookup d2.system_measurements k = map_lookup data.system_measurements k := by
    intro k hk
    rw [hmap, map_lookup_eq data.system_measurements]
    simp only [map_lookup]
    rw [fold_record_has (fun a : EcsSystemStats => a.handle)
      (fun a => (a.time_spent / stats.system_time) * 100),
      filter_eq_nil_of_ne (fun a : EcsSystemStats => a.handle) _ k hk]
    rfl
  have htext : ∀ frame_time fps, SystemText s frame_time fps d2 =
      SystemFields s frame_time fps ++
        (RingBufText "time_spent_1m"
          (ecs_ringbuf_push
            ((map_lookup data.system_measurements s.handle).getD
              (ecs_ringbuf_new MEASUREMENT_COUNT))
            ((s.time_spent / stats.system_time) * 100)) ++ "\x7d") := by
    intro frame_time fps
    rw [SystemText_eq, hlook]
  have hdiv : (0 : ℚ) ∉ AddSystemMeasurement_divisors stats (measured_systems stats) := by
    unfold AddSystemMeasurement_divisors
    intro h0
    obtain ⟨_, _, h⟩ := List.mem_map.mp h0
    exact h3 h
  refine ⟨d2, e, hlook, hdiv, hother, ?_, ?_, fun ft fps _ => htext ft fps, ?_⟩
  · intro t ht hk
    refine ⟨?_, hother t.handle hk, ?_⟩
    · unfold listed_systems
      simp only [List.mem_append] at ht ⊢
      tauto
    · intro hnone frame_time fps _
      rw [SystemText_eq, hother t.handle hk, hnone]
      rfl
  · intro _ _
    refine ⟨_, hjson, ?_⟩
    have hmem : s ∈ listed_systems stats := by
      unfold listed_systems
      simp only [List.mem_append]
      exact Or.inl (Or.inl (Or.inl (mem_of_filter_eq_singleton _ _ _ hs)))
    exact JsonFromStats_contains stats { d2 with stats_json := data.stats_json } s hmem
  · intro hnone
    refine ⟨⟨_, hlook, ?_⟩, ?_⟩
    · rw [hnone]
      exact elems_push_new _
    · intro frame_time fps _
      rw [htext, hnone]
      simp only [Option.getD_none, RingBufText_single, String.append_assoc]
      rfl

/-- Witness of C5 as amended: the `on_update` system of `stats_tasks` on the freshly
started component gets the one-element series 50, and the published document contains its
record with that series; the `on_add` system of `stats_tasks` gets none. -/
theorem C5_measured_task_gets_one_value_witness :
    (stats_tasks.tick_count ≠ 0 ∧ (1 : ℚ) ≠ 0 ∧ stats_tasks.system_time ≠ 0 ∧
      EcsAdminMeasurement_init.Valid ∧
      (measured_systems stats_tasks).filter (fun a => a.handle = system_move.handle)
        = [system_move]) ∧
    ∃ d2 doc, EcsAdminCollectData stats_tasks 1 [EcsAdminMeasurement_init] = some [d2] ∧
      (∃ b, map_lookup d2.system_measurements 7 = some b ∧ b.elems = [50]) ∧
      map_lookup d2.system_measurements 9 = none ∧
      d2.fps.current = 10 ∧ d2.frame.current = 50 ∧
      d2.stats_json = some doc ∧
      Contains doc
        (SystemFields system_move (50 * 1 / 10) 10 ++
          (",\"time_spent_1m\":[" ++ (fmt_f 50 ++ "]\x7d"))) := by
  have h3 : stats_tasks.system_time ≠ 0 := by norm_num [stats_tasks]
  refine ⟨⟨by decide, by norm_num, h3, Valid_admin_init, rfl⟩, ?_⟩
  obtain ⟨d2, e, _, _, ho, _, hc, _, h⟩ :=
    C5_measured_task_gets_one_value stats_tasks 1 EcsAdminMeasurement_init system_move
      (by decide) (by norm_num) h3 Valid_admin_init rfl
  obtain ⟨⟨b, hb, he⟩, ht⟩ := h rfl
  obtain ⟨d, e2, _, a1, a2, _⟩ := CollectData_single stats_tasks 1 EcsAdminMeasurement_init
    (by decide) (by norm_num) Valid_admin_init
  rw [e] at e2
  simp only [Option.some.injEq, List.cons.injEq, and_true] at e2
  subst e2
  have e10 : (stats_tasks.tick_count : ℚ) / 1 = 10 := by norm_num [stats_tasks]
  have e50 : (stats_tasks.frame_time / (stats_tasks.tick_count : ℚ))
      * ((stats_tasks.tick_count : ℚ) / 1) * 100 = 50 := by
    norm_num [stats_tasks]
  have ev : (system_move.time_spent / stats_tasks.system_time) * 100 = 50 := by
    norm_num [system_move, stats_tasks]
  rw [e10, double_to_float_ten] at a1
  rw [e50, double_to_float_fifty] at a2
  obtain ⟨doc, hdoc, hcont⟩ := hc (by rw [a1]; norm_num) (by rw [a2]; norm_num)
  rw [a1, a2, ht (50 * 1 / 10) 10 (by norm_num), ev] at hcont
  refine ⟨d2, doc, e, ⟨b, hb, ?_⟩, ?_, a1, a2, hdoc, hcont⟩
  · rw [he, ev]
  · rw [ho 9 (by
      intro a ha
      have : a = system_move := by
        simpa [measured_systems, stats_tasks, stats_empty] using ha
      rw [this]
      decide)]
    rfl

/-- Counterexample to C5 as stated: on a passing tick of the freshly started component the
provider `stats_tasks` reports the task `system_init` in the `on_add` phase, which the
document lists; the tick pushes no value for it (its id has no series after the tick) and
its serialised record carries no `time_spent_1m`. -/
theorem C5_counterexample_on_add_task :
    ∃ d2, EcsAdminCollectData stats_tasks 1 [EcsAdminMeasurement_init] = some [d2] ∧
      system_init ∈ listed_systems stats_tasks ∧
      map_lookup d2.system_measurements system_init.handle = none ∧
      ∀ frame_time fps, frame_time * fps ≠ 0 →
        SystemText system_init frame_time fps d2
          = SystemFields system_init frame_time fps ++ "\x7d" := by
  obtain ⟨d2, e, hrow, _⟩ := CollectData_single stats_tasks 1 EcsAdminMeasurement_init
    (by decide) (by norm_num) Valid_admin_init
  obtain ⟨d3, e3, _, _, _, _, hmap, _, _⟩ :=
    CollectRow_valid stats_tasks 1 EcsAdminMeasurement_init Valid_admin_init
  rw [hrow] at e3
  cases e3
  have hlook : map_lookup d2.system_measurements system_init.handle = none := by
    rw [hmap]
    simp only [map_lookup]
    rw [fold_record_has (fun a : EcsSystemStats => a.handle)
      (fun a => (a.time_spent / stats_tasks.system_time) * 100)]
    rfl
  refine ⟨d2, e, ?_, hlook, ?_⟩
  · simp [listed_systems, stats_tasks, stats_empty]
  · intro frame_time fps _
    rw [SystemText_eq, hlook]
    rfl

/-! ## Divisions by zero -/

/-- C6, the failing inputs: the provider `stats_unprofiled` (10 ticks, elapsed time 1 s,
aggregate task time 0, one task reported) passes the guard of EcsAdminCollectData, and
the tick divides by zero: the divisor `stats->system_time` of `AddSystemMeasurement` is 0.
The provider `stats_frameless` (aggregate frame time 0, one task reported) passes the
guard as well, and the divisor `frame_time * fps` of `AddSystemsToJson` is 0. -/
theorem C6_passing_tick_divides_by_zero :
    ((stats_unprofiled.tick_count ≠ 0 ∧ (1 : ℚ) ≠ 0) ∧
      (0 : ℚ) ∈ AddSystemMeasurement_divisors stats_unprofiled
        stats_unprofiled.on_update_systems ∧
      (0 : ℚ) ∈ CollectRow_divisors stats_unprofiled 1 EcsAdminMeasurement_init) ∧
    ((stats_frameless.tick_count ≠ 0 ∧ (1 : ℚ) ≠ 0) ∧
      (0 : ℚ) ∈ CollectRow_divisors stats_frameless 1 EcsAdminMeasurement_init) := by
  refine ⟨⟨⟨by decide, by norm_num⟩, ?_, ?_⟩, ⟨by decide, by norm_num⟩, ?_⟩
  · simp [AddSystemMeasurement_divisors, stats_unprofiled]
  · unfold CollectRow_divisors
    simp only [List.mem_append]
    refine Or.inl (Or.inl (Or.inl (Or.inl (Or.inl (Or.inl (Or.inr ?_))))))
    simp [AddSystemMeasurement_divisors, stats_unprofiled]
  · obtain ⟨d, _, hrow, _, hframe, _⟩ :=
      CollectData_single stats_frameless 1 EcsAdminMeasurement_init (by decide)
        (by norm_num) Valid_admin_init
    have h0 : d.frame.current = 0 := by
      have e0 : (stats_frameless.frame_time / (stats_frameless.tick_count : ℚ))
          * ((stats_frameless.tick_count : ℚ) / 1) * 100 = 0 := by
        norm_num [stats_frameless]
      rw [hframe, e0]
      exact double_to_float_zero
    unfold CollectRow_divisors
    rw [hrow]
    simp only [List.mem_append]
    refine Or.inr ?_
    unfold JsonFromStats_divisors
    simp only [List.mem_append]
    refine Or.inl (Or.inl (Or.inl (Or.inl (Or.inl (Or.inl (Or.inl (Or.inl (Or.inr ?_))))))))
    simp [AddSystemsToJson_divisors, stats_frameless, h0]

/-! ## The reader on the text of the serialisers -/

theorem scan_append (s : Scan) (a b : List Char) : scan s (a ++ b) = scan (scan s a) b := by
  unfold scan
  rw [List.foldl_append]

theorem scan_cons (s : Scan) (c : Char) (t : List Char) :
    scan s (c :: t) = scan (scanChar s c) t := rfl

theorem scan_nil (s : Scan) : scan s [] = s := rfl

theorem checkChar_sound (m m2 : Mode) (c : Char) (h : checkChar m c = some m2)
    (d : Nat) (cur : List Char) (mem : List (List Char)) :
    scanChar ⟨d + m.depth, m.inString, m.escaped, cur, mem⟩ c
      = ⟨d + m2.depth, m2.inString, m2.escaped, cur ++ [c], mem⟩ := by
  obtain ⟨k, i, e⟩ := m
  unfold checkChar at h
  unfold scanChar
  simp only at h ⊢
  by_cases hi : i = true
  · simp only [hi, if_true] at h ⊢
    by_cases he : e = true
    · simp only [he, if_true] at h ⊢
      cases h
      rfl
    · simp only [he, Bool.false_eq_true, if_false] at h ⊢
      split_ifs at h ⊢ <;> cases h <;> rfl
  · simp only [hi, Bool.false_eq_true, if_false] at h ⊢
    by_cases h1 : c = '"'
    · simp only [h1, if_true] at h ⊢
      cases h
      rfl
    · simp only [h1, if_false] at h ⊢
      by_cases h2 : c = '\x7b' ∨ c = '['
      · simp only [h2, if_true] at h ⊢
        by_cases hk : k = 0
        · simp [hk] at h
        · simp only [hk, if_false] at h
          cases h
          have : ¬ (d + k = 0) := by omega
          simp only [this, if_false]
          rfl
      · simp only [h2, if_false] at h ⊢
        by_cases h3 : c = '\x7d' ∨ c = ']'
        · simp only [h3, if_true] at h ⊢
          by_cases hk : k ≤ 1
          · simp [hk] at h
          · simp only [hk, if_false] at h
            cases h
            have : ¬ (d + k ≤ 1) := by omega
            simp only [this, if_false]
            congr 1
            omega
        · simp only [h3, if_false] at h ⊢
          by_cases h4 : c = ','
          · simp only [h4, if_true] at h
            by_cases hk : k ≤ 1
            · simp [hk] at h
            · simp only [hk, if_false] at h
              cases h
              have : ¬ (c = ',' ∧ d + k = 1) := by
                intro hh
                omega
              simp only [this, if_false]
          · simp only [h4, if_false] at h
            cases h
            have : ¬ (c = ',' ∧ d + k = 1) := fun hh => h4 hh.1
            simp only [this, if_false]

theorem checkText_sound (t : List Char) (m m2 : Mode) (h : checkText m t = some m2)
    (d : Nat) (cur : List Char) (mem : List (List Char)) :
    scan ⟨d + m.depth, m.inString, m.escaped, cur, mem⟩ t
      = ⟨d + m2.depth, m2.inString, m2.escaped, cur ++ t, mem⟩ := by
  induction t generalizing m cur with
  | nil =>
    simp only [checkText, Option.some.injEq] at h
    subst h
    simp [scan_nil]
  | cons c rest ih =>
    simp only [checkText] at h
    cases hc : checkChar m c with
    | none => simp [hc] at h
    | some m3 =>
      simp only [hc] at h
      rw [scan_cons, checkChar_sound m m3 c hc, ih m3 h]
      simp

theorem scan_plain (t : List Char) (ht : ∀ c ∈ t, PlainChar c) (k : Nat) (e : Bool)
    (cur : List Char) (mem : List (List Char)) :
    scan ⟨k, false, e, cur, mem⟩ t = ⟨k, false, e, cur ++ t, mem⟩ := by
  induction t generalizing cur with
  | nil => simp [scan_nil]
  | cons c rest ih =>
    obtain ⟨p1, p2, p3, p4, p5, p6, p7⟩ := ht c (List.mem_cons_self _ _)
    rw [scan_cons]
    have hstep : scanChar ⟨k, false, e, cur, mem⟩ c = ⟨k, false, e, cur ++ [c], mem⟩ := by
      simp [scanChar, p1, p3, p4, p5, p6, p7]
    rw [hstep, ih (fun x hx => ht x (List.mem_cons_of_mem _ hx))]
    simp

theorem scan_clean (t : List Char) (ht : ∀ c ∈ t, c ≠ '"' ∧ c ≠ '\\') (k : Nat)
    (cur : List Char) (mem : List (List Char)) :
    scan ⟨k, true, false, cur, mem⟩ t = ⟨k, true, false, cur ++ t, mem⟩ := by
  induction t generalizing cur with
  | nil => simp [scan_nil]
  | cons c rest ih =>
    obtain ⟨p1, p2⟩ := ht c (List.mem_cons_self _ _)
    rw [scan_cons]
    have hstep : scanChar ⟨k, true, false, cur, mem⟩ c = ⟨k, true, false, cur ++ [c], mem⟩ := by
      simp [scanChar, p1, p2]
    rw [hstep, ih (fun x hx => ht x (List.mem_cons_of_mem _ hx))]
    simp

theorem checkSeg_sound (seg : Seg) (hok : seg.ok) (m m2 : Mode) (h : checkSeg m seg = some m2)
    (d : Nat) (cur : List Char) (mem : List (List Char)) :
    scan ⟨d + m.depth, m.inString, m.escaped, cur, mem⟩ seg.text.data
      = ⟨d + m2.depth, m2.inString, m2.escaped, cur ++ seg.text.data, mem⟩ := by
  obtain ⟨k, i, e⟩ := m
  cases seg with
  | lit s => exact checkText_sound s.data _ _ h d cur mem
  | plain s =>
    simp only [checkSeg] at h
    by_cases hi : i = false
    · simp only [hi, if_true, Option.some.injEq] at h
      subst h
      subst hi
      exact scan_plain s.data hok _ _ cur mem
    · simp [hi] at h
  | clean s =>
    simp only [checkSeg] at h
    by_cases hi : i = true ∧ e = false
    · simp only [hi, and_self, if_true, Option.some.injEq] at h
      subst h
      obtain ⟨hi1, hi2⟩ := hi
      subst hi1
      subst hi2
      exact scan_clean s.data hok _ cur mem
    · simp [hi] at h
  | inert s =>
    simp only [checkSeg] at h
    by_cases hi : i = false ∧ e = false ∧ 2 ≤ k
    · simp only [hi, and_self, if_true, Option.some.injEq] at h
      subst h
      obtain ⟨hi1, hi2, hi3⟩ := hi
      subst hi1
      subst hi2
      have hI : Inert s := hok
      have hd : d + k = (d + k - 2) + 2 := by omega
      simp only [Seg.text]
      rw [hd]
      exact hI (d + k - 2) cur mem
    · simp [hi] at h

theorem check_sound (t : List Seg) (hok : ∀ seg ∈ t, seg.ok) (m m2 : Mode)
    (h : check m t = some m2) (d : Nat) (cur : List Char) (mem : List (List Char)) :
    scan ⟨d + m.depth, m.inString, m.escaped, cur, mem⟩ (render t).data
      = ⟨d + m2.depth, m2.inString, m2.escaped, cur ++ (render t).data, mem⟩ := by
  induction t generalizing m cur with
  | nil =>
    simp only [check, Option.some.injEq] at h
    subst h
    simp [render, scan_nil]
  | cons seg rest ih =>
    simp only [check] at h
    cases hc : checkSeg m seg with
    | none => simp [hc] at h
    | some m3 =>
      simp only [hc] at h
      simp only [render, String.data_append]
      rw [scan_append, checkSeg_sound seg (hok seg (List.mem_cons_self _ _)) m m3 hc,
        ih (fun x hx => hok x (List.mem_cons_of_mem _ hx)) m3 h]
      simp

theorem Inert_of_check (t : List Seg) (hok : ∀ seg ∈ t, seg.ok)
    (h : check ⟨2, false, false⟩ t = some ⟨2, false, false⟩) : Inert (render t) := by
  intro d cur mem
  exact check_sound t hok ⟨2, false, false⟩ ⟨2, false, false⟩ h d cur mem

theorem Flat_of_check (t : List Seg) (hok : ∀ seg ∈ t, seg.ok)
    (h : check ⟨1, false, false⟩ t = some ⟨1, false, false⟩) : Flat (render t) := by
  intro cur mem
  have := check_sound t hok ⟨1, false, false⟩ ⟨1, false, false⟩ h 0 cur mem
  simpa using this

theorem Inert_empty : Inert "" := by
  intro d cur mem
  simp [scan_nil]

theorem Inert_append (a b : String) (ha : Inert a) (hb : Inert b) : Inert (a ++ b) := by
  intro d cur mem
  rw [String.data_append, scan_append, ha, hb]
  simp

/-! ## The formatted numbers are plain -/

theorem plain_digitChar (n : Nat) (h : n < 10) : PlainChar (Nat.digitChar n) := by
  interval_cases n <;> decide

theorem plain_toDigitsCore (fuel n : Nat) (ds : List Char) (hds : ∀ c ∈ ds, PlainChar c) :
    ∀ c ∈ Nat.toDigitsCore 10 fuel n ds, PlainChar c := by
  induction fuel generalizing n ds with
  | zero => simpa [Nat.toDigitsCore] using hds
  | succ fuel ih =>
    simp only [Nat.toDigitsCore]
    have hd : PlainChar (Nat.digitChar (n % 10)) := plain_digitChar _ (Nat.mod_lt _ (by decide))
    have hcons : ∀ c ∈ Nat.digitChar (n % 10) :: ds, PlainChar c := by
      intro c hc
      rcases List.mem_cons.mp hc with h | h
      · rw [h]; exact hd
      · exact hds c h
    split_ifs
    · exact hcons
    · exact ih _ _ hcons

theorem plain_toString (n : Nat) : ∀ c ∈ (toString n).data, PlainChar c := by
  show ∀ c ∈ (Nat.repr n).data, PlainChar c
  unfold Nat.repr Nat.toDigits
  simp only [List.asString]
  exact plain_toDigitsCore _ _ [] (by simp)

theorem plain_fmt_u (n : Nat) : ∀ c ∈ (fmt_u n).data, PlainChar c := plain_toString n

theorem plain_fmt_bool (b : Bool) : ∀ c ∈ (fmt_bool b).data, PlainChar c := by
  cases b <;> decide

theorem plain_fmt_d (n : Nat) : ∀ c ∈ (fmt_d n).data, PlainChar c := by
  unfold fmt_d
  split_ifs
  · exact plain_toString _
  · intro c hc
    simp only [String.data_append, List.mem_append] at hc
    rcases hc with h | h
    · have : c = '-' := by simpa using h
      rw [this]
      decide
    · exact plain_toString _ c h

theorem plain_fmt_f (q : ℚ) : ∀ c ∈ (fmt_f q).data, PlainChar c := by
  unfold fmt_f
  intro c hc
  simp only [String.data_append, List.mem_append] at hc
  rcases hc with (((h | h) | h) | h) | h
  · split_ifs at h
    · have : c = '-' := by simpa using h
      rw [this]
      decide
    · simp at h
  · exact plain_toString _ c h
  · have : c = '.' := by simpa using h
    rw [this]
    decide
  · have : c = Char.ofNat 48 := (List.mem_replicate.mp h).2
    rw [this]
    decide
  · exact plain_toString _ c h

/-! ## The texts of the serialisers are balanced -/

theorem ok_nil : ∀ seg ∈ ([] : List Seg), seg.ok := by
  intro seg h
  cases h

theorem ok_cons (seg : Seg) (rest : List Seg) (h1 : seg.ok) (h2 : ∀ s ∈ rest, s.ok) :
    ∀ s ∈ seg :: rest, s.ok := by
  intro s hs
  rcases List.mem_cons.mp hs with h | h
  · rw [h]; exact h1
  · exact h2 s h

theorem Inert_plain (s : String) (h : ∀ c ∈ s.data, PlainChar c) : Inert s := by
  have := Inert_of_check [Seg.plain s] (ok_cons _ _ h ok_nil) rfl
  simpa [render, Seg.text] using this

theorem Inert_comma : Inert "," := by
  have := Inert_of_check [Seg.lit ","] (ok_cons _ _ trivial ok_nil) (by decide)
  simpa [render, Seg.text] using this

theorem nums_fold_inert (values : ecs_ringbuf_t) (l : List Nat) (x : String) (hx : Inert x) :
    Inert (l.foldl
      (fun buf i =>
        match ecs_ringbuf_get values i with
        | some value => (if i ≠ 0 then buf ++ "," else buf) ++ fmt_f value
        | none => if i ≠ 0 then buf ++ "," else buf)
      x) := by
  induction l generalizing x with
  | nil => exact hx
  | cons i rest ih =>
    simp only [List.foldl_cons]
    apply ih
    have h1 : Inert (if i ≠ 0 then x ++ "," else x) := by
      by_cases hi : i = 0
      · simpa [hi] using hx
      · simpa [hi] using Inert_append _ _ hx Inert_comma
    cases ecs_ringbuf_get values i with
    | none => exact h1
    | some v => exact Inert_append _ _ h1 (Inert_plain _ (plain_fmt_f v))

theorem NumsText_inert (values : ecs_ringbuf_t) : Inert (NumsText values) :=
  nums_fold_inert values _ "" Inert_empty

theorem RingBufText_eq (member : String) (values : ecs_ringbuf_t) :
    RingBufText member values = ",\"" ++ (member ++ ("\":[" ++ (NumsText values ++ "]"))) := by
  unfold RingBufText AddRingBufToJson NumsText
  simp only [String.empty_append, String.append_assoc]
  have h := ringbuf_fold_append values (List.range (ecs_ringbuf_count values))
    (",\"" ++ (member ++ "\":[")) ""
  simp only [String.append_empty, String.append_assoc] at h
  rw [h]
  simp only [String.append_assoc]

theorem RingBufText_inert (member : String) (values : ecs_ringbuf_t)
    (hm : CleanString member) : Inert (RingBufText member values) := by
  have h := Inert_of_check
    [Seg.lit ",\"", Seg.clean member, Seg.lit "\":[", Seg.inert (NumsText values), Seg.lit "]"]
    (ok_cons _ _ trivial (ok_cons _ _ hm (ok_cons _ _ trivial
      (ok_cons _ _ (NumsText_inert values) (ok_cons _ _ trivial ok_nil))))) rfl
  rw [RingBufText_eq]
  simpa [render, Seg.text] using h

theorem LoopText_inert {α : Type} (item : α → String) (l : List α)
    (h : ∀ x ∈ l, Inert (item x)) (i : Nat) : Inert (LoopText item i l) := by
  induction l generalizing i with
  | nil => exact Inert_empty
  | cons x rest ih =>
    simp only [LoopText]
    refine Inert_append _ _ (Inert_append _ _ ?_ (h x (List.mem_cons_self _ _)))
      (ih (fun y hy => h y (List.mem_cons_of_mem _ hy)) (i + 1))
    by_cases hi : i = 0
    · simpa [hi] using Inert_empty
    · simpa [hi] using Inert_comma

theorem ComponentText_inert (c : EcsComponentStats) (d : EcsAdminMeasurement)
    (hid : CleanString c.id) : Inert (ComponentText c d) := by
  have hseries : Inert (match map_lookup d.component_measurements c.handle with
      | some values => RingBufText "mem_used_1m" values
      | none => "") := by
    cases map_lookup d.component_measurements c.handle with
    | none => exact Inert_empty
    | some v => exact RingBufText_inert _ v (by decide)
  have h := Inert_of_check
    [Seg.lit "\x7b\"handle\":", Seg.plain (fmt_d c.handle), Seg.lit ",\"id\":\"",
      Seg.clean c.id, Seg.lit "\",\"entities\":", Seg.plain (fmt_u c.entities),
      Seg.lit ",\"tables\":", Seg.plain (fmt_u c.tables),
      Seg.inert (match map_lookup d.component_measurements c.handle with
        | some values => RingBufText "mem_used_1m" values
        | none => ""),
      Seg.lit "\x7d"]
    (ok_cons _ _ trivial (ok_cons _ _ (plain_fmt_d _) (ok_cons _ _ trivial
      (ok_cons _ _ hid (ok_cons _ _ trivial (ok_cons _ _ (plain_fmt_u _)
        (ok_cons _ _ trivial (ok_cons _ _ (plain_fmt_u _) (ok_cons _ _ hseries
          (ok_cons _ _ trivial ok_nil)))))))))) rfl
  have e : ComponentText c d = render
      [Seg.lit "\x7b\"handle\":", Seg.plain (fmt_d c.handle), Seg.lit ",\"id\":\"",
        Seg.clean c.id, Seg.lit "\",\"entities\":", Seg.plain (fmt_u c.entities),
        Seg.lit ",\"tables\":", Seg.plain (fmt_u c.tables),
        Seg.inert (match map_lookup d.component_measurements c.handle with
          | some values => RingBufText "mem_used_1m" values
          | none => ""),
        Seg.lit "\x7d"] := by
    unfold ComponentText ComponentToJson
    cases map_lookup d.component_measurements c.handle <;>
      simp only [render, Seg.text, AddRingBufToJson_append, String.empty_append,
        String.append_empty, String.append_assoc]
  rw [e]
  exact h

theorem ComponentsText_eq (stats : ecs_world_stats_t) (d : EcsAdminMeasurement) :
    ComponentsText stats d =
      if stats.components.length ≠ 0 then
        "\"components\":[" ++ (LoopText (fun c => ComponentText c d) 0 stats.components ++ "]")
      else "" := by
  unfold ComponentsText AddComponentsToJson
  by_cases h : stats.components.length = 0
  · simp [h]
  · simp only [ne_eq, h, not_false_eq_true, if_true]
    rw [json_loop_append _ (fun b x => ComponentToJson_append b x d)]
    simp only [String.empty_append, String.append_assoc]
    rfl

theorem Flat_empty : Flat "" := by
  intro cur mem
  simp [scan_nil]

theorem ComponentsText_flat (stats : ecs_world_stats_t) (d : EcsAdminMeasurement)
    (hclean : ∀ c ∈ stats.components, CleanString c.id) : Flat (ComponentsText stats d) := by
  rw [ComponentsText_eq]
  by_cases h : stats.components.length = 0
  · simpa [h] using Flat_empty
  · simp only [ne_eq, h, not_false_eq_true, if_true]
    have hl := LoopText_inert (fun c => ComponentText c d) stats.components
      (fun c hc => ComponentText_inert c d (hclean c hc)) 0
    have hf := Flat_of_check
      [Seg.lit "\"components\":[",
        Seg.inert (LoopText (fun c => ComponentText c d) 0 stats.components), Seg.lit "]"]
      (ok_cons _ _ trivial (ok_cons _ _ hl (ok_cons _ _ trivial ok_nil))) rfl
    simpa [render, Seg.text] using hf

theorem SystemText_inert (s : EcsSystemStats) (frame_time fps : ℚ) (d : EcsAdminMeasurement)
    (hid : CleanString s.id) (hsig : CleanString s.signature) :
    Inert (SystemText s frame_time fps d) := by
  have hseries : Inert (match map_lookup d.system_measurements s.handle with
      | some values => RingBufText "time_spent_1m" values
      | none => "") := by
    cases map_lookup d.system_measurements s.handle with
    | none => exact Inert_empty
    | some v => exact RingBufText_inert _ v (by decide)
  have h := Inert_of_check
    [Seg.lit "\x7b\"handle\":", Seg.plain (fmt_d s.handle), Seg.lit ",\"id\":\"",
      Seg.clean s.id, Seg.lit "\",\"enabled\":", Seg.plain (fmt_bool s.enabled),
      Seg.lit ",\"active\":", Seg.plain (fmt_bool s.active),
      Seg.lit ",\"tables_matched\":", Seg.plain (fmt_u s.tables_matched),
      Seg.lit ",\"entities_matched\":", Seg.plain (fmt_u s.entities_matched),
      Seg.lit ",\"signature\":\"", Seg.clean s.signature,
      Seg.lit "\",\"is_hidden\":", Seg.plain (fmt_bool s.is_hidden),
      Seg.lit ",\"period\":", Seg.plain (fmt_f s.period),
      Seg.lit ",\"time_spent\":",
      Seg.plain (fmt_f ((s.time_spent / (frame_time * fps)) * 100 * 100)),
      Seg.inert (match map_lookup d.system_measurements s.handle with
        | some values => RingBufText "time_spent_1m" values
        | none => ""),
      Seg.lit "\x7d"]
    (ok_cons _ _ trivial (ok_cons _ _ (plain_fmt_d _) (ok_cons _ _ trivial
      (ok_cons _ _ hid (ok_cons _ _ trivial (ok_cons _ _ (plain_fmt_bool _)
      (ok_cons _ _ trivial (ok_cons _ _ (plain_fmt_bool _)
      (ok_cons _ _ trivial (ok_cons _ _ (plain_fmt_u _)
      (ok_cons _ _ trivial (ok_cons _ _ (plain_fmt_u _)
      (ok_cons _ _ trivial (ok_cons _ _ hsig
      (ok_cons _ _ trivial (ok_cons _ _ (plain_fmt_bool _)
      (ok_cons _ _ trivial (ok_cons _ _ (plain_fmt_f _)
      (ok_cons _ _ trivial (ok_cons _ _ (plain_fmt_f _)
      (ok_cons _ _ hseries (ok_cons _ _ trivial ok_nil)))))))))))))))))))))) rfl
  rw [SystemText_eq]
  simpa [render, Seg.text, SystemFields, String.append_assoc] using h

theorem SystemsText_inert (systems : List EcsSystemStats) (json_member : String)
    (d : EcsAdminMeasurement) (hname : CleanString json_member)
    (hclean : ∀ s ∈ systems, CleanString s.id ∧ CleanString s.signature) :
    Inert (SystemsText systems json_member d) := by
  have hl := LoopText_inert
    (fun s => SystemText s (d.frame.current * 1 / d.fps.current) d.fps.current d) systems
    (fun s hs => SystemText_inert s _ _ d (hclean s hs).1 (hclean s hs).2) 0
  have h := Inert_of_check
    [Seg.lit "\"", Seg.clean json_member, Seg.lit "\":[",
      Seg.inert (LoopText
        (fun s => SystemText s (d.frame.current * 1 / d.fps.current) d.fps.current d)
        0 systems),
      Seg.lit "]"]
    (ok_cons _ _ trivial (ok_cons _ _ hname (ok_cons _ _ trivial
      (ok_cons _ _ hl (ok_cons _ _ trivial ok_nil))))) rfl
  rw [SystemsText_eq]
  simpa [render, Seg.text] using h

theorem DocSystems_flat (stats : ecs_world_stats_t) (d : EcsAdminMeasurement)
    (hclean : ∀ s ∈ listed_systems stats, CleanString s.id ∧ CleanString s.signature) :
    Flat (DocSystems stats d) := by
  have hmem : ∀ l : List EcsSystemStats, (∀ s ∈ l, s ∈ listed_systems stats) →
      ∀ s ∈ l, CleanString s.id ∧ CleanString s.signature :=
    fun l hl s hs => hclean s (hl s hs)
  have h := Flat_of_check
    [Seg.lit "\"systems\":\x7b",
      Seg.inert (SystemsText stats.on_load_systems "on_load" d), Seg.lit ", ",
      Seg.inert (SystemsText stats.post_load_systems "post_load" d), Seg.lit ", ",
      Seg.inert (SystemsText stats.pre_update_systems "pre_update" d), Seg.lit ", ",
      Seg.inert (SystemsText stats.on_update_systems "on_update" d), Seg.lit ", ",
      Seg.inert (SystemsText stats.on_validate_systems "on_validate" d), Seg.lit ", ",
      Seg.inert (SystemsText stats.post_update_systems "post_update" d), Seg.lit ", ",
      Seg.inert (SystemsText stats.pre_store_systems "pre_store" d), Seg.lit ", ",
      Seg.inert (SystemsText stats.on_store_systems "on_store" d), Seg.lit ", ",
      Seg.inert (SystemsText stats.manual_systems "manual" d), Seg.lit ", ",
      Seg.inert (SystemsText stats.on_add_systems "on_add" d), Seg.lit ", ",
      Seg.inert (SystemsText stats.on_set_systems "on_set" d), Seg.lit ", ",
      Seg.inert (SystemsText stats.on_remove_systems "on_remove" d), Seg.lit "\x7d"]
    (ok_cons _ _ trivial
      (ok_cons _ _ (SystemsText_inert _ _ d (by decide)
        (hmem _ (fun s hs => by simp [listed_systems, measured_systems, hs])))
      (ok_cons _ _ trivial
      (ok_cons _ _ (SystemsText_inert _ _ d (by decide)
        (hmem _ (fun s hs => by simp [listed_systems, measured_systems, hs])))
      (ok_cons _ _ trivial
      (ok_cons _ _ (SystemsText_inert _ _ d (by decide)
        (hmem _ (fun s hs => by simp [listed_systems, measured_systems, hs])))
      (ok_cons _ _ trivial
      (ok_cons _ _ (SystemsText_inert _ _ d (by decide)
        (hmem _ (fun s hs => by simp [listed_systems, measured_systems, hs])))
      (ok_cons _ _ trivial
      (ok_cons _ _ (SystemsText_inert _ _ d (by decide)
        (hmem _ (fun s hs => by simp [listed_systems, measured_systems, hs])))
      (ok_cons _ _ trivial
      (ok_cons _ _ (SystemsText_inert _ _ d (by decide)
        (hmem _ (fun s hs => by simp [listed_systems, measured_systems, hs])))
      (ok_cons _ _ trivial
      (ok_cons _ _ (SystemsText_inert _ _ d (by decide)
        (hmem _ (fun s hs => by simp [listed_systems, measured_systems, hs])))
      (ok_cons _ _ trivial
      (ok_cons _ _ (SystemsText_inert _ _ d (by decide)
        (hmem _ (fun s hs => by simp [listed_systems, measured_systems, hs])))
      (ok_cons _ _ trivial
      (ok_cons _ _ (SystemsText_inert _ _ d (by decide)
        (hmem _ (fun s hs => by simp [listed_systems, measured_systems, hs])))
      (ok_cons _ _ trivial
      (ok_cons _ _ (SystemsText_inert _ _ d (by decide)
        (hmem _ (fun s hs => by simp [listed_systems, measured_systems, hs])))
      (ok_cons _ _ trivial
      (ok_cons _ _ (SystemsText_inert _ _ d (by decide)
        (hmem _ (fun s hs => by simp [listed_systems, measured_systems, hs])))
      (ok_cons _ _ trivial
      (ok_cons _ _ (SystemsText_inert _ _ d (by decide)
        (hmem _ (fun s hs => by simp [listed_systems, measured_systems, hs])))
      (ok_cons _ _ trivial ok_nil))))))))))))))))))))))))) rfl
  simpa [render, Seg.text, DocSystems, String.append_assoc] using h

theorem FeatureText_inert (f : EcsFeatureStats) (hid : CleanString f.id)
    (hent : CleanString f.entities) : Inert (FeatureText f) := by
  have h := Inert_of_check
    [Seg.lit "\x7b\"id\":\"", Seg.clean f.id, Seg.lit "\",\"entities\":\"",
      Seg.clean f.entities, Seg.lit "\",\"system_count\":", Seg.plain (fmt_u f.system_count),
      Seg.lit ",\"systems_enabled\":", Seg.plain (fmt_u f.systems_enabled),
      Seg.lit ",\"is_hidden\":", Seg.plain (fmt_bool f.is_hidden), Seg.lit "\x7d"]
    (ok_cons _ _ trivial (ok_cons _ _ hid (ok_cons _ _ trivial (ok_cons _ _ hent
      (ok_cons _ _ trivial (ok_cons _ _ (plain_fmt_u _) (ok_cons _ _ trivial
        (ok_cons _ _ (plain_fmt_u _) (ok_cons _ _ trivial (ok_cons _ _ (plain_fmt_bool _)
          (ok_cons _ _ trivial ok_nil))))))))))) rfl
  simpa [render, Seg.text, FeatureText, FeatureToJson, String.append_assoc] using h

theorem FeaturesText_eq (features : List EcsFeatureStats) :
    FeaturesText features =
      if features.length ≠ 0 then "," ++ FeaturesMember features else "" := by
  unfold FeaturesText AddFeaturesToJson FeaturesMember
  by_cases h : features.length = 0
  · simp [h]
  · simp only [ne_eq, h, not_false_eq_true, if_true]
    rw [json_loop_append _ FeatureToJson_append]
    simp only [String.empty_append, String.append_assoc]
    rfl

theorem FeaturesMember_flat (features : List EcsFeatureStats)
    (hclean : ∀ f ∈ features, CleanString f.id ∧ CleanString f.entities) :
    Flat (FeaturesMember features) := by
  have hl := LoopText_inert FeatureText features
    (fun f hf => FeatureText_inert f (hclean f hf).1 (hclean f hf).2) 0
  have h := Flat_of_check
    [Seg.lit "\"features\":[", Seg.inert (LoopText FeatureText 0 features), Seg.lit "]"]
    (ok_cons _ _ trivial (ok_cons _ _ hl (ok_cons _ _ trivial ok_nil))) rfl
  simpa [render, Seg.text, FeaturesMember] using h

theorem MemoryStat_inert (m : ecs_memory_stat_t) : Inert (MemoryStatToJson m) := by
  have h := Inert_of_check
    [Seg.lit "\x7b\"allocd\":", Seg.plain (fmt_u m.allocd), Seg.lit ",\"used\":",
      Seg.plain (fmt_u m.used), Seg.lit "\x7d"]
    (ok_cons _ _ trivial (ok_cons _ _ (plain_fmt_u _) (ok_cons _ _ trivial
      (ok_cons _ _ (plain_fmt_u _) (ok_cons _ _ trivial ok_nil))))) rfl
  simpa [render, Seg.text, MemoryStatToJson, String.append_assoc] using h

theorem DocMemory_flat (stats : ecs_world_stats_t) : Flat (DocMemory stats) := by
  have h := Flat_of_check
    [Seg.lit "\"memory\":\x7b\"total\":", Seg.inert (MemoryStatToJson stats.memory.total),
      Seg.lit ",\"components\":", Seg.inert (MemoryStatToJson stats.memory.components),
      Seg.lit ",\"entities\":", Seg.inert (MemoryStatToJson stats.memory.entities),
      Seg.lit ",\"systems\":", Seg.inert (MemoryStatToJson stats.memory.systems),
      Seg.lit ",\"families\":", Seg.inert (MemoryStatToJson stats.memory.families),
      Seg.lit ",\"tables\":", Seg.inert (MemoryStatToJson stats.memory.tables),
      Seg.lit ",\"stage\":", Seg.inert (MemoryStatToJson stats.memory.stage),
      Seg.lit ",\"world\":", Seg.inert (MemoryStatToJson stats.memory.world),
      Seg.lit "\x7d"]
    (ok_cons _ _ trivial (ok_cons _ _ (MemoryStat_inert _)
      (ok_cons _ _ trivial (ok_cons _ _ (MemoryStat_inert _)
      (ok_cons _ _ trivial (ok_cons _ _ (MemoryStat_inert _)
      (ok_cons _ _ trivial (ok_cons _ _ (MemoryStat_inert _)
      (ok_cons _ _ trivial (ok_cons _ _ (MemoryStat_inert _)
      (ok_cons _ _ trivial (ok_cons _ _ (MemoryStat_inert _)
      (ok_cons _ _ trivial (ok_cons _ _ (MemoryStat_inert _)
      (ok_cons _ _ trivial (ok_cons _ _ (MemoryStat_inert _)
      (ok_cons _ _ trivial ok_nil))))))))))))))))) rfl
  have e : DocMemory stats = render
      [Seg.lit "\"memory\":\x7b\"total\":", Seg.inert (MemoryStatToJson stats.memory.total),
        Seg.lit ",\"components\":", Seg.inert (MemoryStatToJson stats.memory.components),
        Seg.lit ",\"entities\":", Seg.inert (MemoryStatToJson stats.memory.entities),
        Seg.lit ",\"systems\":", Seg.inert (MemoryStatToJson stats.memory.systems),
        Seg.lit ",\"families\":", Seg.inert (MemoryStatToJson stats.memory.families),
        Seg.lit ",\"tables\":", Seg.inert (MemoryStatToJson stats.memory.tables),
        Seg.lit ",\"stage\":", Seg.inert (MemoryStatToJson stats.memory.stage),
        Seg.lit ",\"world\":", Seg.inert (MemoryStatToJson stats.memory.world),
        Seg.lit "\x7d"] := by
    unfold DocMemory
    simp only [render, Seg.text, String.append_assoc, String.append_empty]
    rfl
  rw [e]
  exact h

theorem MeasurementText_eq (member : String) (m : Measurement) :
    MeasurementText member m = "," ++ MeasurementMember member m := by
  unfold MeasurementText AddMeasurementToJson MeasurementMember
  simp only [AddRingBufToJson_append, String.empty_append, String.append_assoc]
  rfl

theorem MeasurementMember_flat (member : String) (m : Measurement)
    (hname : CleanString member) : Flat (MeasurementMember member m) := by
  have h := Flat_of_check
    [Seg.lit "\"", Seg.clean member, Seg.lit "\":\x7b\"current\":",
      Seg.plain (fmt_f m.current),
      Seg.inert (RingBufText "data_1m" m.data_1m), Seg.inert (RingBufText "data_1h" m.data_1h),
      Seg.inert (RingBufText "min_1h" m.min_1h), Seg.inert (RingBufText "max_1h" m.max_1h),
      Seg.lit "\x7d"]
    (ok_cons _ _ trivial (ok_cons _ _ hname (ok_cons _ _ trivial
      (ok_cons _ _ (plain_fmt_f _)
      (ok_cons _ _ (RingBufText_inert _ _ (by decide))
      (ok_cons _ _ (RingBufText_inert _ _ (by decide))
      (ok_cons _ _ (RingBufText_inert _ _ (by decide))
      (ok_cons _ _ (RingBufText_inert _ _ (by decide))
      (ok_cons _ _ trivial ok_nil))))))))) rfl
  have e : MeasurementMember member m = render
      [Seg.lit "\"", Seg.clean member, Seg.lit "\":\x7b\"current\":",
        Seg.plain (fmt_f m.current),
        Seg.inert (RingBufText "data_1m" m.data_1m),
        Seg.inert (RingBufText "data_1h" m.data_1h),
        Seg.inert (RingBufText "min_1h" m.min_1h), Seg.inert (RingBufText "max_1h" m.max_1h),
        Seg.lit "\x7d"] := by
    unfold MeasurementMember
    simp only [render, Seg.text, String.append_assoc, String.append_empty]
    rfl
  rw [e]
  exact h

theorem counter_flat (key value : String) (hkey : CleanString key)
    (hvalue : ∀ c ∈ value.data, PlainChar c) : Flat ("\"" ++ (key ++ ("\":" ++ value))) := by
  have h := Flat_of_check [Seg.lit "\"", Seg.clean key, Seg.lit "\":", Seg.plain value]
    (ok_cons _ _ trivial (ok_cons _ _ hkey (ok_cons _ _ trivial
      (ok_cons _ _ hvalue ok_nil)))) rfl
  simpa [render, Seg.text] using h

/-! ## The top-level members of the document -/

theorem scan_join (ms : List String) (hflat : ∀ m ∈ ms, Flat m) (hne : ms ≠ [])
    (mem : List (List Char)) :
    scan ⟨1, false, false, [], mem⟩ ((joinMembers ms).data ++ ['\x7d'])
      = ⟨0, false, false, [], mem ++ ms.map String.data⟩ := by
  induction ms generalizing mem with
  | nil => exact absurd rfl hne
  | cons m rest ih =>
    cases rest with
    | nil =>
      simp only [joinMembers]
      rw [scan_append, hflat m (List.mem_cons_self _ _)]
      simp [scan, scanChar]
    | cons m2 rest2 =>
      have hd : (joinMembers (m :: m2 :: rest2)).data ++ ['\x7d']
          = m.data ++ (',' :: ((joinMembers (m2 :: rest2)).data ++ ['\x7d'])) := by
        simp [joinMembers]
      rw [hd, scan_append, hflat m (List.mem_cons_self _ _), scan_cons]
      have hstep : scanChar ⟨1, false, false, [] ++ m.data, mem⟩ ','
          = ⟨1, false, false, [], mem ++ [m.data]⟩ := by
        simp [scanChar]
      rw [hstep, ih (fun x hx => hflat x (List.mem_cons_of_mem _ hx)) (by simp)]
      simp

theorem topMembers_join (ms : List String) (hflat : ∀ m ∈ ms, Flat m) (hne : ms ≠ []) :
    topMembers ("\x7b" ++ (joinMembers ms ++ "\x7d")) = ms := by
  unfold topMembers
  have hdata : ("\x7b" ++ (joinMembers ms ++ "\x7d")).data
      = '\x7b' :: ((joinMembers ms).data ++ ['\x7d']) := rfl
  rw [hdata, scan_cons]
  have hstep : scanChar ⟨0, false, false, [], []⟩ '\x7b' = ⟨1, false, false, [], []⟩ := by
    simp [scanChar]
  rw [hstep, scan_join ms hflat hne]
  simp only [List.nil_append, List.map_map]
  conv_rhs => rw [← List.map_id ms]
  apply List.map_congr_left
  intro s _
  rfl

theorem DocMembers_flat (stats : ecs_world_stats_t) (d : EcsAdminMeasurement)
    (hclean : CleanStats stats) : ∀ m ∈ DocMembers stats d, Flat m := by
  obtain ⟨hc, hs, hf⟩ := hclean
  intro m hm
  unfold DocMembers at hm
  simp only [List.mem_append, List.mem_cons, List.mem_singleton, List.not_mem_nil,
    or_false] at hm
  rcases hm with ((h | h | h | h | h | h | h | h | h | h) | h) | (h | h | h)
  · rw [h]; exact counter_flat "system_count" _ (by decide) (plain_fmt_u _)
  · rw [h]; exact counter_flat "component_count" _ (by decide) (plain_fmt_u _)
  · rw [h]; exact counter_flat "table_count" _ (by decide) (plain_fmt_u _)
  · rw [h]; exact counter_flat "entity_count" _ (by decide) (plain_fmt_u _)
  · rw [h]; exact counter_flat "thread_count" _ (by decide) (plain_fmt_u _)
  · rw [h]; exact counter_flat "frame_profiling" _ (by decide) (plain_fmt_bool _)
  · rw [h]; exact counter_flat "system_profiling" _ (by decide) (plain_fmt_bool _)
  · rw [h]; exact DocMemory_flat stats
  · rw [h]; exact ComponentsText_flat stats d hc
  · rw [h]; exact DocSystems_flat stats d hs
  · by_cases hl : stats.features.length = 0
    · simp [hl] at h
    · simp only [ne_eq, hl, not_false_eq_true, if_true, List.mem_singleton] at h
      rw [h]; exact FeaturesMember_flat _ hf
  · rw [h]; exact MeasurementMember_flat _ _ (by decide)
  · rw [h]; exact MeasurementMember_flat _ _ (by decide)
  · rw [h]; exact MeasurementMember_flat _ _ (by decide)

theorem JsonFromStats_join (stats : ecs_world_stats_t) (d : EcsAdminMeasurement) :
    JsonFromStats stats d = "\x7b" ++ (joinMembers (DocMembers stats d) ++ "\x7d") := by
  rw [JsonFromStats_eq]
  unfold DocMembers DocCounters
  apply String.ext
  by_cases hl : stats.features.length = 0
  · simp [hl, joinMembers, FeaturesText_eq, MeasurementText_eq, String.data_append]
  · simp [hl, joinMembers, FeaturesText_eq, MeasurementText_eq, String.data_append]

theorem topMembers_doc (stats : ecs_world_stats_t) (d : EcsAdminMeasurement)
    (hclean : CleanStats stats) :
    topMembers (JsonFromStats stats d) = DocMembers stats d := by
  rw [JsonFromStats_join]
  apply topMembers_join _ (DocMembers_flat stats d hclean)
  unfold DocMembers
  simp

theorem dropWhile_clean (l t : List Char) (h : ∀ c ∈ l, c ≠ '"' ∧ c ≠ '\\') :
    (l ++ '"' :: t).dropWhile (fun c => c ≠ '"') = '"' :: t ∧
    (l ++ '"' :: t).takeWhile (fun c => c ≠ '"') = l := by
  induction l with
  | nil => simp [List.dropWhile, List.takeWhile]
  | cons c rest ih =>
    have hc := (h c (List.mem_cons_self _ _)).1
    obtain ⟨h1, h2⟩ := ih (fun x hx => h x (List.mem_cons_of_mem _ hx))
    have hd : decide (c ≠ '"') = true := decide_eq_true hc
    rw [List.cons_append, List.dropWhile_cons, List.takeWhile_cons]
    simp only [hd, if_true]
    exact ⟨h1, by rw [h2]⟩

theorem memberKey_of_data (m key : String) (hkey : CleanString key)
    (h : ∃ t, m.data = '"' :: (key.data ++ '"' :: ':' :: t)) : memberKey m = some key := by
  obtain ⟨t, ht⟩ := h
  obtain ⟨h1, h2⟩ := dropWhile_clean key.data (':' :: t) hkey
  unfold memberKey
  rw [ht]
  simp only [h1, h2]

theorem memberKey_empty : memberKey "" = none := rfl

theorem topKeys_doc (stats : ecs_world_stats_t) (d : EcsAdminMeasurement)
    (hclean : CleanStats stats) :
    topKeys (JsonFromStats stats d) =
      [some "system_count", some "component_count", some "table_count",
        some "entity_count", some "thread_count", some "frame_profiling",
        some "system_profiling", some "memory",
        if stats.components.length ≠ 0 then some "components" else none,
        some "systems"]
      ++ (if stats.features.length ≠ 0 then [some "features"] else [])
      ++ [some "fps", some "frame", some "system"] := by
  unfold topKeys
  rw [topMembers_doc stats d hclean]
  unfold DocMembers
  have hcomp : memberKey (ComponentsText stats d)
      = if stats.components.length ≠ 0 then some "components" else none := by
    rw [ComponentsText_eq]
    by_cases h : stats.components.length = 0
    · simp only [ne_eq, h, not_true_eq_false, if_false]
      exact memberKey_empty
    · simp only [ne_eq, h, not_false_eq_true, if_true]
      exact memberKey_of_data _ "components" (by decide) ⟨_, rfl⟩
  have hmemory : memberKey (DocMemory stats) = some "memory" := by
    refine memberKey_of_data _ "memory" (by decide) ?_
    unfold DocMemory
    simp only [String.append_assoc]
    exact ⟨_, rfl⟩
  have hsystems : memberKey (DocSystems stats d) = some "systems" := by
    refine memberKey_of_data _ "systems" (by decide) ?_
    unfold DocSystems
    simp only [String.append_assoc]
    exact ⟨_, rfl⟩
  have hfeatures : memberKey (FeaturesMember stats.features) = some "features" :=
    memberKey_of_data _ "features" (by decide) ⟨_, rfl⟩
  have h1 : memberKey ("\"system_count\":" ++ fmt_u stats.system_count)
      = some "system_count" := memberKey_of_data _ "system_count" (by decide) ⟨_, rfl⟩
  have h2 : memberKey ("\"component_count\":" ++ fmt_u stats.component_count)
      = some "component_count" := memberKey_of_data _ "component_count" (by decide) ⟨_, rfl⟩
  have h3 : memberKey ("\"table_count\":" ++ fmt_u stats.table_count)
      = some "table_count" := memberKey_of_data _ "table_count" (by decide) ⟨_, rfl⟩
  have h4 : memberKey ("\"entity_count\":" ++ fmt_u stats.entity_count)
      = some "entity_count" := memberKey_of_data _ "entity_count" (by decide) ⟨_, rfl⟩
  have h5 : memberKey ("\"thread_count\":" ++ fmt_u stats.thread_count)
      = some "thread_count" := memberKey_of_data _ "thread_count" (by decide) ⟨_, rfl⟩
  have h6 : memberKey ("\"frame_profiling\":" ++ fmt_bool stats.frame_profiling)
      = some "frame_profiling" := memberKey_of_data _ "frame_profiling" (by decide) ⟨_, rfl⟩
  have h7 : memberKey ("\"system_profiling\":" ++ fmt_bool stats.system_profiling)
      = some "system_profiling" :=
    memberKey_of_data _ "system_profiling" (by decide) ⟨_, rfl⟩
  have hm : ∀ (name : String) (m : Measurement), CleanString name →
      memberKey (MeasurementMember name m) = some name := by
    intro name m hname
    refine memberKey_of_data _ name hname ?_
    unfold MeasurementMember
    simp only [String.append_assoc]
    exact ⟨_, rfl⟩
  have h8 := hm "fps" d.fps (by decide)
  have h9 := hm "frame" d.frame (by decide)
  have h10 := hm "system" d.system (by decide)
  by_cases hl : stats.features.length = 0
  · simp only [ne_eq, hl, not_true_eq_false, if_false, List.append_nil, List.map_append,
      List.map_cons, List.map_nil, h1, h2, h3, h4, h5, h6, h7, h8, h9, h10, hmemory, hcomp,
      hsystems]
  · simp only [ne_eq, hl, not_false_eq_true, if_true, List.map_append,
      List.map_cons, List.map_nil, h1, h2, h3, h4, h5, h6, h7, h8, h9, h10, hmemory, hcomp,
      hsystems, hfeatures]

theorem clean_stats_example : CleanStats stats_example := by
  refine ⟨?_, ?_, ?_⟩ <;> intro x hx <;> simp [stats_example, stats_empty, listed_systems,
    measured_systems] at hx

/-- C9, as amended: for every stats input that reports at least one component (the
strings it inserts holding no quote and no backslash), the document produced by
JsonFromStats is the text of its top-level members between a pair of braces, one comma
between neighbours; the keys of these members are, in order, the seven counters, memory,
components, systems, features when there is a feature, fps, frame and system, so that the
member "components":[...] occurs exactly once, between the memory member and the systems
member, and no member is empty; and that member is the list of the component records. -/
theorem C9_components_member_once (stats : ecs_world_stats_t) (d : EcsAdminMeasurement)
    (hclean : CleanStats stats) (hc : stats.components ≠ []) :
    JsonFromStats stats d
      = "\x7b" ++ (joinMembers (topMembers (JsonFromStats stats d)) ++ "\x7d") ∧
    topKeys (JsonFromStats stats d) =
      [some "system_count", some "component_count", some "table_count",
        some "entity_count", some "thread_count", some "frame_profiling",
        some "system_profiling", some "memory", some "components", some "systems"]
      ++ (if stats.features.length ≠ 0 then [some "features"] else [])
      ++ [some "fps", some "frame", some "system"] ∧
    (topMembers (JsonFromStats stats d))[8]?
      = some ("\"components\":["
          ++ (LoopText (fun c => ComponentText c d) 0 stats.components ++ "]")) := by
  have hlen : stats.components.length ≠ 0 := by
    intro h
    exact hc (List.length_eq_zero.mp h)
  refine ⟨?_, ?_, ?_⟩
  · rw [topMembers_doc stats d hclean]
    exact JsonFromStats_join stats d
  · rw [topKeys_doc stats d hclean]
    simp only [ne_eq, hlen, not_false_eq_true, if_true]
  · rw [topMembers_doc stats d hclean]
    unfold DocMembers
    rw [ComponentsText_eq]
    simp only [ne_eq, hlen, not_false_eq_true, if_true]
    rfl

theorem clean_stats_one_component : CleanStats stats_one_component := by
  refine ⟨?_, ?_, ?_⟩
  · intro c hc
    have : c.id = "Position" := by
      simp [stats_one_component] at hc
      rw [hc]
    rw [this]
    decide
  · intro x hx
    simp [stats_one_component, stats_example, stats_empty, listed_systems,
      measured_systems] at hx
  · intro x hx
    simp [stats_one_component, stats_example, stats_empty] at hx

/-- Witness of C9 as amended: the provider `stats_one_component` on the freshly started
component. -/
theorem C9_components_member_once_witness :
    (CleanStats stats_one_component ∧ stats_one_component.components ≠ []) ∧
    topKeys (JsonFromStats stats_one_component EcsAdminMeasurement_init) =
      [some "system_count", some "component_count", some "table_count",
        some "entity_count", some "thread_count", some "frame_profiling",
        some "system_profiling", some "memory", some "components", some "systems",
        some "fps", some "frame", some "system"] :=
  ⟨⟨clean_stats_one_component, by simp [stats_one_component]⟩,
    (C9_components_member_once stats_one_component EcsAdminMeasurement_init
      clean_stats_one_component (by simp [stats_one_component])).2.1⟩

theorem double_comma (rest : String) : "," ++ ("" ++ ("," ++ rest)) = ",," ++ rest := by
  apply String.ext
  simp

set_option maxRecDepth 100000 in
theorem topKeys_stats_quote :
    topKeys (JsonFromStats stats_quote EcsAdminMeasurement_init) =
      [some "system_count", some "component_count", some "table_count",
        some "entity_count", some "thread_count", some "frame_profiling",
        some "system_profiling", some "memory"] := by
  decide!

/-- Counterexample to C9 as stated: for the provider `stats_example`, which reports no
component, the document has no member "components" at all, and between the memory member
and the systems member it has an empty member: the two are separated by the two commas
`,,`.  For the provider `stats_quote`, whose component id holds a double quote, the
string literals of the document are out of step from that id on and no top-level member
follows the memory member. -/
theorem C9_counterexample_no_components :
    (topKeys (JsonFromStats stats_example EcsAdminMeasurement_init) =
        [some "system_count", some "component_count", some "table_count",
          some "entity_count", some "thread_count", some "frame_profiling",
          some "system_profiling", some "memory", none, some "systems",
          some "fps", some "frame", some "system"] ∧
      (topMembers (JsonFromStats stats_example EcsAdminMeasurement_init))[8]? = some "" ∧
      Contains (JsonFromStats stats_example EcsAdminMeasurement_init) ",,") ∧
    topKeys (JsonFromStats stats_quote EcsAdminMeasurement_init) =
      [some "system_count", some "component_count", some "table_count",
        some "entity_count", some "thread_count", some "frame_profiling",
        some "system_profiling", some "memory"] := by
  refine ⟨⟨?_, ?_, ?_⟩, topKeys_stats_quote⟩
  · rw [topKeys_doc stats_example EcsAdminMeasurement_init clean_stats_example]
    rfl
  · rw [topMembers_doc stats_example EcsAdminMeasurement_init clean_stats_example]
    rfl
  · have hcomp : ComponentsText stats_example EcsAdminMeasurement_init = "" := rfl
    rw [JsonFromStats_eq, hcomp, double_comma]
    exact Contains_right _ _ _ (Contains_right _ _ _ (Contains_right _ _ _
      (Contains_left _ _ _ (Contains_refl _))))

/-! ## The mean stays between the minimum and the maximum -/

theorem deref_store (b : ecs_ringbuf_t) (slot t : Nat) (v : ℚ)
    (hs : slot < b.storage.length) :
    (b.store slot v).deref t = if t = slot then v else b.deref t := by
  unfold ecs_ringbuf_t.store ecs_ringbuf_t.deref
  simp only [List.getD_eq_getElem?_getD, List.getElem?_set]
  by_cases h : t = slot
  · subst h
    simp [hs]
  · have h2 : ¬ slot = t := fun e => h e.symm
    simp [h, h2]

theorem deref_push (b : ecs_ringbuf_t) (t : Nat) (v : ℚ)
    (hs : b.W % b.cap < b.storage.length) :
    (ecs_ringbuf_push b v).deref t = if t = b.W % b.cap then v else b.deref t := by
  have h := deref_store b (b.W % b.cap) t v hs
  unfold ecs_ringbuf_t.store ecs_ringbuf_t.deref at h
  unfold ecs_ringbuf_push ecs_ringbuf_t.deref
  exact h

/-- One hourly buffer across a call of `AddMeasurement`: the slot of the last entry depends
only on the number of samples so far, and the call changes that slot only, to `f` of the
seed when the call starts a bucket and to `f` of the old value otherwise. -/
theorem hour_slot_step (n : Nat) (b : ecs_ringbuf_t) (seed : ℚ) (f : ℚ → ℚ)
    (h : HourShape n b) :
    ecs_ringbuf_last (if n % 60 = 0 then ecs_ringbuf_push b seed else b)
      = some (n / 60 % 60) ∧
    ∀ t,
      ((if n % 60 = 0 then ecs_ringbuf_push b seed else b).store (n / 60 % 60)
        (f ((if n % 60 = 0 then ecs_ringbuf_push b seed else b).deref (n / 60 % 60)))).deref t
      = if t = n / 60 % 60 then f (if n % 60 = 0 then seed else b.deref (n / 60 % 60))
        else b.deref t := by
  obtain ⟨hcap, hsl, hW⟩ := h
  have hlt : n / 60 % 60 < 60 := Nat.mod_lt _ (by decide)
  by_cases h0 : n % 60 = 0
  · simp only [h0, if_true]
    have hslot : b.W % b.cap = n / 60 % 60 := by
      rw [hcap, hW]
      have : (n + 59) / 60 = n / 60 := by omega
      rw [this]
    have hpl : b.W % b.cap < b.storage.length := by
      rw [hslot, hsl]
      exact hlt
    refine ⟨?_, ?_⟩
    · simp only [ecs_ringbuf_last, ecs_ringbuf_count, ecs_ringbuf_push, hcap, hW]
      have h1 : ¬ (min ((n + 59) / 60 + 1) 60 = 0) := by omega
      simp only [h1, if_false, Option.some.injEq]
      have : (n + 59) / 60 + 1 - 1 = n / 60 := by omega
      rw [this]
    · intro t
      have hlen : n / 60 % 60 < (ecs_ringbuf_push b seed).storage.length := by
        simp only [ecs_ringbuf_push, List.length_set, hsl]
        exact hlt
      rw [deref_store _ _ _ _ hlen, deref_push b _ seed hpl, deref_push b _ seed hpl, hslot]
      by_cases ht : t = n / 60 % 60
      · simp only [ht, if_true]
      · simp only [ht, if_false]
  · simp only [h0, if_false]
    refine ⟨?_, ?_⟩
    · simp only [ecs_ringbuf_last, ecs_ringbuf_count, hcap, hW]
      have h1 : ¬ (min ((n + 59) / 60) 60 = 0) := by omega
      simp only [h1, if_false, Option.some.injEq]
      have : (n + 59) / 60 - 1 = n / 60 := by omega
      rw [this]
    · intro t
      rw [deref_store _ _ _ _ (by rw [hsl]; exact hlt)]

theorem mean_between (mn v mx x : ℚ) (idx : Nat) (h1 : mn ≤ v) (h2 : v ≤ mx) :
    (if x < mn then x else mn) ≤ (v * (idx : ℚ) + x) / ((idx : ℚ) + 1) ∧
    (v * (idx : ℚ) + x) / ((idx : ℚ) + 1) ≤ (if x > mx then x else mx) := by
  have hpos : (0 : ℚ) < (idx : ℚ) + 1 := by positivity
  have hidx : (0 : ℚ) ≤ (idx : ℚ) := by positivity
  refine ⟨?_, ?_⟩
  · rw [le_div_iff₀ hpos]
    split_ifs with hx
    · nlinarith
    · have : mn ≤ x := not_lt.mp hx
      nlinarith
  · rw [div_le_iff₀ hpos]
    split_ifs with hx
    · nlinarith
    · have : x ≤ mx := not_lt.mp hx
      nlinarith

theorem AddMeasurement_ordered (m : Measurement) (x : ℚ) (hv : m.Valid) (ho : m.Ordered) :
    ∃ m2, AddMeasurement m x = some m2 ∧ m2.Valid ∧ m2.Ordered ∧
      m2.data_1m.W = m.data_1m.W + 1 ∧
      (m.data_1m.W % 60 = 0 →
        m2.min_1h.deref (m.data_1m.W / 60 % 60) = x ∧
        m2.data_1h.deref (m.data_1m.W / 60 % 60) = x ∧
        m2.max_1h.deref (m.data_1m.W / 60 % 60) = x) := by
  obtain ⟨m2, e, hv2, _, hd, _⟩ := AddMeasurement_valid m x hv
  obtain ⟨hcap, _, h1, h2, h3⟩ := hv
  obtain ⟨l1, d1⟩ := hour_slot_step m.data_1m.W m.data_1h 0
    (fun v => (v * ((m.data_1m.W % 60 : Nat) : ℚ) + x) / (((m.data_1m.W % 60 : Nat) : ℚ) + 1))
    h1
  obtain ⟨l2, d2⟩ := hour_slot_step m.data_1m.W m.min_1h x (fun v => if x < v then x else v) h2
  obtain ⟨l3, d3⟩ := hour_slot_step m.data_1m.W m.max_1h x (fun v => if x > v then x else v) h3
  have e2 := e
  rw [AddMeasurement_eq] at e2
  simp only [hcap, Nat.mod_mod, l1, l2, l3, Option.some.injEq] at e2
  have hmean : ∀ t, m2.data_1h.deref t =
      if t = m.data_1m.W / 60 % 60 then
        ((if m.data_1m.W % 60 = 0 then 0 else m.data_1h.deref (m.data_1m.W / 60 % 60))
          * ((m.data_1m.W % 60 : Nat) : ℚ) + x) / (((m.data_1m.W % 60 : Nat) : ℚ) + 1)
      else m.data_1h.deref t := fun t => by
    rw [← e2]
    exact d1 t
  have hmin : ∀ t, m2.min_1h.deref t =
      if t = m.data_1m.W / 60 % 60 then
        if x < (if m.data_1m.W % 60 = 0 then x else m.min_1h.deref (m.data_1m.W / 60 % 60))
        then x
        else (if m.data_1m.W % 60 = 0 then x else m.min_1h.deref (m.data_1m.W / 60 % 60))
      else m.min_1h.deref t := fun t => by
    rw [← e2]
    exact d2 t
  have hmax : ∀ t, m2.max_1h.deref t =
      if t = m.data_1m.W / 60 % 60 then
        if x > (if m.data_1m.W % 60 = 0 then x else m.max_1h.deref (m.data_1m.W / 60 % 60))
        then x
        else (if m.data_1m.W % 60 = 0 then x else m.max_1h.deref (m.data_1m.W / 60 % 60))
      else m.max_1h.deref t := fun t => by
    rw [← e2]
    exact d3 t
  refine ⟨m2, e, hv2, ?_, ?_, ?_⟩
  · intro t ht
    rw [hmean t, hmin t, hmax t]
    by_cases hts : t = m.data_1m.W / 60 % 60
    · simp only [hts, if_true]
      by_cases h0 : m.data_1m.W % 60 = 0
      · simp only [h0, if_true]
        norm_num
      · simp only [h0, if_false]
        have hslot : m.data_1m.W / 60 % 60 < 60 := Nat.mod_lt _ (by decide)
        exact mean_between _ _ _ x _ (ho _ hslot).1 (ho _ hslot).2
    · simp only [hts, if_false]
      exact ho t ht
  · rw [hd]
    rfl
  · intro h0
    rw [hmean, hmin, hmax]
    simp only [h0, if_true]
    norm_num

theorem Ordered_init : InitMeasurement.Ordered := by
  intro s _
  simp [InitMeasurement, ecs_ringbuf_new, ecs_ringbuf_t.deref, List.getD_eq_getElem?_getD,
    List.getElem?_replicate]

theorem feed_ordered (samples : List ℚ) :
    ∃ m, feed InitMeasurement samples = some m ∧ m.Valid ∧ m.Ordered ∧
      m.data_1m.W = samples.length := by
  induction samples using List.reverseRecOn with
  | nil => exact ⟨InitMeasurement, rfl, Valid_init, Ordered_init, rfl⟩
  | append_singleton xs x ih =>
    obtain ⟨m, hm, hv, ho, hW⟩ := ih
    obtain ⟨m2, hm2, hv2, ho2, hW2, _⟩ := AddMeasurement_ordered m x hv ho
    refine ⟨m2, by rw [feed_snoc, hm]; exact hm2, hv2, ho2, ?_⟩
    rw [hW2, hW]
    simp

theorem get_eq_deref (n : Nat) (b : ecs_ringbuf_t) (h : HourShape n b) (j : Nat)
    (hj : j < min ((n + 59) / 60) 60) :
    ecs_ringbuf_get b j
      = some (b.deref (((n + 59) / 60 - min ((n + 59) / 60) 60 + j) % 60)) := by
  obtain ⟨hcap, hsl, hW⟩ := h
  unfold ecs_ringbuf_get ecs_ringbuf_count ecs_ringbuf_t.deref
  rw [hcap, hW]
  simp only [hj, if_true, List.getD_eq_getElem?_getD]
  have hlt : ((n + 59) / 60 - min ((n + 59) / 60) 60 + j) % 60 < b.storage.length := by
    rw [hsl]
    exact Nat.mod_lt _ (by decide)
  rw [List.getElem?_eq_getElem hlt]
  rfl

/-- C12: after any non-empty sequence of AddMeasurement calls on a freshly initialised
Measurement the feed succeeds, the three hourly buffers retain the same number of buckets,
and every retained bucket j satisfies min_1h[j] ≤ data_1h[j] ≤ max_1h[j] (exact
arithmetic); when the last call started a new bucket (its mean seeded with 0), the newest
entries of min_1h, data_1h and max_1h all equal the last sample. -/
theorem C12_mean_between_min_and_max (samples : List ℚ) (hne : samples ≠ []) :
    ∃ m, feed InitMeasurement samples = some m ∧
      ecs_ringbuf_count m.min_1h = ecs_ringbuf_count m.data_1h ∧
      ecs_ringbuf_count m.max_1h = ecs_ringbuf_count m.data_1h ∧
      (∀ j, j < ecs_ringbuf_count m.data_1h →
        ∃ mn v mx, ecs_ringbuf_get m.min_1h j = some mn ∧
          ecs_ringbuf_get m.data_1h j = some v ∧
          ecs_ringbuf_get m.max_1h j = some mx ∧ mn ≤ v ∧ v ≤ mx) ∧
      (samples.length % 60 = 1 →
        ∃ x, samples.getLast? = some x ∧ m.min_1h.newest = some x ∧
          m.data_1h.newest = some x ∧ m.max_1h.newest = some x) := by
  obtain ⟨xs, x, rfl⟩ : ∃ xs x, samples = xs ++ [x] := by
    rcases List.eq_nil_or_concat samples with h | ⟨xs, x, h⟩
    · exact absurd h hne
    · exact ⟨xs, x, by rw [h]; simp⟩
  obtain ⟨m, hm, hv, ho, hW⟩ := feed_ordered xs
  obtain ⟨m2, hm2, hv2, ho2, hW2, hseed⟩ := AddMeasurement_ordered m x hv ho
  obtain ⟨_, _, s1, s2, s3⟩ := hv2
  have hn : m2.data_1m.W = xs.length + 1 := by rw [hW2, hW]
  rw [hn] at s1 s2 s3
  have c1 : ecs_ringbuf_count m2.data_1h = min ((xs.length + 1 + 59) / 60) 60 := by
    simp only [ecs_ringbuf_count, s1.1, s1.2.2]
  have c2 : ecs_ringbuf_count m2.min_1h = min ((xs.length + 1 + 59) / 60) 60 := by
    simp only [ecs_ringbuf_count, s2.1, s2.2.2]
  have c3 : ecs_ringbuf_count m2.max_1h = min ((xs.length + 1 + 59) / 60) 60 := by
    simp only [ecs_ringbuf_count, s3.1, s3.2.2]
  refine ⟨m2, by rw [feed_snoc, hm]; exact hm2, by rw [c2, c1], by rw [c3, c1], ?_, ?_⟩
  · intro j hj
    rw [c1] at hj
    have hslot : ((xs.length + 1 + 59) / 60 - min ((xs.length + 1 + 59) / 60) 60 + j) % 60
        < 60 := Nat.mod_lt _ (by decide)
    exact ⟨_, _, _, get_eq_deref _ _ s2 j hj, get_eq_deref _ _ s1 j hj,
      get_eq_deref _ _ s3 j hj, (ho2 _ hslot).1, (ho2 _ hslot).2⟩
  · intro h1
    simp only [List.length_append, List.length_singleton] at h1
    have h0 : m.data_1m.W % 60 = 0 := by
      rw [hW]
      omega
    obtain ⟨e1, e2, e3⟩ := hseed h0
    rw [hW] at e1 e2 e3
    have hpos : 0 < min ((xs.length + 1 + 59) / 60) 60 := by omega
    have hidx : ((xs.length + 1 + 59) / 60 - min ((xs.length + 1 + 59) / 60) 60
        + (min ((xs.length + 1 + 59) / 60) 60 - 1)) % 60 = xs.length / 60 % 60 := by
      omega
    refine ⟨x, by simp, ?_, ?_, ?_⟩
    · unfold ecs_ringbuf_t.newest
      rw [c2, get_eq_deref _ _ s2 _ (by omega), hidx, e1]
    · unfold ecs_ringbuf_t.newest
      rw [c1, get_eq_deref _ _ s1 _ (by omega), hidx, e2]
    · unfold ecs_ringbuf_t.newest
      rw [c3, get_eq_deref _ _ s3 _ (by omega), hidx, e3]

/-- Witness of C12: after the three samples 1, 2, 6 the single retained bucket has
minimum 1, mean 3 and maximum 6. -/
theorem C12_mean_between_min_and_max_witness :
    (([1, 2, 6] : List ℚ) ≠ []) ∧
    ∃ m, feed InitMeasurement [1, 2, 6] = some m ∧
      ∀ j, j < ecs_ringbuf_count m.data_1h →
        ∃ mn v mx, ecs_ringbuf_get m.min_1h j = some mn ∧
          ecs_ringbuf_get m.data_1h j = some v ∧
          ecs_ringbuf_get m.max_1h j = some mx ∧ mn ≤ v ∧ v ≤ mx := by
  refine ⟨by simp, ?_⟩
  obtain ⟨m, hm, _, _, h, _⟩ := C12_mean_between_min_and_max [1, 2, 6] (by simp)
  exact ⟨m, hm, h⟩

end Admin
